import Mathlib

/-!
# The simulation core of `veeru.cpp`

A shallow embedding of the game simulation of `src/veeru.cpp`: the global
variables become the fields of `State`, `intialize_base` and `draw` become
functions on `State`, and the GLFW keyboard callback becomes `keyboard`.

Conventions of the embedding.
* A C++ `double` is a rational number (`ℚ`); rounding is not represented.
  An `int` is an `Int`. The `double` `person_direction_in_reset_view` only ever
  holds integers (it is incremented, decremented and reduced modulo 4), so it
  is an `Int` and the cast `int(...)` of line 1375 is the identity.
* A global array that is updated in place is a function of its index
  (`heights i j`, `wall i`, `spike_y i`, `moving_base i`), with its counter
  (`no_of_walls`, `no_of_moving_base`) a natural number.
* The arrays `obstacles` and `empty_cube` are filled once, front to back
  (`arr[k]=...; k++`), and never written again: each is the list of the
  entries written, and its counter (`no_of_obstacles`, `no_of_pits`) is the
  length of that list.
* The key flags (`up_pressed`, `l_pressed`, ...) are globals, hence fields of
  `State`: "for every state" covers every input.
* Calls that only render (`drawobject`, `drawtexture`, `createCube`), the
  camera variables, the mouse variables and the arrow/key spin angles are left
  out: no simulation variable reads them.
* A `for` loop over an index range is a left fold over `List.range` or
  `List.range'`; consecutive statements of `draw` are separate functions,
  composed in source order.
* A run of the program is `Reachable`: `intialize_base`, then ticks of `draw`
  and key events in any order, with no tick after `gameend==1`.
-/

namespace Veeru

/-! ## Constants (`veeru.cpp` lines 353-354) -/

/-- The global `length_of_cube_base`. -/
def length_of_cube_base : ℚ := 25
/-- The global `length_of_base`. -/
def length_of_base : ℚ := 30
/-- The global `width_of_base`. -/
def width_of_base : ℚ := 30
/-- The global `height_of_base`. -/
def height_of_base : ℚ := 5

/-- World coordinate of the centre of grid line `i`:
`length_of_cube_base/2.0+(i-length_of_base/2.0)*length_of_cube_base`
(the source writes `width_of_base` in some places; both are 30). -/
def cell_center (i : Nat) : ℚ :=
  length_of_cube_base / 2 + ((i : ℚ) - length_of_base / 2) * length_of_cube_base

/-- The start coordinate `(length_of_cube_base*length_of_base-3*length_of_cube_base)/2`
of `person_x` and `person_z`. -/
def start_xz : ℚ := (length_of_cube_base * length_of_base - 3 * length_of_cube_base) / 2

/-- The rest height `length_of_cube_base*3/2.0+(height_of_base-2)*length_of_cube_base`. -/
def start_y : ℚ := length_of_cube_base * 3 / 2 + (height_of_base - 2) * length_of_cube_base

/-! ## Data model -/

/-- One row of `wall[5][4]`: 0-x, 1-z, 2-length, 3-direction. -/
structure Wall where
  x : ℚ
  z : ℚ
  length : ℚ
  direction : ℚ

/-- One row of `spike_y[12][2]`: 0-height offset, 1-direction. -/
structure Spike where
  y : ℚ
  direction : ℚ

/-- One row of `moving_base[30][5]`: 0-x, 1-y, 2-z, 3-vertical direction, 4-coin flag. -/
structure MovingBase where
  x : ℚ
  y : ℚ
  z : ℚ
  direction : ℚ
  coin : ℚ

/-- The global variables the simulation reads and writes, with the function
statics `prev_x`, `prev_y`, `prev_z` of `draw`. -/
structure State where
  heights : Nat → Nat → ℚ
  obstacles : List (ℚ × ℚ)
  empty_cube : List (ℚ × ℚ)
  wall : Nat → Wall
  no_of_walls : Nat
  spike_y : Nat → Spike
  moving_base : Nat → MovingBase
  no_of_moving_base : Nat
  gameover : ℚ
  gameend : Int
  key : ℚ
  reset_view : ℚ
  person_x : ℚ
  person_y : ℚ
  person_z : ℚ
  person_shift : ℚ
  fall_state : ℚ
  person_direction_in_reset_view : Int
  person_jump : ℚ
  jump_speed : ℚ
  jump_direction : ℚ
  up_pressed : Int
  down_pressed : Int
  right_pressed : Int
  left_pressed : Int
  l_pressed : Int
  person_hand_angle : ℚ
  hand_angle_speed : ℚ
  person_state : ℚ
  person_health : ℚ
  score : ℚ
  prev_x : ℚ
  prev_y : ℚ
  prev_z : ℚ

/-- Assignment `heights[a][b]=v`. -/
def setH (h : Nat → Nat → ℚ) (a b : Nat) (v : ℚ) : Nat → Nat → ℚ :=
  fun i j => if i = a ∧ j = b then v else h i j

/-- Assignment `arr[a]=v` in a one-dimensional array. -/
def setA {α : Type} (arr : Nat → α) (a : Nat) (v : α) : Nat → α :=
  fun i => if i = a then v else arr i

/-- The globals as their initialisers leave them (lines 338-372 and the statics
of `draw`); arrays are zero-initialised. `no_of_walls=2` and
`no_of_moving_base=4` are overwritten by `intialize_base`, as are
`no_of_obstacles` and `no_of_pits`. -/
def globals0 : State where
  heights := fun _ _ => 0
  obstacles := []
  empty_cube := []
  wall := fun _ => ⟨0, 0, 0, 0⟩
  no_of_walls := 2
  spike_y := fun _ => ⟨0, 0⟩
  moving_base := fun _ => ⟨0, 0, 0, 0, 0⟩
  no_of_moving_base := 4
  gameover := 0
  gameend := 0
  key := 0
  reset_view := 0
  person_x := start_xz
  person_y := start_y
  person_z := start_xz
  person_shift := 5
  fall_state := 0
  person_direction_in_reset_view := 0
  person_jump := 0
  jump_speed := 0
  jump_direction := 1
  up_pressed := 0
  down_pressed := 0
  right_pressed := 0
  left_pressed := 0
  l_pressed := 0
  person_hand_angle := 0
  hand_angle_speed := 5
  person_state := 0
  person_health := 100
  score := 0
  prev_x := 0
  prev_y := start_y
  prev_z := 0

/-! ## `intialize_base` (lines 390-558) -/

/-- Lines 392-394: every cell of the 30 x 30 grid gets `height_of_base`. -/
def base_fill (h : Nat → Nat → ℚ) : Nat → Nat → ℚ :=
  fun i j => if i < 30 ∧ j < 30 then height_of_base else h i j

/-- Lines 396-405, with `x = 29` and `(x-1)/2 = 14`. -/
def ring_rows (h : Nat → Nat → ℚ) : Nat → Nat → ℚ :=
  (List.range 30).foldl (fun h i =>
    let h1 := if i ≠ 15 ∧ i ≠ 16 then
        setH (setH h 29 i (height_of_base + 2)) 0 i (height_of_base + 2)
      else h
    setH h1 14 i (height_of_base + 1)) h

/-- Lines 406-412. -/
def ring_cols (h : Nat → Nat → ℚ) : Nat → Nat → ℚ :=
  (List.range 30).foldl (fun h i =>
    setH (setH (setH h i 29 (height_of_base + 2)) i 0 (height_of_base + 2))
      i 14 (height_of_base + 2)) h

/-- Lines 413-423: the walls of the first key room. -/
def key_room (h : Nat → Nat → ℚ) : Nat → Nat → ℚ :=
  [((28 : Nat), (24 : Nat)), (27, 24), (26, 24), (25, 24), (25, 23), (25, 22), (25, 21),
    (25, 20), (26, 20), (27, 20), (27, 21)].foldl
    (fun h c => setH h c.1 c.2 (height_of_base + 1)) h

/-- Body of the scan of lines 424-434: a cell that is not at base height and is
not one of the corridor cells is written to `obstacles[i2]`, and `i2++`. -/
def scan_cell (h : Nat → Nat → ℚ) (acc : List (ℚ × ℚ)) (i i1 : Nat) : List (ℚ × ℚ) :=
  if h i i1 ≠ height_of_base then
    if (i ≠ 14 ∨ (i1 ≠ 13 ∧ i1 ≠ 15 ∧ i1 ≠ 16 ∧ i1 ≠ 14)) ∧
        (i1 ≠ 14 ∨ (i ≠ 13 ∧ i ≠ 12)) then
      acc ++ [(cell_center i, cell_center i1)]
    else acc
  else acc

/-- Lines 424-434. -/
def scan (h : Nat → Nat → ℚ) (acc : List (ℚ × ℚ)) : List (ℚ × ℚ) :=
  (List.range 30).foldl (fun acc i =>
    (List.range 30).foldl (fun acc i1 => scan_cell h acc i i1) acc) acc

/-- Lines 438-455: the six obstacle points placed by hand, in source order. -/
def manual_obstacles (acc : List (ℚ × ℚ)) : List (ℚ × ℚ) :=
  [((14 : Nat), (13 : Nat)), (14, 14), (13, 14), (12, 14), (14, 15), (14, 16)].foldl
    (fun acc c => acc ++ [(cell_center c.1, cell_center c.2)]) acc

/-- Lines 458-477: the first lake. -/
def lake1 (h : Nat → Nat → ℚ) : Nat → Nat → ℚ :=
  (List.range' 2 10).foldl (fun h i =>
    (List.range' 15 14).foldl (fun h l =>
      let h1 := if i ≠ 7 ∧ l ≠ 22 then setH h i l 4 else h
      if (i = 7 ∨ i = 6 ∨ i = 5) ∧ (l = 22 ∨ l = 23 ∨ l = 21) then setH h1 i l 4 else h1) h) h

/-- Body of the loop of lines 478-492: the three pit cells of row `i`, each
set to height 0 and written to `empty_cube[k]`, with `k++`. -/
def pit_row (acc : (Nat → Nat → ℚ) × List (ℚ × ℚ)) (i : Nat) :
    (Nat → Nat → ℚ) × List (ℚ × ℚ) :=
  [(4 : Nat), 8, 12].foldl (fun acc j =>
    (setH acc.1 i j 0, acc.2 ++ [(cell_center i, cell_center j)])) acc

/-- Lines 478-492. -/
def pits (acc : (Nat → Nat → ℚ) × List (ℚ × ℚ)) : (Nat → Nat → ℚ) × List (ℚ × ℚ) :=
  (List.range' 1 13).foldl pit_row acc

/-- Lines 493-500: the second lake. -/
def lake2 (h : Nat → Nat → ℚ) : Nat → Nat → ℚ :=
  (List.range' 17 6).foldl (fun h i1 =>
    (List.range' 15 14).foldl (fun h i => setH h i1 i 4) h) h

/-- Lines 506-518: the three walls. -/
def init_wall (w : Nat → Wall) : Nat → Wall :=
  setA (setA (setA w 0 ⟨-300, cell_center 4, length_of_cube_base * 2, 1⟩)
    1 ⟨-200, cell_center 8, length_of_cube_base * 2, 1⟩)
    2 ⟨-100, cell_center 12, length_of_cube_base * 2, 1⟩

/-- Lines 519-532: the twelve spikes, all with direction 1. -/
def init_spike_y (sp : Nat → Spike) : Nat → Spike :=
  let sp0 := ([50, 60, 70, 80, 90, 100, 100, 90, 80, 70, 60, 50] : List ℚ).enum.foldl
    (fun sp p => setA sp p.1 ⟨p.2, (sp p.1).direction⟩) sp
  (List.range 12).foldl (fun sp i => setA sp i ⟨(sp i).y, 1⟩) sp0

/-- Lines 533-557: the five moving platforms. -/
def init_moving_base (mb : Nat → MovingBase) : Nat → MovingBase :=
  setA (setA (setA (setA (setA mb 0 ⟨185, 100, 200, 1, 1⟩) 1 ⟨125, 100, 250, 1, 1⟩)
    2 ⟨125, 100, 200, 1, 1⟩) 3 ⟨125, 100, 150, 1, 1⟩) 4 ⟨65, 100, 200, 1, 1⟩

/-- The function `intialize_base`. -/
def intialize_base (s : State) : State :=
  let h1 := key_room (ring_cols (ring_rows (base_fill s.heights)))
  let p := pits (lake1 h1, [])
  { s with
    heights := lake2 p.1
    obstacles := manual_obstacles (scan h1 [])
    empty_cube := p.2
    wall := init_wall s.wall
    no_of_walls := 3
    spike_y := init_spike_y s.spike_y
    moving_base := init_moving_base s.moving_base
    no_of_moving_base := 5 }

/-- The state in which the main loop starts: the initialisers, then
`intialize_base` (called from `initGL`). -/
def init : State := intialize_base globals0

/-! ## The keyboard callback (lines 670-827) -/

/-- The keys of the callback `keyboard` that touch a simulation variable; every
other key (camera keys, `P`, `ESC`, ...) is `other`. -/
inductive Key where
  | RIGHT | LEFT | DOWN | UP | L | SPACE | Z | X | R | T | U | Y | N | H | other

/-- The GLFW key actions. -/
inductive Action where
  | RELEASE | PRESS | REPEAT

/-- The callback `keyboard`, restricted to the simulation variables. -/
def keyboard (key : Key) (action : Action) (s : State) : State :=
  match action with
  | .RELEASE =>
    match key with
    | .RIGHT => { s with right_pressed := 0 }
    | .LEFT => { s with left_pressed := 0 }
    | .DOWN => { s with down_pressed := 0 }
    | .UP => { s with up_pressed := 0 }
    | .L => { s with l_pressed := 0 }
    | _ => s
  | .PRESS =>
    match key with
    | .RIGHT =>
      { s with
        right_pressed := 1
        person_direction_in_reset_view :=
          if s.reset_view = 1 then s.person_direction_in_reset_view + 1
          else s.person_direction_in_reset_view }
    | .L => { s with l_pressed := 1 }
    | .LEFT =>
      { s with
        left_pressed := 1
        person_direction_in_reset_view :=
          if s.reset_view = 1 then s.person_direction_in_reset_view - 1
          else s.person_direction_in_reset_view }
    | .DOWN => { s with down_pressed := 1 }
    | .UP => { s with up_pressed := 1 }
    | .T => { s with reset_view := 0 }
    | .R => { s with reset_view := 1 }
    | .U => { s with reset_view := 0 }
    | .Y => { s with reset_view := 0 }
    | .N => { s with reset_view := 0 }
    | .H => { s with reset_view := 0 }
    | .SPACE => { s with person_jump := 1 }
    | .Z =>
      { s with
        person_shift := if s.person_shift - 0.5 < 0 then 0 else s.person_shift - 0.5 }
    | .X =>
      { s with
        person_shift := if s.person_shift + 0.5 > 8 then 8 else s.person_shift + 0.5 }
    | .other => s
  | .REPEAT => s

/-! ## `draw` (lines 1368-2057), one tick -/

/-- The idiom `if (v<0) v*=-1;`. -/
def flip_neg (v : ℚ) : ℚ := if v < 0 then v * -1 else v

/-- Line 1375: `person_direction_in_reset_view=(int(...)+4)%4`, with the
truncating remainder of C++. -/
def normalize_direction (s : State) : State :=
  { s with
    person_direction_in_reset_view := Int.tmod (s.person_direction_in_reset_view + 4) 4 }

/-- The bound `(length_of_cube_base*width_of_base+length_of_cube_base)/2` of
lines 1376-1379. -/
def level_edge : ℚ := (length_of_cube_base * width_of_base + length_of_cube_base) / 2

/-- Lines 1376-1377. -/
def bounds_x (s : State) : State :=
  if s.person_x ≥ level_edge ∨ s.person_x ≤ -1 * level_edge then
    { s with fall_state := 1 } else s

/-- Lines 1378-1379. -/
def bounds_z (s : State) : State :=
  if s.person_z ≥ level_edge ∨ s.person_z ≤ -1 * level_edge then
    { s with fall_state := 1 } else s

/-- Lines 1376-1379: leaving the level sets `fall_state`. -/
def bounds (s : State) : State := bounds_z (bounds_x s)

/-- One step of movement: the hand swings and the position shifts by
`dx`, `dz` times `person_shift`. -/
def step_by (dx dz : ℚ) (s : State) : State :=
  { s with
    person_hand_angle := s.person_hand_angle + s.hand_angle_speed
    person_x := s.person_x + dx * s.person_shift
    person_z := s.person_z + dz * s.person_shift }

/-- One block `if (person_direction_in_reset_view==d) { if (up_pressed==1) ... }`
of lines 1392-1427. -/
def walk_facing (d : Int) (dx dz : ℚ) (s : State) : State :=
  if s.person_direction_in_reset_view = d ∧ s.up_pressed = 1 then step_by dx dz s else s

/-- Lines 1431-1437. -/
def walk_right (s : State) : State :=
  if s.right_pressed = 1 then step_by 0 (-1) s else s

/-- Lines 1438-1444. -/
def walk_left (s : State) : State :=
  if s.left_pressed = 1 then step_by 0 1 s else s

/-- Lines 1445-1451. -/
def walk_down (s : State) : State :=
  if s.down_pressed = 1 then step_by 1 0 s else s

/-- Lines 1452-1458. -/
def walk_up (s : State) : State :=
  if s.up_pressed = 1 then step_by (-1) 0 s else s

/-- Lines 1390-1463: movement from the direction flags. -/
def move (s : State) : State :=
  if s.reset_view = 1 then
    walk_facing 0 0 1 (walk_facing 3 1 0 (walk_facing 2 0 (-1) (walk_facing 1 (-1) 0 s)))
  else
    walk_up (walk_down (walk_left (walk_right s)))

/-- Lines 1464-1465. -/
def hand_reset (s : State) : State :=
  if s.left_pressed = 0 ∧ s.right_pressed = 0 ∧ s.up_pressed = 0 ∧ s.down_pressed = 0 then
    { s with person_hand_angle := 0 } else s

/-- Lines 1472-1473. -/
def health_decay (s : State) : State :=
  if s.person_y + s.jump_speed < 112.5 then
    { s with person_health := s.person_health - 0.1 } else s

/-- Lines 1490-1493. -/
def hand_speed (s : State) : State :=
  if s.person_hand_angle > 30 then { s with hand_angle_speed := -5 }
  else if s.person_hand_angle < -30 then { s with hand_angle_speed := 5 }
  else s

/-- The guard of line 1508. -/
def respawn_fires (s : State) : Prop :=
  s.l_pressed = 1 ∨ s.person_health ≤ 0 ∨ s.gameover = 1

instance (s : State) : Decidable (respawn_fires s) :=
  inferInstanceAs (Decidable (s.l_pressed = 1 ∨ s.person_health ≤ 0 ∨ s.gameover = 1))

/-- Lines 1510-1523, the body of the respawn block, with `(x-2)/2 = 14`. -/
def respawn_body (s : State) : State :=
  { s with
    person_x := start_xz
    person_z := start_xz
    person_y := start_y
    key := 0
    fall_state := 0
    person_health := 100
    gameover := 0
    heights :=
      setH (setH (setH (setH (setH (setH s.heights 14 15 (height_of_base + 1))
        13 14 (height_of_base + 2)) 12 14 (height_of_base + 2))
        14 13 (height_of_base + 1)) 14 14 (height_of_base + 1)) 14 16 (height_of_base + 1) }

/-- Lines 1508-1524: the respawn step. -/
def respawn (s : State) : State :=
  if respawn_fires s then respawn_body s else s

/-- Lines 1527-1528. -/
def jump_rise (s : State) : State :=
  if s.jump_direction = 1 then { s with jump_speed := s.jump_speed + 1.5 } else s

/-- Lines 1529-1533. -/
def jump_sink (s : State) : State :=
  if s.jump_speed > length_of_cube_base + 10 ∨ s.jump_direction = -1 then
    { s with jump_speed := s.jump_speed - 1, jump_direction := -1 } else s

/-- Lines 1534-1538. -/
def jump_land (s : State) : State :=
  if s.jump_speed = 0 then { s with person_jump := 0, jump_direction := 1 } else s

/-- Lines 1525-1539: the jump step. -/
def jump (s : State) : State :=
  if s.person_jump = 1 then jump_land (jump_sink (jump_rise s)) else s

/-- Lines 1546-1551, with `(x-2)/2 = 14`. -/
def unlock1 (s : State) : State :=
  if s.key ≥ 1 then
    { s with heights := setH (setH s.heights 14 15 height_of_base) 14 16 height_of_base }
  else s

/-- Lines 1552-1557. -/
def unlock2 (s : State) : State :=
  if s.key ≥ 2 then
    { s with heights := setH (setH s.heights 13 14 height_of_base) 12 14 height_of_base }
  else s

/-- Lines 1558-1563. -/
def unlock3 (s : State) : State :=
  if s.key ≥ 3 then
    { s with heights := setH (setH s.heights 14 13 height_of_base) 14 14 height_of_base }
  else s

/-- Lines 1546-1563: collected keys lower the gating cells to base height. -/
def unlock (s : State) : State := unlock3 (unlock2 (unlock1 s))

/-- Lines 1585-1623 (and 1642-1685): the player against the cell `(i2, i)`. -/
def cell_test (i2 i : Nat) (s : State) : State :=
  let var1 := flip_neg (s.person_x - cell_center i2)
  let var3 := flip_neg (s.person_z - cell_center i)
  let var2 := s.person_y -
    (length_of_cube_base / 2 + (s.heights i2 i - 1) * length_of_cube_base)
  if var1 < length_of_cube_base / 2 ∧ var3 < length_of_cube_base / 2 ∧ var2 > 0 then
    { s with person_y := s.person_y - 1, person_health := s.person_health - 0.15 }
  else if var1 < length_of_cube_base / 2 ∧ var3 < length_of_cube_base / 2 ∧ var2 < 0 then
    if s.person_jump = 0 then
      { s with person_y := s.prev_y, person_x := s.prev_x, person_z := s.prev_z }
    else
      { s with
        person_y := (length_of_cube_base / 2 + (s.heights i2 i - 1) * length_of_cube_base)
          + length_of_cube_base / 2 + 0.5
        person_jump := 0
        jump_direction := 1
        jump_speed := 0 }
  else s

/-- The nested loops `for (i2 = start1; i2 < end1) for (i = start2; i < end2)`
around the cell test. -/
def cell_pass (start1 end1 start2 end2 : Nat) (s : State) : State :=
  (List.range' start1 (end1 - start1)).foldl (fun s i2 =>
    (List.range' start2 (end2 - start2)).foldl (fun s i => cell_test i2 i s) s) s

/-- Lines 1566-1625: the block `if (key>=0)`, cells `14..29` by `14..29`. -/
def terrain0 (s : State) : State :=
  if s.key ≥ 0 then cell_pass 14 30 14 30 s else s

/-- Lines 1626-1686: the block `if (key>=1)`, cells `0..14` by `14..29`. -/
def terrain1 (s : State) : State :=
  if s.key ≥ 1 then cell_pass 0 15 14 30 s else s

/-- Lines 1566-1730: the four quadrant blocks. The blocks for `key>=2` and
`key>=3` (lines 1687-1730) only render their cells. -/
def terrain (s : State) : State := terrain1 (terrain0 s)

/-- Lines 1735-1743: the player against one pit point. -/
def pit_test (p : ℚ × ℚ) (s : State) : State :=
  let var1 := s.person_x - p.1
  let var2 := s.person_z - p.2
  if s.person_y + s.jump_speed = start_y then
    if var1 < length_of_cube_base / 2 ∧ var1 > -1 * length_of_cube_base / 2 ∧
        var2 < length_of_cube_base / 2 ∧ var2 > -1 * length_of_cube_base / 2 then
      { s with fall_state := 1 }
    else s
  else s

/-- Lines 1732-1747: the pit pass. -/
def pit_pass (s : State) : State :=
  if s.person_state = 0 then s.empty_cube.foldl (fun s p => pit_test p s) s else s

/-- Lines 1750-1757: the player against one obstacle point. -/
def obstacle_test (p : ℚ × ℚ) (s : State) : State :=
  let var1 := s.person_x - p.1
  let var2 := s.person_z - p.2
  if var1 < 5 * length_of_cube_base / 6 ∧ var1 > -5 * length_of_cube_base / 6 ∧
      var2 < 5 * length_of_cube_base / 6 ∧ var2 > -5 * length_of_cube_base / 6 then
    { s with person_z := s.prev_z, person_y := s.prev_y, person_x := s.prev_x }
  else s

/-- Lines 1748-1758: `for (i = 0; i < no_of_obstacles-2*key; i++)`. The loop
condition is tested at every index of the list; the body writes neither `key`
nor `obstacles`, so the indices that pass are the initial segment the loop runs
over. (For a negative `key` the source would also read entries past
`no_of_obstacles`, which the list does not have.) -/
def obstacle_pass (s : State) : State :=
  s.obstacles.enum.foldl (fun s p =>
    if (p.1 : ℚ) < (s.obstacles.length : ℚ) - 2 * s.key then obstacle_test p.2 s else s) s

/-- Lines 1760-1764. -/
def pickup0 (s : State) : State :=
  if s.person_x ≤ 290 ∧ s.person_x ≥ 280 ∧ s.person_z ≤ 170 ∧ s.person_z ≥ 160 ∧ s.key = 0 then
    { s with score := s.score + 20, key := 1 } else s

/-- Lines 1765-1769. -/
def pickup1 (s : State) : State :=
  if s.person_x ≥ -345 ∧ s.person_x ≤ -335 ∧ s.person_z ≤ 340 ∧ s.person_z ≥ 330 ∧
      s.key = 1 then
    { s with score := s.score + 50, key := 2 } else s

/-- Lines 1770-1774. -/
def pickup2 (s : State) : State :=
  if s.person_x ≥ -340 ∧ s.person_x ≤ -330 ∧ s.person_z ≥ -340 ∧ s.person_z ≤ -330 ∧
      s.key = 2 then
    { s with score := s.score + 60, key := 3 } else s

/-- Lines 1775-1779. -/
def pickup3 (s : State) : State :=
  if s.person_x ≤ 340 ∧ s.person_x ≥ 330 ∧ s.person_z ≥ -340 ∧ s.person_z ≤ -330 ∧
      s.key = 3 then
    { s with score := s.score + 60, gameend := 1 } else s

/-- Lines 1760-1779: the four pickup zones, tested in sequence. -/
def pickups (s : State) : State := pickup3 (pickup2 (pickup1 (pickup0 s)))

/-- Lines 1780-1789: the fall step. -/
def fall (s : State) : State :=
  if s.fall_state = 1 then
    let s1 := { s with person_z := s.prev_z, person_y := s.prev_y - 1, person_x := s.prev_x }
    if s1.person_y < 0 then { s1 with gameover := 1 } else s1
  else s

/-- Lines 1854-1871: wall `i` against the player. -/
def wall_hit (i : Nat) (s : State) : State :=
  let var1 := flip_neg (s.person_x - (s.wall i).x)
  let var2 := flip_neg (s.person_z - (s.wall i).z)
  if (var1 > 0 ∧ var1 < (s.wall i).length + length_of_cube_base / 3) ∧
      (var2 > 0 ∧ var2 < length_of_cube_base) then
    { s with
      person_z := s.prev_z
      person_y := s.prev_y
      person_x := s.prev_x
      wall := if var2 > 0 ∧ var2 < length_of_cube_base then
          setA s.wall i { s.wall i with direction := (s.wall i).direction * -1 }
        else s.wall
      person_health := s.person_health - 0.1
      gameover := 1 }
  else s

/-- Lines 1873-1876: wall `i` moves by 5 in its direction. -/
def wall_advance (i : Nat) (s : State) : State :=
  if (s.wall i).direction = 1 then
    { s with wall := setA s.wall i { s.wall i with x := (s.wall i).x + 5 } }
  else { s with wall := setA s.wall i { s.wall i with x := (s.wall i).x - 5 } }

/-- Lines 1877-1880: wall `i` turns at the ends of its lane. -/
def wall_turn (i : Nat) (s : State) : State :=
  if (s.wall i).x + (s.wall i).length + length_of_cube_base > 0 then
    { s with wall := setA s.wall i { s.wall i with direction := (s.wall i).direction * -1 } }
  else if (s.wall i).x < -300 then
    { s with wall := setA s.wall i { s.wall i with direction := (s.wall i).direction * -1 } }
  else s

/-- Lines 1854-1881: the body of the wall loop. -/
def wall_iter (i : Nat) (s : State) : State := wall_turn i (wall_advance i (wall_hit i s))

/-- Lines 1850-1883: the wall pass. -/
def wall_pass (s : State) : State :=
  if s.key ≥ 2 then (List.range s.no_of_walls).foldl (fun s i => wall_iter i s) s else s

/-- Lines 1903-1910: the animation step of one spike. -/
def spike_step (sp : Spike) : Spike :=
  let sp1 : Spike := if sp.y ≥ 100 then { sp with direction := -1 }
    else if sp.y ≤ 45 then { sp with direction := 1 } else sp
  if sp1.direction = 1 then { sp1 with y := sp1.y + 0.5 } else { sp1 with y := sp1.y - 0.5 }

/-- Lines 1889-1902: spike `i` against the player. -/
def spike_hit (i : Nat) (s : State) : State :=
  let var1 := flip_neg (s.person_x - 200)
  let var2 := flip_neg (s.person_y - (s.spike_y i).y)
  let var3 := flip_neg (s.person_z + 40 + (i : ℚ) * 30)
  if var2 ≥ 0 ∧ var2 < 50 ∧ var1 ≥ 0 ∧ var1 ≤ 20 ∧ var3 ≥ 0 ∧ var3 ≤ 15 then
    { s with gameover := 1 } else s

/-- Lines 1903-1910: spike `i` is animated. -/
def spike_advance (i : Nat) (s : State) : State :=
  { s with spike_y := setA s.spike_y i (spike_step (s.spike_y i)) }

/-- Lines 1888-1910: the body of the spike loop. -/
def spike_iter (i : Nat) (s : State) : State := spike_advance i (spike_hit i s)

/-- Lines 1884-1912: the spike pass, `for (int i = 0; i <11;i++)`. -/
def spike_pass (s : State) : State :=
  if s.key ≥ 3 then (List.range 11).foldl (fun s i => spike_iter i s) s else s

/-- Lines 2003-2010: the animation step of one platform. -/
def platform_step (m : MovingBase) : MovingBase :=
  let m1 : MovingBase := if m.y > 120 then { m with direction := -1 }
    else if m.y ≤ 60 then { m with direction := 1 } else m
  if m1.direction = 1 then { m1 with y := m1.y + 0.5 } else { m1 with y := m1.y - 0.5 }

/-- Lines 2003-2010: platform `i` is animated. -/
def platform_advance (i : Nat) (s : State) : State :=
  { s with moving_base := setA s.moving_base i (platform_step (s.moving_base i)) }

/-- Lines 2025-2031: a player below the platform top is put back. -/
def platform_block (var3 : ℚ) (s : State) : State :=
  if var3 ≤ 0 ∧ s.person_state = 0 then
    { s with person_x := s.prev_x, person_y := s.prev_y, person_z := s.prev_z }
  else s

/-- Lines 2032-2037: landing on platform `i` collects its coin. -/
def platform_land (i : Nat) (var1 var2 var3 : ℚ) (s : State) : State :=
  if var3 ≤ 12.5 ∧ var3 ≥ 0 ∧ (var1 < 19 ∧ var2 < 19) then
    { s with
      score := if (s.moving_base i).coin = 1 then s.score + 20 else s.score
      person_state := 1
      moving_base := setA s.moving_base i { s.moving_base i with coin := 0 } }
  else s

/-- Lines 2038-2039. -/
def platform_leave (var1 var2 : ℚ) (s : State) : State :=
  if var1 ≥ 19 ∨ var2 ≥ 19 then { s with person_state := 0 } else s

/-- Lines 2040-2044: a riding player is carried. -/
def platform_carry (i : Nat) (s : State) : State :=
  if s.person_state = 1 then { s with person_y := (s.moving_base i).y + 40 + 12.5 } else s

/-- Lines 2011-2046: the player against platform `i`; `var1`, `var2`, `var3`
are computed once, before the tests. -/
def platform_touch (i : Nat) (s : State) : State :=
  let var1 := flip_neg (s.person_x - (s.moving_base i).x)
  let var2 := flip_neg (s.person_z - (s.moving_base i).z)
  let var3 := s.person_y - (s.moving_base i).y - 40
  if (var1 ≥ 0 ∧ var1 ≤ 30) ∧ (var2 ≥ 0 ∧ var2 ≤ 30) then
    platform_carry i (platform_leave var1 var2 (platform_land i var1 var2 var3
      (platform_block var3 s)))
  else s

/-- Lines 2000-2046: the body of the platform loop. -/
def platform_iter (i : Nat) (s : State) : State := platform_touch i (platform_advance i s)

/-- Lines 1996-2048: the platform pass. -/
def platform_pass (s : State) : State :=
  if s.key ≥ 0 then
    (List.range s.no_of_moving_base).foldl (fun s i => platform_iter i s) s
  else s

/-- Lines 2054-2056: the position is saved as the last-safe position. -/
def save_prev (s : State) : State :=
  { s with prev_x := s.person_x, prev_z := s.person_z, prev_y := s.person_y }

/-- The part of a tick before the respawn check (lines 1375-1507). -/
def before_respawn (s : State) : State :=
  hand_speed (health_decay (hand_reset (move (bounds (normalize_direction s)))))

/-- The part of a tick after the respawn step (lines 1525-2056). -/
def after_respawn (s : State) : State :=
  save_prev (platform_pass (spike_pass (wall_pass (fall (pickups (obstacle_pass
    (pit_pass (terrain (unlock (jump s))))))))))

/-- The function `draw`: one tick. -/
def draw (s : State) : State :=
  after_respawn (respawn (before_respawn s))

/-- The states of a run of `main`: `intialize_base`, then the loop of line 2263,
which calls `draw` until `gameend==1`, with key events in between. -/
inductive Reachable : State → Prop
  | init : Reachable init
  | draw (s : State) : Reachable s → s.gameend ≠ 1 → Reachable (draw s)
  | keyboard (s : State) (k : Key) (a : Action) : Reachable s → Reachable (keyboard k a s)


/-! ## Tables and predicates used by the proofs -/

/-- The grid cells whose centres `intialize_base` writes to `obstacles`, in the
order of the array: the 172 cells found by the scan, then the six placed by
hand (`init_obstacles_eq` proves it from the code). -/
def obstacle_cells : List (Nat × Nat) :=
  [(0, 0), (0, 1), (0, 2), (0, 3), (0, 4), (0, 5), (0, 6), (0, 7), (0, 8), (0, 9),
    (0, 10), (0, 11), (0, 12), (0, 13), (0, 14), (0, 17), (0, 18), (0, 19), (0, 20), (0, 21),
    (0, 22), (0, 23), (0, 24), (0, 25), (0, 26), (0, 27), (0, 28), (0, 29), (1, 0), (1, 14),
    (1, 29), (2, 0), (2, 14), (2, 29), (3, 0), (3, 14), (3, 29), (4, 0), (4, 14), (4, 29),
    (5, 0), (5, 14), (5, 29), (6, 0), (6, 14), (6, 29), (7, 0), (7, 14), (7, 29), (8, 0),
    (8, 14), (8, 29), (9, 0), (9, 14), (9, 29), (10, 0), (10, 14), (10, 29), (11, 0), (11, 14),
    (11, 29), (12, 0), (12, 29), (13, 0), (13, 29), (14, 0), (14, 1), (14, 2), (14, 3), (14, 4),
    (14, 5), (14, 6), (14, 7), (14, 8), (14, 9), (14, 10), (14, 11), (14, 12), (14, 17), (14, 18),
    (14, 19), (14, 20), (14, 21), (14, 22), (14, 23), (14, 24), (14, 25), (14, 26), (14, 27), (14, 28),
    (14, 29), (15, 0), (15, 14), (15, 29), (16, 0), (16, 14), (16, 29), (17, 0), (17, 14), (17, 29),
    (18, 0), (18, 14), (18, 29), (19, 0), (19, 14), (19, 29), (20, 0), (20, 14), (20, 29), (21, 0),
    (21, 14), (21, 29), (22, 0), (22, 14), (22, 29), (23, 0), (23, 14), (23, 29), (24, 0), (24, 14),
    (24, 29), (25, 0), (25, 14), (25, 20), (25, 21), (25, 22), (25, 23), (25, 24), (25, 29), (26, 0),
    (26, 14), (26, 20), (26, 24), (26, 29), (27, 0), (27, 14), (27, 20), (27, 21), (27, 24), (27, 29),
    (28, 0), (28, 14), (28, 24), (28, 29), (29, 0), (29, 1), (29, 2), (29, 3), (29, 4), (29, 5),
    (29, 6), (29, 7), (29, 8), (29, 9), (29, 10), (29, 11), (29, 12), (29, 13), (29, 14), (29, 17),
    (29, 18), (29, 19), (29, 20), (29, 21), (29, 22), (29, 23), (29, 24), (29, 25), (29, 26), (29, 27),
    (29, 28), (29, 29), (14, 13), (14, 14), (13, 14), (12, 14), (14, 15), (14, 16)]

/-- The point of `obstacles` that belongs to a grid cell. -/
def cell_point (c : Nat × Nat) : ℚ × ℚ := (cell_center c.1, cell_center c.2)

/-- The six gating cells that the respawn and unlock steps write. -/
def Gating (i j : Nat) : Prop :=
  (i = 14 ∧ j = 15) ∨ (i = 14 ∧ j = 16) ∨ (i = 13 ∧ j = 14) ∨ (i = 12 ∧ j = 14) ∨
    (i = 14 ∧ j = 13) ∨ (i = 14 ∧ j = 14)

/-- The state of a tick after the unlock step (line 1563). -/
def at_unlock (s : State) : State := unlock (jump (respawn (before_respawn s)))

/-- The state of a tick when the pickup step is reached (line 1759). -/
def at_pickups (s : State) : State := obstacle_pass (pit_pass (terrain (at_unlock s)))

/-- The values `key` takes. -/
def KeyOK (k : ℚ) : Prop := k = 0 ∨ k = 1 ∨ k = 2 ∨ k = 3

/-- The values a cell may hold: pit, water, base, base+1, base+2. -/
def LegalHeight (v : ℚ) : Prop := v = 0 ∨ v = 4 ∨ v = 5 ∨ v = 6 ∨ v = 7

/-- Every cell of the grid holds a legal height. -/
def HeightsOK (h : Nat → Nat → ℚ) : Prop := ∀ i j, LegalHeight (h i j)

/-- The player's `(x, z)` lies in the box `[x0, x1]` by `[z0, z1]`. -/
def InBox (x0 x1 z0 z1 : ℚ) (s : State) : Prop :=
  x0 ≤ s.person_x ∧ s.person_x ≤ x1 ∧ z0 ≤ s.person_z ∧ s.person_z ≤ z1

/-- A spike offset within its bounds and on the half-unit grid of its steps. -/
def SpikeOK (sp : Spike) : Prop := 45 ≤ sp.y ∧ sp.y ≤ 100 ∧ ∃ n : ℤ, sp.y = n / 2

/-- Two platform records that agree in everything but the coin flag. -/
def SameMotion (m m' : MovingBase) : Prop :=
  m'.x = m.x ∧ m'.y = m.y ∧ m'.z = m.z ∧ m'.direction = m.direction

/-- The grid cells whose centres `intialize_base` writes to `empty_cube`, in the
order of the array (`init_pits_eq` proves it from the code). -/
def pit_cells : List (Nat × Nat) :=
  [(1, 4), (1, 8), (1, 12), (2, 4), (2, 8), (2, 12), (3, 4), (3, 8), (3, 12), (4, 4),
    (4, 8), (4, 12), (5, 4), (5, 8), (5, 12), (6, 4), (6, 8), (6, 12), (7, 4), (7, 8),
    (7, 12), (8, 4), (8, 8), (8, 12), (9, 4), (9, 8), (9, 12), (10, 4), (10, 8), (10, 12),
    (11, 4), (11, 8), (11, 12), (12, 4), (12, 8), (12, 12), (13, 4), (13, 8), (13, 12)]

/-- A scenario state: the initial state with the player put on the centre of
the cell (26, 21), which lies in pickup zone 0. -/
def in_zone0 : State := { init with person_x := 287.5, person_z := 162.5 }

/-- The grid before the lakes and pits are carved, in closed form
(`ring_grid_eq` proves it from the loops of `intialize_base`). -/
def ring_grid (i j : Nat) : ℚ :=
  if (i, j) ∈ [((28 : Nat), (24 : Nat)), (27, 24), (26, 24), (25, 24), (25, 23), (25, 22),
      (25, 21), (25, 20), (26, 20), (27, 20), (27, 21)] then height_of_base + 1
  else if i < 30 ∧ (j = 14 ∨ j = 0 ∨ j = 29) then height_of_base + 2
  else if j < 30 ∧ i = 14 then height_of_base + 1
  else if j < 30 ∧ j ≠ 15 ∧ j ≠ 16 ∧ (i = 0 ∨ i = 29) then height_of_base + 2
  else if i < 30 ∧ j < 30 then height_of_base
  else 0

/-- The grid that `intialize_base` builds, in closed form (`init_heights_eq`
proves it from the loops of `intialize_base`). -/
def init_grid (i j : Nat) : ℚ :=
  if 17 ≤ i ∧ i < 23 ∧ 15 ≤ j ∧ j < 29 then 4
  else if 1 ≤ i ∧ i < 14 ∧ (j = 12 ∨ j = 8 ∨ j = 4) then 0
  else if 2 ≤ i ∧ i < 12 ∧ 15 ≤ j ∧ j < 29 ∧
      ((i ≠ 7 ∧ j ≠ 22) ∨ ((i = 7 ∨ i = 6 ∨ i = 5) ∧ (j = 22 ∨ j = 23 ∨ j = 21))) then 4
  else ring_grid i j

/-- A player at rest on the start cell with no key pressed: the state of a run
in which nothing has been pressed yet. -/
def Idle (s : State) : Prop :=
  (s.person_x = start_xz ∧ s.person_z = start_xz ∧ s.person_y = start_y) ∧
  (s.key = 0 ∧ s.score = 0 ∧ s.gameover = 0 ∧ s.gameend = 0) ∧
  (s.fall_state = 0 ∧ s.person_health = 100 ∧ s.person_state = 0) ∧
  (s.person_jump = 0 ∧ s.jump_speed = 0) ∧
  (s.l_pressed = 0 ∧ s.up_pressed = 0 ∧ s.down_pressed = 0 ∧ s.left_pressed = 0 ∧
    s.right_pressed = 0) ∧
  (s.obstacles = init.obstacles ∧ s.empty_cube = init.empty_cube ∧ s.heights 28 28 = 5) ∧
  (s.no_of_moving_base = 5 ∧ ∀ j, j < 5 → (s.moving_base j).x ≤ 185)

/-- A platform height within the range it really sweeps, on the half-unit grid
of its steps. -/
def PlatformOK (m : MovingBase) : Prop := 60 ≤ m.y ∧ m.y ≤ 120.5 ∧ ∃ n : ℤ, m.y = n / 2

/-- Two states agree on the three jump variables. -/
def SameJump (s t : State) : Prop :=
  s.person_jump = t.person_jump ∧ s.jump_speed = t.jump_speed ∧
    s.jump_direction = t.jump_direction

/-- The guard of line 1862: wall `i` touches the player. -/
def wall_touch (i : Nat) (s : State) : Prop :=
  (flip_neg (s.person_x - (s.wall i).x) > 0 ∧
      flip_neg (s.person_x - (s.wall i).x) < (s.wall i).length + length_of_cube_base / 3) ∧
    (flip_neg (s.person_z - (s.wall i).z) > 0 ∧
      flip_neg (s.person_z - (s.wall i).z) < length_of_cube_base)

/-- Lines 1873-1880 on one row of `wall`: the move by 5, then the two tests for
a turn (`wall_patrol_eq` proves it is what `wall_advance` and `wall_turn` do). -/
def wall_patrol (w : Wall) : Wall :=
  let w1 : Wall := if w.direction = 1 then { w with x := w.x + 5 } else { w with x := w.x - 5 }
  if w1.x + w1.length + length_of_cube_base > 0 then { w1 with direction := w1.direction * -1 }
  else if w1.x < -300 then { w1 with direction := w1.direction * -1 }
  else w1

/-- The invariant of a patrolling wall: length 50, `x` a multiple of 5 in
`[-305, -70]`, direction `1` or `-1`, and at the two ends the direction points
back into the lane. -/
def WallOK (w : Wall) : Prop :=
  w.length = 50 ∧ (∃ n : ℤ, w.x = 5 * n) ∧ -305 ≤ w.x ∧ w.x ≤ -70 ∧
    (w.direction = 1 ∨ w.direction = -1) ∧ (w.x = -70 → w.direction = -1) ∧
    (w.x = -305 → w.direction = 1)

/-- A state with three keys and the player inside the box of spike 11 (the
spike drawn at `(200, spike_y[11][0], -40 - 11*30)`). -/
def on_spike_11 : State :=
  { init with key := 3, person_x := 200, person_y := 50, person_z := -370 }

/-- The guard of lines 1737-1738: the player is drawn at rest height and stands
strictly inside the cube around the pit point `p`. -/
def pit_under (p : ℚ × ℚ) (s : State) : Prop :=
  s.person_y + s.jump_speed = start_y ∧
    (s.person_x - p.1 < length_of_cube_base / 2 ∧ s.person_x - p.1 > -1 * length_of_cube_base / 2 ∧
      s.person_z - p.2 < length_of_cube_base / 2 ∧ s.person_z - p.2 > -1 * length_of_cube_base / 2)

/-- A state in the air over the pit cell (1, 4): the jump is on its way down
with `jump_speed = 1`, and `person_y` is 1 below the rest height. -/
def over_pit_mid_jump : State :=
  { init with
    person_x := cell_center 1
    person_z := cell_center 4
    person_y := 111.5
    person_jump := 1
    jump_speed := 1
    jump_direction := -1 }

/-- Every gating cell is at least at base height. -/
def GatesUp (h : Nat → Nat → ℚ) : Prop := ∀ i j, Gating i j → 5 ≤ h i j

/-- The row-major index of a cell of the 30 x 30 grid. -/
def cell_code (c : Nat × Nat) : Nat := c.1 * 30 + c.2

/-- A list of numbers is strictly increasing. -/
def increasing : List Nat → Bool
  | [] => true
  | [_] => true
  | a :: b :: l => decide (a < b) && increasing (b :: l)

/-- The player is strictly inside the column of cell `(i2, i)`: the first two
conjuncts of the tests of lines 1602 and 1607. -/
def in_cell (i2 i : Nat) (s : State) : Prop :=
  flip_neg (s.person_x - cell_center i2) < length_of_cube_base / 2 ∧
    flip_neg (s.person_z - cell_center i) < length_of_cube_base / 2

/-- The initial state with the player lowered to `y = 100`, which is below the
standing height 112.5 of the start cell (28, 28); no jump is on. -/
def below_column : State := { init with person_y := 100 }

/-- A state with three keys and the player on the centre of cell (5, 5), in
the quadrant of the block `if (key>=2)`, grounded and below the standing height
112.5 of the cell. -/
def in_quadrant2 : State :=
  { init with key := 3, person_x := cell_center 5, person_z := cell_center 5, person_y := 100 }

/-- The same in the quadrant of the block `if (key>=3)`: cell (20, 5). -/
def in_quadrant3 : State :=
  { init with key := 3, person_x := cell_center 20, person_z := cell_center 5, person_y := 100 }

/-- A state with one key, the gating cells (14, 15) and (14, 16) lowered by the
unlock step, and the player on the centre of the gating cell (14, 15), 13 above
its standing height (where a landing puts the player). -/
def on_gate : State :=
  unlock { init with
    key := 1
    person_x := cell_center 14
    person_z := cell_center 15
    person_y := 125.5 }

/-! ## A run, tick by tick

The scalars of a state and the five platform rows are collected in a `Snap`;
`run` executes key events and ticks on it, checking at every tick the conditions
under which the terrain, pit and obstacle loops of `draw` reduce to a single cell
test (`draw_fast`). -/

/-- The value `n`, evaluated before it is passed on. -/
def force_nat {α : Type} (n : Nat) (k : Nat → α) : α :=
  match n with
  | 0 => k 0
  | m + 1 => k (m + 1)

/-- The value `z`, evaluated before it is passed on. -/
def force_int {α : Type} (z : Int) (k : Int → α) : α :=
  match z with
  | Int.ofNat n => force_nat n (fun m => k (Int.ofNat m))
  | Int.negSucc n => force_nat n (fun m => k (Int.negSucc m))

/-- The value `q`, evaluated before it is passed on. -/
def force_rat {α : Type} (q : ℚ) (k : ℚ → α) : α :=
  force_int q.num (fun n => force_nat q.den (fun d => k (mkRat n d)))

/-- The row `m`, evaluated before it is passed on. -/
def force_mb {α : Type} (m : MovingBase) (k : MovingBase → α) : α :=
  force_rat m.x (fun x => force_rat m.y (fun y => force_rat m.z (fun z =>
    force_rat m.direction (fun d => force_rat m.coin (fun c => k ⟨x, y, z, d, c⟩)))))

/-- The scalar variables of a state and the rows of the five platforms. -/
structure Snap where
  gameover : ℚ
  gameend : Int
  key : ℚ
  reset_view : ℚ
  person_x : ℚ
  person_y : ℚ
  person_z : ℚ
  person_shift : ℚ
  fall_state : ℚ
  person_direction_in_reset_view : Int
  person_jump : ℚ
  jump_speed : ℚ
  jump_direction : ℚ
  up_pressed : Int
  down_pressed : Int
  right_pressed : Int
  left_pressed : Int
  l_pressed : Int
  person_hand_angle : ℚ
  hand_angle_speed : ℚ
  person_state : ℚ
  person_health : ℚ
  score : ℚ
  prev_x : ℚ
  prev_y : ℚ
  prev_z : ℚ
  mb0 : MovingBase
  mb1 : MovingBase
  mb2 : MovingBase
  mb3 : MovingBase
  mb4 : MovingBase

/-- The state with the scalars and platform rows of `p`; the grid, the obstacle
and pit lists, the walls and the spikes are those of `intialize_base`. -/
def toState (p : Snap) : State where
  heights := init_grid
  obstacles := obstacle_cells.map cell_point
  empty_cube := pit_cells.map cell_point
  wall := init.wall
  no_of_walls := 3
  spike_y := init.spike_y
  moving_base := fun i =>
    if i = 0 then p.mb0 else if i = 1 then p.mb1 else if i = 2 then p.mb2
    else if i = 3 then p.mb3 else if i = 4 then p.mb4 else init.moving_base i
  no_of_moving_base := 5
  gameover := p.gameover
  gameend := p.gameend
  key := p.key
  reset_view := p.reset_view
  person_x := p.person_x
  person_y := p.person_y
  person_z := p.person_z
  person_shift := p.person_shift
  fall_state := p.fall_state
  person_direction_in_reset_view := p.person_direction_in_reset_view
  person_jump := p.person_jump
  jump_speed := p.jump_speed
  jump_direction := p.jump_direction
  up_pressed := p.up_pressed
  down_pressed := p.down_pressed
  right_pressed := p.right_pressed
  left_pressed := p.left_pressed
  l_pressed := p.l_pressed
  person_hand_angle := p.person_hand_angle
  hand_angle_speed := p.hand_angle_speed
  person_state := p.person_state
  person_health := p.person_health
  score := p.score
  prev_x := p.prev_x
  prev_y := p.prev_y
  prev_z := p.prev_z

/-- The scalars and platform rows of a state. -/
def fromState (s : State) : Snap where
  gameover := s.gameover
  gameend := s.gameend
  key := s.key
  reset_view := s.reset_view
  person_x := s.person_x
  person_y := s.person_y
  person_z := s.person_z
  person_shift := s.person_shift
  fall_state := s.fall_state
  person_direction_in_reset_view := s.person_direction_in_reset_view
  person_jump := s.person_jump
  jump_speed := s.jump_speed
  jump_direction := s.jump_direction
  up_pressed := s.up_pressed
  down_pressed := s.down_pressed
  right_pressed := s.right_pressed
  left_pressed := s.left_pressed
  l_pressed := s.l_pressed
  person_hand_angle := s.person_hand_angle
  hand_angle_speed := s.hand_angle_speed
  person_state := s.person_state
  person_health := s.person_health
  score := s.score
  prev_x := s.prev_x
  prev_y := s.prev_y
  prev_z := s.prev_z
  mb0 := s.moving_base 0
  mb1 := s.moving_base 1
  mb2 := s.moving_base 2
  mb3 := s.moving_base 3
  mb4 := s.moving_base 4

/-- The snap `p` with every number evaluated, passed on to `k`. -/
def freeze {α : Type} (p : Snap) (k : Snap → α) : α :=
  force_rat p.gameover (fun v_gameover =>
  force_int p.gameend (fun v_gameend =>
  force_rat p.key (fun v_key =>
  force_rat p.reset_view (fun v_reset_view =>
  force_rat p.person_x (fun v_person_x =>
  force_rat p.person_y (fun v_person_y =>
  force_rat p.person_z (fun v_person_z =>
  force_rat p.person_shift (fun v_person_shift =>
  force_rat p.fall_state (fun v_fall_state =>
  force_int p.person_direction_in_reset_view (fun v_person_direction_in_reset_view =>
  force_rat p.person_jump (fun v_person_jump =>
  force_rat p.jump_speed (fun v_jump_speed =>
  force_rat p.jump_direction (fun v_jump_direction =>
  force_int p.up_pressed (fun v_up_pressed =>
  force_int p.down_pressed (fun v_down_pressed =>
  force_int p.right_pressed (fun v_right_pressed =>
  force_int p.left_pressed (fun v_left_pressed =>
  force_int p.l_pressed (fun v_l_pressed =>
  force_rat p.person_hand_angle (fun v_person_hand_angle =>
  force_rat p.hand_angle_speed (fun v_hand_angle_speed =>
  force_rat p.person_state (fun v_person_state =>
  force_rat p.person_health (fun v_person_health =>
  force_rat p.score (fun v_score =>
  force_rat p.prev_x (fun v_prev_x =>
  force_rat p.prev_y (fun v_prev_y =>
  force_rat p.prev_z (fun v_prev_z =>
  force_mb p.mb0 (fun v_mb0 =>
  force_mb p.mb1 (fun v_mb1 =>
  force_mb p.mb2 (fun v_mb2 =>
  force_mb p.mb3 (fun v_mb3 =>
  force_mb p.mb4 (fun v_mb4 =>
    k ⟨v_gameover, v_gameend, v_key, v_reset_view, v_person_x, v_person_y, v_person_z,
      v_person_shift, v_fall_state, v_person_direction_in_reset_view, v_person_jump,
      v_jump_speed, v_jump_direction, v_up_pressed, v_down_pressed, v_right_pressed,
      v_left_pressed, v_l_pressed, v_person_hand_angle, v_hand_angle_speed,
      v_person_state, v_person_health, v_score, v_prev_x, v_prev_y, v_prev_z, v_mb0,
      v_mb1, v_mb2, v_mb3, v_mb4⟩)))))))))))))))))))))))))))))))

/-- The parts of a state that `toState` takes from `intialize_base`. -/
def Static (s : State) : Prop :=
  s.heights = init_grid ∧ s.obstacles = obstacle_cells.map cell_point ∧
    s.empty_cube = pit_cells.map cell_point ∧ s.wall = init.wall ∧ s.no_of_walls = 3 ∧
    s.spike_y = init.spike_y ∧ s.no_of_moving_base = 5 ∧
    ∀ i, 5 ≤ i → s.moving_base i = init.moving_base i

instance (i2 i : Nat) (s : State) : Decidable (in_cell i2 i s) :=
  inferInstanceAs (Decidable
    (flip_neg (s.person_x - cell_center i2) < length_of_cube_base / 2 ∧
      flip_neg (s.person_z - cell_center i) < length_of_cube_base / 2))

instance (x0 x1 z0 z1 : ℚ) (s : State) : Decidable (InBox x0 x1 z0 z1 s) :=
  inferInstanceAs (Decidable
    (x0 ≤ s.person_x ∧ s.person_x ≤ x1 ∧ z0 ≤ s.person_z ∧ s.person_z ≤ z1))

/-- The index of the grid line whose cube holds the coordinate `x`. -/
def cell_of (x : ℚ) : Nat := Int.toNat ⌊(x + 375) / 25⌋

/-- The test of the one cell whose cube holds the player. -/
def fast_terrain (s : State) : State :=
  cell_test (cell_of s.person_x) (cell_of s.person_z) s

/-- A tick with the terrain step replaced by the test of the player's cell and
without the pit and obstacle loops; `draw_fast` proves that this is `draw` when
`tick_ok` holds. -/
def fast_draw (s : State) : State :=
  save_prev (platform_pass (spike_pass (wall_pass (fall (pickups
    (fast_terrain (at_unlock s)))))))

/-- Boxes `(x0, x1, z0, z1)` of the level in which no obstacle point is within
reach of the player (`clear_boxes_far`). -/
def clear_boxes : List (ℚ × ℚ × ℚ × ℚ) :=
  [(200, 340, 260, 340), (200, 240, 200, 340)]

/-- The conditions, checked on the state a tick starts from, under which
`fast_draw` is `draw`: the game is on, no respawn fires, no key has been
collected, the player is strictly inside the cube of a cell of the first
collision block and the test of that cell does not move the player sideways,
no pit and no obstacle is within reach, and the walls and spikes stay switched
off. -/
def tick_ok (s : State) : Bool :=
  decide (s.gameend ≠ 1 ∧ ¬ respawn_fires (before_respawn s) ∧
    (0 ≤ (at_unlock s).key ∧ (at_unlock s).key < 1) ∧
    (in_cell (cell_of (at_unlock s).person_x) (cell_of (at_unlock s).person_z) (at_unlock s) ∧
      14 ≤ cell_of (at_unlock s).person_x ∧ cell_of (at_unlock s).person_x < 30 ∧
      14 ≤ cell_of (at_unlock s).person_z ∧ cell_of (at_unlock s).person_z < 30) ∧
    ((fast_terrain (at_unlock s)).person_x = (at_unlock s).person_x ∧
      (fast_terrain (at_unlock s)).person_z = (at_unlock s).person_z) ∧
    (fast_terrain (at_unlock s)).person_z ≥ -50 ∧
    (∃ bx ∈ clear_boxes, InBox bx.1 bx.2.1 bx.2.2.1 bx.2.2.2 (fast_terrain (at_unlock s))) ∧
    (pickups (fast_terrain (at_unlock s))).key < 2)

/-- Key events, in order. -/
def apply_keys (ks : List (Key × Action)) (s : State) : State :=
  ks.foldl (fun s ka => keyboard ka.1 ka.2 s) s

/-- A run on snaps: before each tick the key events of the list entry; the
result is `none` when a tick does not pass `tick_ok`. -/
def run : List (List (Key × Action)) → Snap → Option Snap
  | [], p => some p
  | ks :: rest, p =>
    if tick_ok (apply_keys ks (toState p)) then
      freeze (fromState (fast_draw (apply_keys ks (toState p)))) (fun q => run rest q)
    else none

/-- The key events of a run of 162 ticks: 27 ticks with `UP` held (the player
walks from the start cell to `x = 202.5`), 21 ticks with `RIGHT` held (to
`z = 232.5`, just outside platform 0), 110 ticks without a key (the platform
comes down), 3 ticks with `RIGHT` held (onto the platform, at `z = 217.5`), and
one tick with `DOWN` held (off the platform, to `x = 207.5`). -/
def platform_trip : List (List (Key × Action)) :=
  [[(Key.UP, Action.PRESS)]] ++ List.replicate 26 [] ++
  [[(Key.UP, Action.RELEASE), (Key.RIGHT, Action.PRESS)]] ++ List.replicate 20 [] ++
  [[(Key.RIGHT, Action.RELEASE)]] ++ List.replicate 109 [] ++
  [[(Key.RIGHT, Action.PRESS)]] ++ List.replicate 2 [] ++
  [[(Key.RIGHT, Action.RELEASE), (Key.DOWN, Action.PRESS)]]

deriving instance DecidableEq for MovingBase

deriving instance DecidableEq for Snap

/-- The snap at the end of the run `platform_trip` (`run_trip` proves it): the
player stands at `(207.5, 112, 217.5)` with `DOWN` still held, platform 0 has
lost its coin, and every platform is at its lowest point. -/
def trip_end : Snap :=
  { gameover := 0, gameend := 0, key := 0, reset_view := 0, person_x := 207.5, person_y := 112,
    person_z := 217.5, person_shift := 5, fall_state := 0, person_direction_in_reset_view := 0,
    person_jump := 0, jump_speed := 0, jump_direction := 1, up_pressed := 0, down_pressed := 1,
    right_pressed := 0, left_pressed := 0, l_pressed := 0, person_hand_angle := -20,
    hand_angle_speed := -5, person_state := 0, person_health := 99.85, score := 20,
    prev_x := 207.5, prev_y := 112, prev_z := 217.5,
    mb0 := ⟨185, 60, 200, -1, 0⟩, mb1 := ⟨125, 60, 250, -1, 1⟩, mb2 := ⟨125, 60, 200, -1, 1⟩,
    mb3 := ⟨125, 60, 150, -1, 1⟩, mb4 := ⟨65, 60, 200, -1, 1⟩ }

/-- The box of wall `i` as the specification states it: the player is closer to
the wall's point than the wall's length along `x`, and closer than one cube
along `z`. -/
def in_wall_box (i : Nat) (s : State) : Prop :=
  |s.person_x - (s.wall i).x| < (s.wall i).length ∧
    |s.person_z - (s.wall i).z| < length_of_cube_base

/-- A state with two keys and the player on the centre line of the lane of
wall 0 (`z = wall[0][1]`), 10 away from the wall's point along `x`. -/
def on_wall_line : State :=
  { init with key := 2, person_x := -290, person_z := cell_center 4 }

/-- The guard of line 1899: the test of spike `i` against the player. -/
def spike_touch (i : Nat) (s : State) : Prop :=
  flip_neg (s.person_y - (s.spike_y i).y) ≥ 0 ∧ flip_neg (s.person_y - (s.spike_y i).y) < 50 ∧
    flip_neg (s.person_x - 200) ≥ 0 ∧ flip_neg (s.person_x - 200) ≤ 20 ∧
    flip_neg (s.person_z + 40 + (i : ℚ) * 30) ≥ 0 ∧ flip_neg (s.person_z + 40 + (i : ℚ) * 30) ≤ 15

/-- The box of spike `i` as the specification states it. -/
def in_spike_box (i : Nat) (s : State) : Prop :=
  |s.person_x - 200| ≤ 20 ∧ |s.person_y - (s.spike_y i).y| < 50 ∧
    |s.person_z + 40 + 30 * (i : ℚ)| ≤ 15

/-- A state with three keys and the player inside the box of spike 0 (the spike
drawn at `(200, spike_y[0][0], -40)`). -/
def on_spike_0 : State :=
  { init with key := 3, person_x := 200, person_y := 50, person_z := -40 }

/-- The state of a tick when the platform pass is reached (line 1996). -/
def at_platforms (s : State) : State :=
  spike_pass (wall_pass (fall (pickups (at_pickups s))))

/-- The number of coins left: the sum of the flags `moving_base[i][4]` of the
five platforms. -/
def coins_left (s : State) : ℚ :=
  (s.moving_base 0).coin + (s.moving_base 1).coin + (s.moving_base 2).coin +
    (s.moving_base 3).coin + (s.moving_base 4).coin

/-- The flag `moving_base[i][4]` of each of the five platforms is 0 or 1. -/
def CoinsOK (s : State) : Prop :=
  ∀ i, i < 5 → (s.moving_base i).coin = 0 ∨ (s.moving_base i).coin = 1

/-- What the platform pass of the tick that starts in `s` adds to the score
(lines 2034-2035 are the only lines of the pass that write `score`). -/
def coin_gain (s : State) : ℚ :=
  (platform_pass (at_platforms s)).score - (at_platforms s).score

/-- The states of a run together with the score gained from coins so far: the
sum of `coin_gain` over the ticks of the run. -/
inductive ReachableCoins : State → ℚ → Prop
  | init : ReachableCoins init 0
  | draw (s : State) (c : ℚ) : ReachableCoins s c → s.gameend ≠ 1 →
      ReachableCoins (draw s) (c + coin_gain s)
  | keyboard (s : State) (c : ℚ) (k : Key) (a : Action) : ReachableCoins s c →
      ReachableCoins (keyboard k a s) c

/-- Exactly one of the four direction flags is set. -/
def OneKey (s : State) : Prop :=
  (s.up_pressed = 1 ∧ s.down_pressed = 0 ∧ s.left_pressed = 0 ∧ s.right_pressed = 0) ∨
  (s.up_pressed = 0 ∧ s.down_pressed = 1 ∧ s.left_pressed = 0 ∧ s.right_pressed = 0) ∨
  (s.up_pressed = 0 ∧ s.down_pressed = 0 ∧ s.left_pressed = 1 ∧ s.right_pressed = 0) ∨
  (s.up_pressed = 0 ∧ s.down_pressed = 0 ∧ s.left_pressed = 0 ∧ s.right_pressed = 1)

/-- None of the four direction flags is set: the guard of line 1464. -/
def NoKey (s : State) : Prop :=
  s.left_pressed = 0 ∧ s.right_pressed = 0 ∧ s.up_pressed = 0 ∧ s.down_pressed = 0

/-- The range the hand swing really keeps: on the way up the angle is in
`[-35, 30]`, on the way down in `[-30, 35]`. -/
def SwingOK (s : State) : Prop :=
  (s.hand_angle_speed = 5 ∧ -35 ≤ s.person_hand_angle ∧ s.person_hand_angle ≤ 30) ∨
  (s.hand_angle_speed = -5 ∧ -30 ≤ s.person_hand_angle ∧ s.person_hand_angle ≤ 35)

/-- The key events of a run of 7 ticks with `UP` held. -/
def swing_run : List (List (Key × Action)) :=
  [[(Key.UP, Action.PRESS)]] ++ List.replicate 6 []

/-- A state with the player beyond the edge of the level along `x`. -/
def off_edge : State := { init with person_x := 390 }

/-- The box of pickup zone `k` (lines 1760, 1765, 1770, 1775), as a test on a
point `(x, z)`; no box for `k > 3`. -/
def in_zone (k : Nat) (x z : ℚ) : Prop :=
  match k with
  | 0 => x ≤ 290 ∧ x ≥ 280 ∧ z ≤ 170 ∧ z ≥ 160
  | 1 => x ≥ -345 ∧ x ≤ -335 ∧ z ≤ 340 ∧ z ≥ 330
  | 2 => x ≥ -340 ∧ x ≤ -330 ∧ z ≥ -340 ∧ z ≤ -330
  | 3 => x ≤ 340 ∧ x ≥ 330 ∧ z ≥ -340 ∧ z ≤ -330
  | _ => False

/-- A player stuck half a unit inside the column of cell (23, 23), next to
platform 0: at `(207.5, 112, 217.5)`, where the last tick has left it, grounded,
with no key collected and no key pressed. -/
def Stuck (s : State) : Prop :=
  Static s ∧
  (s.person_x = 207.5 ∧ s.person_y = 112 ∧ s.person_z = 217.5) ∧
  (s.prev_x = 207.5 ∧ s.prev_y = 112 ∧ s.prev_z = 217.5) ∧
  (s.key = 0 ∧ s.gameover = 0 ∧ s.gameend = 0 ∧ s.fall_state = 0) ∧
  (s.person_state = 0 ∧ s.person_jump = 0 ∧ s.jump_speed = 0) ∧
  (NoKey s ∧ s.l_pressed = 0) ∧
  (s.person_hand_angle = 0 ∧ s.person_direction_in_reset_view = 0) ∧
  ((s.moving_base 0).x = 185 ∧ (s.moving_base 0).z = 200 ∧
    ∀ i, 1 ≤ i → i < 5 → (s.moving_base i).x ≤ 125)

/-- The state `s` with another health and other platform rows. -/
def drain_to (h : ℚ) (m : Nat → MovingBase) (s : State) : State :=
  { s with person_health := h, moving_base := m }

/-- The snap one tick after `trip_end`, with `DOWN` released
(`run_stuck_start`): the player has not moved, and the health decay has
taken 0.1. -/
def stuck_start : Snap :=
  { trip_end with
    down_pressed := 0
    person_hand_angle := 0
    person_health := 99.75
    mb0 := ⟨185, 60.5, 200, 1, 0⟩
    mb1 := ⟨125, 60.5, 250, 1, 1⟩
    mb2 := ⟨125, 60.5, 200, 1, 1⟩
    mb3 := ⟨125, 60.5, 150, 1, 1⟩
    mb4 := ⟨65, 60.5, 200, 1, 1⟩ }

/-- The snap 968 ticks without a key event after `stuck_start`
(`stuck_late_eq`): the platforms have gone through four periods of 242 ticks,
and the health decay has taken 96.8. -/
def stuck_late : Snap := { stuck_start with person_health := 2.95 }

/-- The key events of 29 ticks: 28 ticks without a key, then a tick with
`SPACE` pressed. -/
def last_ticks : List (List (Key × Action)) :=
  List.replicate 28 [] ++ [[(Key.SPACE, Action.PRESS)]]

/-- The snap at the end of `last_ticks` run from `stuck_late` (`run_last`): the
player has landed on top of the column of cell (23, 23), at `y = 125.5`, and
the health is down to 0.05. -/
def spent : Snap :=
  { stuck_late with
    person_y := 125.5
    prev_y := 125.5
    person_health := 0.05
    mb0 := ⟨185, 75, 200, 1, 0⟩
    mb1 := ⟨125, 75, 250, 1, 1⟩
    mb2 := ⟨125, 75, 200, 1, 1⟩
    mb3 := ⟨125, 75, 150, 1, 1⟩
    mb4 := ⟨65, 75, 200, 1, 1⟩ }

/-- The state one tick after `spent`. -/
def dipped : State := draw (toState spent)


/-! ## Folds -/

/-- A property that every step of a loop preserves holds after the loop. -/
theorem foldl_preserves {α β : Type} (P : α → Prop) (f : α → β → α) (l : List β) (a : α)
    (h0 : P a) (hf : ∀ a b, b ∈ l → P a → P (f a b)) : P (l.foldl f a) := by
  induction l generalizing a with
  | nil => exact h0
  | cons x xs ih =>
    simp only [List.foldl_cons]
    exact ih _ (hf a x (List.mem_cons_self x xs) h0)
      (fun a b hb hp => hf a b (List.mem_cons_of_mem x hb) hp)

/-- A loop whose every step leaves `a` as it is leaves `a` as it is. -/
theorem foldl_fixed {α β : Type} (f : α → β → α) (l : List β) (a : α)
    (hf : ∀ b, b ∈ l → f a b = a) : l.foldl f a = a :=
  foldl_preserves (fun s => s = a) f l a rfl (fun s b hb hs => by rw [hs]; exact hf b hb)

/-! ## Frames: an observation `g` that does not read the fields a step writes
is unchanged by the step -/

theorem normalize_direction_frame {α : Type} (g : State → α)
    (hg : ∀ (s : State) (d : Int), g { s with person_direction_in_reset_view := d } = g s)
    (s : State) : g (normalize_direction s) = g s := hg s _

theorem bounds_frame {α : Type} (g : State → α)
    (hg : ∀ (s : State) (f : ℚ), g { s with fall_state := f } = g s)
    (s : State) : g (bounds s) = g s := by
  have hx : ∀ s, g (bounds_x s) = g s := fun s => by
    unfold bounds_x; split_ifs <;> first | rfl | exact hg s _
  have hz : ∀ s, g (bounds_z s) = g s := fun s => by
    unfold bounds_z; split_ifs <;> first | rfl | exact hg s _
  unfold bounds
  rw [hz, hx]

theorem move_frame {α : Type} (g : State → α)
    (hg : ∀ (s : State) (a x z : ℚ),
      g { s with person_hand_angle := a, person_x := x, person_z := z } = g s)
    (s : State) : g (move s) = g s := by
  have hf : ∀ d dx dz s, g (walk_facing d dx dz s) = g s := fun d dx dz s => by
    unfold walk_facing; split_ifs <;> first | rfl | exact hg s _ _ _
  have hr : ∀ s, g (walk_right s) = g s := fun s => by
    unfold walk_right; split_ifs <;> first | rfl | exact hg s _ _ _
  have hl : ∀ s, g (walk_left s) = g s := fun s => by
    unfold walk_left; split_ifs <;> first | rfl | exact hg s _ _ _
  have hd : ∀ s, g (walk_down s) = g s := fun s => by
    unfold walk_down; split_ifs <;> first | rfl | exact hg s _ _ _
  have hu : ∀ s, g (walk_up s) = g s := fun s => by
    unfold walk_up; split_ifs <;> first | rfl | exact hg s _ _ _
  unfold move
  split_ifs
  · rw [hf, hf, hf, hf]
  · rw [hu, hd, hl, hr]

theorem hand_reset_frame {α : Type} (g : State → α)
    (hg : ∀ (s : State) (a : ℚ), g { s with person_hand_angle := a } = g s)
    (s : State) : g (hand_reset s) = g s := by
  unfold hand_reset
  split_ifs <;> simp only [hg]

theorem health_decay_frame {α : Type} (g : State → α)
    (hg : ∀ (s : State) (hl : ℚ), g { s with person_health := hl } = g s)
    (s : State) : g (health_decay s) = g s := by
  unfold health_decay
  split_ifs <;> simp only [hg]

theorem hand_speed_frame {α : Type} (g : State → α)
    (hg : ∀ (s : State) (v : ℚ), g { s with hand_angle_speed := v } = g s)
    (s : State) : g (hand_speed s) = g s := by
  unfold hand_speed
  split_ifs <;> simp only [hg]

/-- The steps before the respawn check write only the facing direction,
`fall_state`, the hand swing, `person_x`, `person_z` and `person_health`. -/
theorem before_respawn_frame {α : Type} (g : State → α)
    (hg : ∀ (s : State) (d : Int) (f a x z hl v : ℚ),
      g { s with person_direction_in_reset_view := d, fall_state := f,
                 person_hand_angle := a, person_x := x, person_z := z,
                 person_health := hl, hand_angle_speed := v } = g s)
    (s : State) : g (before_respawn s) = g s := by
  unfold before_respawn
  rw [hand_speed_frame g (fun s v => hg s _ _ _ _ _ _ v),
    health_decay_frame g (fun s hl => hg s _ _ _ _ _ hl _),
    hand_reset_frame g (fun s a => hg s _ _ a _ _ _ _),
    move_frame g (fun s a x z => hg s _ _ a x z _ _),
    bounds_frame g (fun s f => hg s _ f _ _ _ _ _),
    normalize_direction_frame g (fun s d => hg s d _ _ _ _ _ _)]

theorem respawn_frame {α : Type} (g : State → α)
    (hg : ∀ (s : State) (x y z k f hl go : ℚ) (h : Nat → Nat → ℚ),
      g { s with person_x := x, person_y := y, person_z := z, key := k, fall_state := f,
                 person_health := hl, gameover := go, heights := h } = g s)
    (s : State) : g (respawn s) = g s := by
  unfold respawn
  split_ifs
  · exact hg s _ _ _ _ _ _ _ _
  · rfl

theorem jump_frame {α : Type} (g : State → α)
    (hg : ∀ (s : State) (js jd pj : ℚ),
      g { s with jump_speed := js, jump_direction := jd, person_jump := pj } = g s)
    (s : State) : g (jump s) = g s := by
  have h1 : ∀ s, g (jump_rise s) = g s := fun s => by
    unfold jump_rise; split_ifs <;> first | rfl | exact hg s _ _ _
  have h2 : ∀ s, g (jump_sink s) = g s := fun s => by
    unfold jump_sink; split_ifs <;> first | rfl | exact hg s _ _ _
  have h3 : ∀ s, g (jump_land s) = g s := fun s => by
    unfold jump_land; split_ifs <;> first | rfl | exact hg s _ _ _
  unfold jump
  split_ifs
  · rw [h3, h2, h1]
  · rfl

theorem unlock_frame {α : Type} (g : State → α)
    (hg : ∀ (s : State) (h : Nat → Nat → ℚ), g { s with heights := h } = g s)
    (s : State) : g (unlock s) = g s := by
  have h1 : ∀ s, g (unlock1 s) = g s := fun s => by
    unfold unlock1; split_ifs <;> first | rfl | exact hg s _
  have h2 : ∀ s, g (unlock2 s) = g s := fun s => by
    unfold unlock2; split_ifs <;> first | rfl | exact hg s _
  have h3 : ∀ s, g (unlock3 s) = g s := fun s => by
    unfold unlock3; split_ifs <;> first | rfl | exact hg s _
  unfold unlock
  rw [h3, h2, h1]

theorem cell_test_frame {α : Type} (g : State → α)
    (hg : ∀ (s : State) (x y z hl pj jd js : ℚ),
      g { s with person_x := x, person_y := y, person_z := z, person_health := hl,
                 person_jump := pj, jump_direction := jd, jump_speed := js } = g s)
    (i2 i : Nat) (s : State) : g (cell_test i2 i s) = g s := by
  unfold cell_test
  dsimp only
  split_ifs <;> first | rfl | exact hg s _ _ _ _ _ _ _

theorem cell_pass_frame {α : Type} (g : State → α)
    (hg : ∀ (s : State) (x y z hl pj jd js : ℚ),
      g { s with person_x := x, person_y := y, person_z := z, person_health := hl,
                 person_jump := pj, jump_direction := jd, jump_speed := js } = g s)
    (a b c d : Nat) (s : State) : g (cell_pass a b c d s) = g s := by
  unfold cell_pass
  apply foldl_preserves (fun t => g t = g s)
  · rfl
  · intro t i2 _ ht
    apply foldl_preserves (fun t => g t = g s)
    · exact ht
    · intro u i _ hu
      rw [cell_test_frame g hg]; exact hu

/-- The terrain passes write only the position, `person_health` and the jump
variables. -/
theorem terrain_frame {α : Type} (g : State → α)
    (hg : ∀ (s : State) (x y z hl pj jd js : ℚ),
      g { s with person_x := x, person_y := y, person_z := z, person_health := hl,
                 person_jump := pj, jump_direction := jd, jump_speed := js } = g s)
    (s : State) : g (terrain s) = g s := by
  have h0 : ∀ s, g (terrain0 s) = g s := fun s => by
    unfold terrain0; split_ifs <;> first | rfl | exact cell_pass_frame g hg _ _ _ _ s
  have h1 : ∀ s, g (terrain1 s) = g s := fun s => by
    unfold terrain1; split_ifs <;> first | rfl | exact cell_pass_frame g hg _ _ _ _ s
  unfold terrain
  rw [h1, h0]

theorem pit_test_frame {α : Type} (g : State → α)
    (hg : ∀ (s : State) (f : ℚ), g { s with fall_state := f } = g s)
    (p : ℚ × ℚ) (s : State) : g (pit_test p s) = g s := by
  unfold pit_test
  dsimp only
  split_ifs <;> first | rfl | exact hg s _

theorem pit_pass_frame {α : Type} (g : State → α)
    (hg : ∀ (s : State) (f : ℚ), g { s with fall_state := f } = g s)
    (s : State) : g (pit_pass s) = g s := by
  unfold pit_pass
  split_ifs
  · apply foldl_preserves (fun t => g t = g s)
    · rfl
    · intro t p _ ht
      rw [pit_test_frame g hg]; exact ht
  · rfl

theorem obstacle_test_frame {α : Type} (g : State → α)
    (hg : ∀ (s : State) (x y z : ℚ),
      g { s with person_x := x, person_y := y, person_z := z } = g s)
    (p : ℚ × ℚ) (s : State) : g (obstacle_test p s) = g s := by
  unfold obstacle_test
  dsimp only
  split_ifs <;> first | rfl | exact hg s _ _ _

theorem obstacle_pass_frame {α : Type} (g : State → α)
    (hg : ∀ (s : State) (x y z : ℚ),
      g { s with person_x := x, person_y := y, person_z := z } = g s)
    (s : State) : g (obstacle_pass s) = g s := by
  unfold obstacle_pass
  apply foldl_preserves (fun t => g t = g s)
  · rfl
  · intro t p _ ht
    dsimp only
    split_ifs
    · rw [obstacle_test_frame g hg]; exact ht
    · exact ht

theorem pickups_frame {α : Type} (g : State → α)
    (hg : ∀ (s : State) (sc k : ℚ) (ge : Int),
      g { s with score := sc, key := k, gameend := ge } = g s)
    (s : State) : g (pickups s) = g s := by
  have h0 : ∀ s, g (pickup0 s) = g s := fun s => by
    unfold pickup0; split_ifs <;> first | rfl | exact hg s _ _ _
  have h1 : ∀ s, g (pickup1 s) = g s := fun s => by
    unfold pickup1; split_ifs <;> first | rfl | exact hg s _ _ _
  have h2 : ∀ s, g (pickup2 s) = g s := fun s => by
    unfold pickup2; split_ifs <;> first | rfl | exact hg s _ _ _
  have h3 : ∀ s, g (pickup3 s) = g s := fun s => by
    unfold pickup3; split_ifs <;> first | rfl | exact hg s _ _ _
  unfold pickups
  rw [h3, h2, h1, h0]

theorem fall_frame {α : Type} (g : State → α)
    (hg : ∀ (s : State) (x y z go : ℚ),
      g { s with person_x := x, person_y := y, person_z := z, gameover := go } = g s)
    (s : State) : g (fall s) = g s := by
  unfold fall
  dsimp only
  split_ifs <;> first | rfl | exact hg s _ _ _ _

theorem wall_iter_frame {α : Type} (g : State → α)
    (hg : ∀ (s : State) (x y z hl go : ℚ) (w : Nat → Wall),
      g { s with person_x := x, person_y := y, person_z := z, person_health := hl,
                 gameover := go, wall := w } = g s)
    (i : Nat) (s : State) : g (wall_iter i s) = g s := by
  have h1 : ∀ s, g (wall_hit i s) = g s := fun s => by
    unfold wall_hit; dsimp only; split_ifs <;> first | rfl | exact hg s _ _ _ _ _ _
  have h2 : ∀ s, g (wall_advance i s) = g s := fun s => by
    unfold wall_advance; split_ifs <;> exact hg s _ _ _ _ _ _
  have h3 : ∀ s, g (wall_turn i s) = g s := fun s => by
    unfold wall_turn; split_ifs <;> first | rfl | exact hg s _ _ _ _ _ _
  unfold wall_iter
  rw [h3, h2, h1]

theorem wall_pass_frame {α : Type} (g : State → α)
    (hg : ∀ (s : State) (x y z hl go : ℚ) (w : Nat → Wall),
      g { s with person_x := x, person_y := y, person_z := z, person_health := hl,
                 gameover := go, wall := w } = g s)
    (s : State) : g (wall_pass s) = g s := by
  unfold wall_pass
  split_ifs
  · apply foldl_preserves (fun t => g t = g s)
    · rfl
    · intro t i _ ht
      rw [wall_iter_frame g hg]; exact ht
  · rfl

theorem spike_iter_frame {α : Type} (g : State → α)
    (hg : ∀ (s : State) (go : ℚ) (sp : Nat → Spike),
      g { s with gameover := go, spike_y := sp } = g s)
    (i : Nat) (s : State) : g (spike_iter i s) = g s := by
  have h1 : ∀ s, g (spike_hit i s) = g s := fun s => by
    unfold spike_hit; dsimp only; split_ifs <;> first | rfl | exact hg s _ _
  have h2 : ∀ s, g (spike_advance i s) = g s := fun s => hg s _ _
  unfold spike_iter
  rw [h2, h1]

theorem spike_pass_frame {α : Type} (g : State → α)
    (hg : ∀ (s : State) (go : ℚ) (sp : Nat → Spike),
      g { s with gameover := go, spike_y := sp } = g s)
    (s : State) : g (spike_pass s) = g s := by
  unfold spike_pass
  split_ifs
  · apply foldl_preserves (fun t => g t = g s)
    · rfl
    · intro t i _ ht
      rw [spike_iter_frame g hg]; exact ht
  · rfl

theorem platform_iter_frame {α : Type} (g : State → α)
    (hg : ∀ (s : State) (x y z sc ps : ℚ) (mb : Nat → MovingBase),
      g { s with person_x := x, person_y := y, person_z := z, score := sc,
                 person_state := ps, moving_base := mb } = g s)
    (i : Nat) (s : State) : g (platform_iter i s) = g s := by
  have h1 : ∀ s, g (platform_advance i s) = g s := fun s => hg s _ _ _ _ _ _
  have h2 : ∀ v s, g (platform_block v s) = g s := fun v s => by
    unfold platform_block; split_ifs <;> first | rfl | exact hg s _ _ _ _ _ _
  have h3 : ∀ a b c s, g (platform_land i a b c s) = g s := fun a b c s => by
    unfold platform_land; split_ifs <;> first | rfl | exact hg s _ _ _ _ _ _
  have h4 : ∀ a b s, g (platform_leave a b s) = g s := fun a b s => by
    unfold platform_leave; split_ifs <;> first | rfl | exact hg s _ _ _ _ _ _
  have h5 : ∀ s, g (platform_carry i s) = g s := fun s => by
    unfold platform_carry; split_ifs <;> first | rfl | exact hg s _ _ _ _ _ _
  have h6 : ∀ s, g (platform_touch i s) = g s := fun s => by
    unfold platform_touch; dsimp only; split_ifs
    · rw [h5, h4, h3, h2]
    · rfl
  unfold platform_iter
  rw [h6, h1]

theorem platform_pass_frame {α : Type} (g : State → α)
    (hg : ∀ (s : State) (x y z sc ps : ℚ) (mb : Nat → MovingBase),
      g { s with person_x := x, person_y := y, person_z := z, score := sc,
                 person_state := ps, moving_base := mb } = g s)
    (s : State) : g (platform_pass s) = g s := by
  unfold platform_pass
  split_ifs
  · apply foldl_preserves (fun t => g t = g s)
    · rfl
    · intro t i _ ht
      rw [platform_iter_frame g hg]; exact ht
  · rfl

theorem save_prev_frame {α : Type} (g : State → α)
    (hg : ∀ (s : State) (x y z : ℚ), g { s with prev_x := x, prev_z := z, prev_y := y } = g s)
    (s : State) : g (save_prev s) = g s := hg s _ _ _

theorem keyboard_frame {α : Type} (g : State → α)
    (hg : ∀ (s : State) (r l d u lp : Int) (dir : Int) (rv pj sh : ℚ),
      g { s with right_pressed := r, left_pressed := l, down_pressed := d, up_pressed := u,
                 l_pressed := lp, person_direction_in_reset_view := dir, reset_view := rv,
                 person_jump := pj, person_shift := sh } = g s)
    (k : Key) (a : Action) (s : State) : g (keyboard k a s) = g s := by
  cases a <;> cases k <;> first | rfl | exact hg s _ _ _ _ _ _ _ _ _


/-- A tick writes neither the obstacle and pit lists, the array counters, the
view mode, the step width nor the key flags. -/
theorem draw_frame {α : Type} (g : State → α)
    (hg : ∀ (s : State) (h : Nat → Nat → ℚ) (w : Nat → Wall) (sp : Nat → Spike)
      (mb : Nat → MovingBase) (go : ℚ) (ge : Int) (k x y z f : ℚ) (d : Int)
      (pj js jd a v ps hl sc px py pz : ℚ),
      g { s with heights := h, wall := w, spike_y := sp, moving_base := mb, gameover := go,
                 gameend := ge, key := k, person_x := x, person_y := y, person_z := z,
                 fall_state := f, person_direction_in_reset_view := d, person_jump := pj,
                 jump_speed := js, jump_direction := jd, person_hand_angle := a,
                 hand_angle_speed := v, person_state := ps, person_health := hl, score := sc,
                 prev_x := px, prev_y := py, prev_z := pz } = g s)
    (s : State) : g (draw s) = g s := by
  unfold draw after_respawn
  rw [save_prev_frame g (fun s x y z => hg s _ _ _ _ _ _ _ _ _ _ _ _ _ _ _ _ _ _ _ _ x y z),
    platform_pass_frame g
      (fun s x y z sc ps mb => hg s _ _ _ mb _ _ _ x y z _ _ _ _ _ _ _ ps _ sc _ _ _),
    spike_pass_frame g (fun s go sp => hg s _ _ sp _ go _ _ _ _ _ _ _ _ _ _ _ _ _ _ _ _ _ _),
    wall_pass_frame g
      (fun s x y z hl go w => hg s _ w _ _ go _ _ x y z _ _ _ _ _ _ _ _ hl _ _ _ _),
    fall_frame g (fun s x y z go => hg s _ _ _ _ go _ _ x y z _ _ _ _ _ _ _ _ _ _ _ _ _),
    pickups_frame g (fun s sc k ge => hg s _ _ _ _ _ ge k _ _ _ _ _ _ _ _ _ _ _ _ sc _ _ _),
    obstacle_pass_frame g (fun s x y z => hg s _ _ _ _ _ _ _ x y z _ _ _ _ _ _ _ _ _ _ _ _ _),
    pit_pass_frame g (fun s f => hg s _ _ _ _ _ _ _ _ _ _ f _ _ _ _ _ _ _ _ _ _ _ _),
    terrain_frame g
      (fun s x y z hl pj jd js => hg s _ _ _ _ _ _ _ x y z _ _ pj js jd _ _ _ hl _ _ _ _),
    unlock_frame g (fun s h => hg s h _ _ _ _ _ _ _ _ _ _ _ _ _ _ _ _ _ _ _ _ _ _),
    jump_frame g (fun s js jd pj => hg s _ _ _ _ _ _ _ _ _ _ _ _ pj js jd _ _ _ _ _ _ _ _),
    respawn_frame g
      (fun s x y z k f hl go h => hg s h _ _ _ go _ k x y z f _ _ _ _ _ _ _ hl _ _ _ _),
    before_respawn_frame g
      (fun s d f a x z hl v => hg s _ _ _ _ _ _ _ x _ z f d _ _ _ a v _ hl _ _ _ _)]

/-- After the unlock step of a tick nothing writes `heights`. -/
theorem draw_heights (s : State) :
    (draw s).heights = (unlock (jump (respawn (before_respawn s)))).heights := by
  unfold draw after_respawn
  rw [save_prev_frame State.heights (fun _ _ _ _ => rfl),
    platform_pass_frame State.heights (fun _ _ _ _ _ _ _ => rfl),
    spike_pass_frame State.heights (fun _ _ _ => rfl),
    wall_pass_frame State.heights (fun _ _ _ _ _ _ _ => rfl),
    fall_frame State.heights (fun _ _ _ _ _ => rfl),
    pickups_frame State.heights (fun _ _ _ _ => rfl),
    obstacle_pass_frame State.heights (fun _ _ _ _ => rfl),
    pit_pass_frame State.heights (fun _ _ => rfl),
    terrain_frame State.heights (fun _ _ _ _ _ _ _ _ => rfl)]

/-! ## The terrain grid holds only the five heights -/

theorem legal_base : LegalHeight height_of_base := by
  unfold LegalHeight height_of_base; norm_num

theorem legal_base1 : LegalHeight (height_of_base + 1) := by
  unfold LegalHeight height_of_base; norm_num

theorem legal_base2 : LegalHeight (height_of_base + 2) := by
  unfold LegalHeight height_of_base; norm_num

theorem legal_zero : LegalHeight 0 := Or.inl rfl

theorem legal_four : LegalHeight 4 := Or.inr (Or.inl rfl)

theorem setH_ok {h : Nat → Nat → ℚ} (hh : HeightsOK h) (a b : Nat) {v : ℚ}
    (hv : LegalHeight v) : HeightsOK (setH h a b v) := by
  intro i j
  unfold setH
  split_ifs
  · exact hv
  · exact hh i j

theorem base_fill_ok {h : Nat → Nat → ℚ} (hh : HeightsOK h) : HeightsOK (base_fill h) := by
  intro i j
  unfold base_fill
  split_ifs
  · exact legal_base
  · exact hh i j

theorem ring_rows_ok {h : Nat → Nat → ℚ} (hh : HeightsOK h) : HeightsOK (ring_rows h) := by
  unfold ring_rows
  apply foldl_preserves HeightsOK _ _ _ hh
  intro h' i _ hh'
  dsimp only
  split_ifs
  · exact setH_ok (setH_ok (setH_ok hh' _ _ legal_base2) _ _ legal_base2) _ _ legal_base1
  · exact setH_ok hh' _ _ legal_base1

theorem ring_cols_ok {h : Nat → Nat → ℚ} (hh : HeightsOK h) : HeightsOK (ring_cols h) := by
  unfold ring_cols
  apply foldl_preserves HeightsOK _ _ _ hh
  intro h' i _ hh'
  exact setH_ok (setH_ok (setH_ok hh' _ _ legal_base2) _ _ legal_base2) _ _ legal_base2

theorem key_room_ok {h : Nat → Nat → ℚ} (hh : HeightsOK h) : HeightsOK (key_room h) := by
  unfold key_room
  apply foldl_preserves HeightsOK _ _ _ hh
  intro h' c _ hh'
  exact setH_ok hh' _ _ legal_base1

theorem lake1_ok {h : Nat → Nat → ℚ} (hh : HeightsOK h) : HeightsOK (lake1 h) := by
  unfold lake1
  apply foldl_preserves HeightsOK _ _ _ hh
  intro h' i _ hh'
  apply foldl_preserves HeightsOK _ _ _ hh'
  intro h'' l _ hh''
  dsimp only
  split_ifs
  · exact setH_ok (setH_ok hh'' _ _ legal_four) _ _ legal_four
  · exact setH_ok hh'' _ _ legal_four
  · exact setH_ok hh'' _ _ legal_four
  · exact hh''

theorem pits_ok {acc : (Nat → Nat → ℚ) × List (ℚ × ℚ)} (hh : HeightsOK acc.1) :
    HeightsOK (pits acc).1 := by
  unfold pits
  refine foldl_preserves (fun a : (Nat → Nat → ℚ) × List (ℚ × ℚ) => HeightsOK a.1)
    _ _ _ hh ?_
  intro a i _ ha
  unfold pit_row
  refine foldl_preserves (fun a : (Nat → Nat → ℚ) × List (ℚ × ℚ) => HeightsOK a.1)
    _ _ _ ha ?_
  intro a' j _ ha'
  exact setH_ok ha' _ _ legal_zero

theorem lake2_ok {h : Nat → Nat → ℚ} (hh : HeightsOK h) : HeightsOK (lake2 h) := by
  unfold lake2
  apply foldl_preserves HeightsOK _ _ _ hh
  intro h' i _ hh'
  apply foldl_preserves HeightsOK _ _ _ hh'
  intro h'' l _ hh''
  exact setH_ok hh'' _ _ legal_four

theorem init_heights_ok : HeightsOK init.heights := by
  show HeightsOK (lake2 (pits (lake1 (key_room (ring_cols (ring_rows
    (base_fill globals0.heights)))), [])).1)
  apply lake2_ok
  apply pits_ok
  apply lake1_ok
  apply key_room_ok
  apply ring_cols_ok
  apply ring_rows_ok
  apply base_fill_ok
  intro i j
  exact legal_zero

theorem respawn_heights_ok {s : State} (hs : HeightsOK s.heights) :
    HeightsOK (respawn s).heights := by
  unfold respawn
  split_ifs
  · exact setH_ok (setH_ok (setH_ok (setH_ok (setH_ok (setH_ok hs _ _ legal_base1) _ _
      legal_base2) _ _ legal_base2) _ _ legal_base1) _ _ legal_base1) _ _ legal_base1
  · exact hs

theorem unlock_heights_ok {s : State} (hs : HeightsOK s.heights) :
    HeightsOK (unlock s).heights := by
  have h1 : ∀ s : State, HeightsOK s.heights → HeightsOK (unlock1 s).heights := by
    intro s hs; unfold unlock1; split_ifs
    · exact setH_ok (setH_ok hs _ _ legal_base) _ _ legal_base
    · exact hs
  have h2 : ∀ s : State, HeightsOK s.heights → HeightsOK (unlock2 s).heights := by
    intro s hs; unfold unlock2; split_ifs
    · exact setH_ok (setH_ok hs _ _ legal_base) _ _ legal_base
    · exact hs
  have h3 : ∀ s : State, HeightsOK s.heights → HeightsOK (unlock3 s).heights := by
    intro s hs; unfold unlock3; split_ifs
    · exact setH_ok (setH_ok hs _ _ legal_base) _ _ legal_base
    · exact hs
  exact h3 _ (h2 _ (h1 _ hs))

theorem draw_heights_ok {s : State} (hs : HeightsOK s.heights) :
    HeightsOK (draw s).heights := by
  rw [draw_heights]
  apply unlock_heights_ok
  rw [jump_frame State.heights (fun _ _ _ _ => rfl)]
  apply respawn_heights_ok
  rw [before_respawn_frame State.heights (fun _ _ _ _ _ _ _ _ => rfl)]
  exact hs

theorem reachable_heights_ok {s : State} (hs : Reachable s) : HeightsOK s.heights := by
  induction hs with
  | init => exact init_heights_ok
  | draw s _ _ ih => exact draw_heights_ok ih
  | keyboard s k a _ ih =>
    rw [keyboard_frame State.heights (fun _ _ _ _ _ _ _ _ _ _ => rfl)]
    exact ih

/-- C1: after `intialize_base` and after any number of ticks of `draw` and key
events, every cell `heights[i][j]` with `i, j < 30` holds one of the values
0, 4, 5, 6, 7. -/
theorem C1_heights_in_range (s : State) (hs : Reachable s) (i j : Nat)
    (_hi : i < 30) (_hj : j < 30) :
    s.heights i j = 0 ∨ s.heights i j = 4 ∨ s.heights i j = 5 ∨ s.heights i j = 6 ∨
      s.heights i j = 7 :=
  reachable_heights_ok hs i j

/-- C1 at a concrete input: the cell (14, 15) after the initialisation, a press
of `L` and one tick. -/
theorem C1_heights_in_range_witness :
    (draw (keyboard Key.L Action.PRESS init)).heights 14 15 = 0 ∨
      (draw (keyboard Key.L Action.PRESS init)).heights 14 15 = 4 ∨
      (draw (keyboard Key.L Action.PRESS init)).heights 14 15 = 5 ∨
      (draw (keyboard Key.L Action.PRESS init)).heights 14 15 = 6 ∨
      (draw (keyboard Key.L Action.PRESS init)).heights 14 15 = 7 :=
  C1_heights_in_range _
    (Reachable.draw _ (Reachable.keyboard _ Key.L Action.PRESS Reachable.init) (by decide))
    14 15 (by decide) (by decide)


/-! ## The respawn step -/

/-- C2: when the respawn check is reached with `l_pressed == 1`, or
`person_health <= 0`, or `gameover == 1`, the respawn step puts the player at
the start coordinates (337.5, 112.5, 337.5) and sets `key = 0`,
`fall_state = 0`, `person_health = 100`, `gameover = 0`. -/
theorem C2_respawn_resets (s : State)
    (h : s.l_pressed = 1 ∨ s.person_health ≤ 0 ∨ s.gameover = 1) :
    (respawn s).person_x = 337.5 ∧ (respawn s).person_y = 112.5 ∧
      (respawn s).person_z = 337.5 ∧ (respawn s).key = 0 ∧ (respawn s).fall_state = 0 ∧
      (respawn s).person_health = 100 ∧ (respawn s).gameover = 0 := by
  have hf : respawn_fires s := h
  unfold respawn
  rw [if_pos hf]
  unfold respawn_body start_xz start_y length_of_cube_base length_of_base height_of_base
  norm_num

/-- C2 at a concrete input: a health of exactly 0 (no reset key, no game over)
triggers the respawn. -/
theorem C2_respawn_resets_witness :
    (respawn { init with person_health := 0 }).person_x = 337.5 ∧
      (respawn { init with person_health := 0 }).person_y = 112.5 ∧
      (respawn { init with person_health := 0 }).person_z = 337.5 ∧
      (respawn { init with person_health := 0 }).key = 0 ∧
      (respawn { init with person_health := 0 }).fall_state = 0 ∧
      (respawn { init with person_health := 0 }).person_health = 100 ∧
      (respawn { init with person_health := 0 }).gameover = 0 :=
  C2_respawn_resets { init with person_health := 0 } (Or.inr (Or.inl (le_refl (0 : ℚ))))

/-- The six assignments of the respawn block, done twice, give the grid they
give when done once. -/
theorem respawn_heights_twice (h : Nat → Nat → ℚ) (v w : ℚ) :
    setH (setH (setH (setH (setH (setH
      (setH (setH (setH (setH (setH (setH h 14 15 v) 13 14 w) 12 14 w) 14 13 v) 14 14 v)
        14 16 v) 14 15 v) 13 14 w) 12 14 w) 14 13 v) 14 14 v) 14 16 v =
    setH (setH (setH (setH (setH (setH h 14 15 v) 13 14 w) 12 14 w) 14 13 v) 14 14 v)
        14 16 v := by
  funext i j
  unfold setH
  split_ifs <;> rfl

theorem respawn_body_twice (s : State) : respawn_body (respawn_body s) = respawn_body s := by
  unfold respawn_body
  simp only [respawn_heights_twice]

/-- C3: the respawn step is idempotent: applied twice in a row it yields
exactly the state it yields when applied once. -/
theorem C3_respawn_idempotent (s : State) : respawn (respawn s) = respawn s := by
  by_cases h : respawn_fires s
  · have h1 : respawn s = respawn_body s := if_pos h
    rw [h1]
    by_cases h2 : respawn_fires (respawn_body s)
    · have h3 : respawn (respawn_body s) = respawn_body (respawn_body s) := if_pos h2
      rw [h3, respawn_body_twice]
    · exact if_neg h2
  · have h1 : respawn s = s := if_neg h
    rw [h1, h1]

/-- C4, evaluated: after `intialize_base` the gating cell (14, 14) has height 7,
and the respawn step (here: the first tick after a press of `L`) leaves it at
height 6; the other five gating cells get the heights they had after
`intialize_base`. -/
theorem C4_respawn_cell_14_14 :
    init.heights 14 14 = 7 ∧
      (respawn (keyboard Key.L Action.PRESS init)).heights 14 14 = 6 ∧
      (draw (keyboard Key.L Action.PRESS init)).heights 14 14 = 6 ∧
      (respawn (keyboard Key.L Action.PRESS init)).heights 14 15 = init.heights 14 15 ∧
      (respawn (keyboard Key.L Action.PRESS init)).heights 14 16 = init.heights 14 16 ∧
      (respawn (keyboard Key.L Action.PRESS init)).heights 13 14 = init.heights 13 14 ∧
      (respawn (keyboard Key.L Action.PRESS init)).heights 12 14 = init.heights 12 14 ∧
      (respawn (keyboard Key.L Action.PRESS init)).heights 14 13 = init.heights 14 13 := by
  rw [draw_heights]
  refine ⟨?_, ?_, ?_, ?_, ?_, ?_, ?_, ?_⟩ <;> decide!

/-! ## Score -/

theorem pickups_score_le (s : State) : s.score ≤ (pickups s).score := by
  have h0 : ∀ s : State, s.score ≤ (pickup0 s).score := fun s => by
    unfold pickup0; split_ifs
    · exact le_add_of_nonneg_right (by norm_num)
    · exact le_refl _
  have h1 : ∀ s : State, s.score ≤ (pickup1 s).score := fun s => by
    unfold pickup1; split_ifs
    · exact le_add_of_nonneg_right (by norm_num)
    · exact le_refl _
  have h2 : ∀ s : State, s.score ≤ (pickup2 s).score := fun s => by
    unfold pickup2; split_ifs
    · exact le_add_of_nonneg_right (by norm_num)
    · exact le_refl _
  have h3 : ∀ s : State, s.score ≤ (pickup3 s).score := fun s => by
    unfold pickup3; split_ifs
    · exact le_add_of_nonneg_right (by norm_num)
    · exact le_refl _
  unfold pickups
  exact le_trans (h0 s) (le_trans (h1 _) (le_trans (h2 _) (h3 _)))

theorem platform_iter_score_le (i : Nat) (s : State) : s.score ≤ (platform_iter i s).score := by
  have h3 : ∀ a b c (s : State), s.score ≤ (platform_land i a b c s).score := fun a b c s => by
    unfold platform_land; split_ifs
    · exact le_add_of_nonneg_right (by norm_num)
    · exact le_refl _
    · exact le_refl _
  have h2 : ∀ v (s : State), (platform_block v s).score = s.score := fun v s => by
    unfold platform_block; split_ifs <;> rfl
  have h4 : ∀ a b (s : State), (platform_leave a b s).score = s.score := fun a b s => by
    unfold platform_leave; split_ifs <;> rfl
  have h5 : ∀ (s : State), (platform_carry i s).score = s.score := fun s => by
    unfold platform_carry; split_ifs <;> rfl
  have h6 : ∀ s : State, s.score ≤ (platform_touch i s).score := fun s => by
    unfold platform_touch; dsimp only; split_ifs
    · rw [h5, h4]
      exact le_trans (le_of_eq (h2 _ s).symm) (h3 _ _ _ _)
    · exact le_refl _
  unfold platform_iter
  exact h6 (platform_advance i s)

theorem platform_pass_score_le (s : State) : s.score ≤ (platform_pass s).score := by
  unfold platform_pass
  split_ifs
  · refine foldl_preserves (fun t : State => s.score ≤ t.score) _ _ _ (le_refl _) ?_
    intro t i _ ht
    exact le_trans ht (platform_iter_score_le i t)
  · exact le_refl _

/-- C6: the score never decreases: after one tick of `draw`, from any state
and with any input flags, the score is at least what it was before the tick
(a tick in which the respawn step fires included). -/
theorem C6_score_monotone (s : State) : s.score ≤ (draw s).score := by
  have h1 : (draw s).score = (platform_pass (spike_pass (wall_pass (fall (pickups
      (obstacle_pass (pit_pass (terrain (unlock (jump (respawn
        (before_respawn s)))))))))))).score := by
    unfold draw after_respawn
    rw [save_prev_frame State.score (fun _ _ _ _ => rfl)]
  have h2 : (spike_pass (wall_pass (fall (pickups (obstacle_pass (pit_pass (terrain
      (unlock (jump (respawn (before_respawn s))))))))))).score =
      (pickups (obstacle_pass (pit_pass (terrain (unlock (jump (respawn
        (before_respawn s)))))))).score := by
    rw [spike_pass_frame State.score (fun _ _ _ => rfl),
      wall_pass_frame State.score (fun _ _ _ _ _ _ _ => rfl),
      fall_frame State.score (fun _ _ _ _ _ => rfl)]
  have h3 : (obstacle_pass (pit_pass (terrain (unlock (jump (respawn
      (before_respawn s))))))).score = s.score := by
    rw [obstacle_pass_frame State.score (fun _ _ _ _ => rfl),
      pit_pass_frame State.score (fun _ _ => rfl),
      terrain_frame State.score (fun _ _ _ _ _ _ _ _ => rfl),
      unlock_frame State.score (fun _ _ => rfl),
      jump_frame State.score (fun _ _ _ _ => rfl),
      respawn_frame State.score (fun _ _ _ _ _ _ _ _ _ => rfl),
      before_respawn_frame State.score (fun _ _ _ _ _ _ _ _ => rfl)]
  rw [h1]
  refine le_trans ?_ (platform_pass_score_le _)
  rw [h2]
  refine le_trans ?_ (pickups_score_le _)
  rw [h3]

/-! ## Pickup zones -/

/-- C7: at the pickup step, in zone `k` with `key == k` (`k` = 0, 1, 2) `key`
becomes `k+1` and the score grows by 20, 50, 60; in zone 3 with `key == 3`
`gameend` becomes 1, the score grows by 60 and `key` stays 3; in a zone whose
index differs from `key` the step changes nothing. -/
theorem C7_pickup_zones (s : State) :
    (InBox 280 290 160 170 s ∧ s.key = 0 →
      (pickups s).key = 1 ∧ (pickups s).score = s.score + 20) ∧
    (InBox (-345) (-335) 330 340 s ∧ s.key = 1 →
      (pickups s).key = 2 ∧ (pickups s).score = s.score + 50) ∧
    (InBox (-340) (-330) (-340) (-330) s ∧ s.key = 2 →
      (pickups s).key = 3 ∧ (pickups s).score = s.score + 60) ∧
    (InBox 330 340 (-340) (-330) s ∧ s.key = 3 →
      (pickups s).gameend = 1 ∧ (pickups s).score = s.score + 60 ∧ (pickups s).key = 3) ∧
    (InBox 280 290 160 170 s ∧ s.key ≠ 0 → pickups s = s) ∧
    (InBox (-345) (-335) 330 340 s ∧ s.key ≠ 1 → pickups s = s) ∧
    (InBox (-340) (-330) (-340) (-330) s ∧ s.key ≠ 2 → pickups s = s) ∧
    (InBox 330 340 (-340) (-330) s ∧ s.key ≠ 3 → pickups s = s) := by
  unfold InBox
  refine ⟨?_, ?_, ?_, ?_, ?_, ?_, ?_, ?_⟩
  · rintro ⟨⟨h1, h2, h3, h4⟩, hk⟩
    have e0 : pickup0 s = { s with score := s.score + 20, key := 1 } := by
      unfold pickup0; rw [if_pos ⟨h2, h1, h4, h3, hk⟩]
    have e1 : pickup1 (pickup0 s) = pickup0 s := by
      unfold pickup1; rw [if_neg]; rw [e0]; rintro ⟨_, h, _⟩; dsimp only at h; linarith
    have e2 : pickup2 (pickup0 s) = pickup0 s := by
      unfold pickup2; rw [if_neg]; rw [e0]; rintro ⟨_, h, _⟩; dsimp only at h; linarith
    have e3 : pickup3 (pickup0 s) = pickup0 s := by
      unfold pickup3; rw [if_neg]; rw [e0]; rintro ⟨_, h, _⟩; dsimp only at h; linarith
    unfold pickups
    rw [e1, e2, e3, e0]
    exact ⟨rfl, rfl⟩
  · rintro ⟨⟨h1, h2, h3, h4⟩, hk⟩
    have e0 : pickup0 s = s := by
      unfold pickup0; rw [if_neg]; rintro ⟨_, h, _⟩; linarith
    have e1 : pickup1 s = { s with score := s.score + 50, key := 2 } := by
      unfold pickup1; rw [if_pos ⟨h1, h2, h4, h3, hk⟩]
    have e2 : pickup2 (pickup1 s) = pickup1 s := by
      unfold pickup2; rw [if_neg]; rw [e1]; rintro ⟨_, _, _, h, _⟩; dsimp only at h; linarith
    have e3 : pickup3 (pickup1 s) = pickup1 s := by
      unfold pickup3; rw [if_neg]; rw [e1]; rintro ⟨_, h, _⟩; dsimp only at h; linarith
    unfold pickups
    rw [e0, e2, e3, e1]
    exact ⟨rfl, rfl⟩
  · rintro ⟨⟨h1, h2, h3, h4⟩, hk⟩
    have e0 : pickup0 s = s := by
      unfold pickup0; rw [if_neg]; rintro ⟨_, h, _⟩; linarith
    have e1 : pickup1 s = s := by
      unfold pickup1; rw [if_neg]; rintro ⟨_, _, _, h, _⟩; linarith
    have e2 : pickup2 s = { s with score := s.score + 60, key := 3 } := by
      unfold pickup2; rw [if_pos ⟨h1, h2, h3, h4, hk⟩]
    have e3 : pickup3 (pickup2 s) = pickup2 s := by
      unfold pickup3; rw [if_neg]; rw [e2]; rintro ⟨_, h, _⟩; dsimp only at h; linarith
    unfold pickups
    rw [e0, e1, e3, e2]
    exact ⟨rfl, rfl⟩
  · rintro ⟨⟨h1, h2, h3, h4⟩, hk⟩
    have e0 : pickup0 s = s := by
      unfold pickup0; rw [if_neg]; rintro ⟨h, _⟩; linarith
    have e1 : pickup1 s = s := by
      unfold pickup1; rw [if_neg]; rintro ⟨_, h, _⟩; linarith
    have e2 : pickup2 s = s := by
      unfold pickup2; rw [if_neg]; rintro ⟨_, h, _⟩; linarith
    have e3 : pickup3 s = { s with score := s.score + 60, gameend := 1 } := by
      unfold pickup3; rw [if_pos ⟨h2, h1, h3, h4, hk⟩]
    unfold pickups
    rw [e0, e1, e2, e3]
    exact ⟨rfl, rfl, hk⟩
  · rintro ⟨⟨h1, h2, h3, h4⟩, hk⟩
    have e0 : pickup0 s = s := by
      unfold pickup0; rw [if_neg]; rintro ⟨_, _, _, _, h⟩; exact hk h
    have e1 : pickup1 s = s := by
      unfold pickup1; rw [if_neg]; rintro ⟨_, h, _⟩; linarith
    have e2 : pickup2 s = s := by
      unfold pickup2; rw [if_neg]; rintro ⟨_, h, _⟩; linarith
    have e3 : pickup3 s = s := by
      unfold pickup3; rw [if_neg]; rintro ⟨_, h, _⟩; linarith
    unfold pickups
    rw [e0, e1, e2, e3]
  · rintro ⟨⟨h1, h2, h3, h4⟩, hk⟩
    have e0 : pickup0 s = s := by
      unfold pickup0; rw [if_neg]; rintro ⟨_, h, _⟩; linarith
    have e1 : pickup1 s = s := by
      unfold pickup1; rw [if_neg]; rintro ⟨_, _, _, _, h⟩; exact hk h
    have e2 : pickup2 s = s := by
      unfold pickup2; rw [if_neg]; rintro ⟨_, _, _, h, _⟩; linarith
    have e3 : pickup3 s = s := by
      unfold pickup3; rw [if_neg]; rintro ⟨_, h, _⟩; linarith
    unfold pickups
    rw [e0, e1, e2, e3]
  · rintro ⟨⟨h1, h2, h3, h4⟩, hk⟩
    have e0 : pickup0 s = s := by
      unfold pickup0; rw [if_neg]; rintro ⟨_, h, _⟩; linarith
    have e1 : pickup1 s = s := by
      unfold pickup1; rw [if_neg]; rintro ⟨_, _, _, h, _⟩; linarith
    have e2 : pickup2 s = s := by
      unfold pickup2; rw [if_neg]; rintro ⟨_, _, _, _, h⟩; exact hk h
    have e3 : pickup3 s = s := by
      unfold pickup3; rw [if_neg]; rintro ⟨_, h, _⟩; linarith
    unfold pickups
    rw [e0, e1, e2, e3]
  · rintro ⟨⟨h1, h2, h3, h4⟩, hk⟩
    have e0 : pickup0 s = s := by
      unfold pickup0; rw [if_neg]; rintro ⟨h, _⟩; linarith
    have e1 : pickup1 s = s := by
      unfold pickup1; rw [if_neg]; rintro ⟨_, h, _⟩; linarith
    have e2 : pickup2 s = s := by
      unfold pickup2; rw [if_neg]; rintro ⟨_, h, _⟩; linarith
    have e3 : pickup3 s = s := by
      unfold pickup3; rw [if_neg]; rintro ⟨_, _, _, _, h⟩; exact hk h
    unfold pickups
    rw [e0, e1, e2, e3]

/-- C7 at a concrete input: the player at (285, 165) with `key == 0`. -/
theorem C7_pickup_zones_witness :
    (pickups { init with person_x := 285, person_z := 165 }).key = 1 ∧
      (pickups { init with person_x := 285, person_z := 165 }).score =
        ({ init with person_x := 285, person_z := 165 } : State).score + 20 :=
  (C7_pickup_zones { init with person_x := 285, person_z := 165 }).1
    ⟨by unfold InBox; norm_num, rfl⟩


/-! ## Closed forms of the loops of `intialize_base` -/

theorem ring_rows_loop (h : Nat → Nat → ℚ) (n i j : Nat) :
    ((List.range n).foldl (fun h i =>
      let h1 := if i ≠ 15 ∧ i ≠ 16 then
          setH (setH h 29 i (height_of_base + 2)) 0 i (height_of_base + 2)
        else h
      setH h1 14 i (height_of_base + 1)) h) i j =
    if j < n ∧ i = 14 then height_of_base + 1
    else if j < n ∧ j ≠ 15 ∧ j ≠ 16 ∧ (i = 0 ∨ i = 29) then height_of_base + 2
    else h i j := by
  induction n with
  | zero => simp
  | succ k ih =>
    rw [List.range_succ, List.foldl_append]
    simp only [List.foldl_cons, List.foldl_nil, setH, ite_apply, ih]
    split_ifs <;> first | rfl | (exfalso; omega)

theorem ring_cols_loop (h : Nat → Nat → ℚ) (n i j : Nat) :
    ((List.range n).foldl (fun h i =>
      setH (setH (setH h i 29 (height_of_base + 2)) i 0 (height_of_base + 2))
        i 14 (height_of_base + 2)) h) i j =
    if i < n ∧ (j = 14 ∨ j = 0 ∨ j = 29) then height_of_base + 2 else h i j := by
  induction n with
  | zero => simp
  | succ k ih =>
    rw [List.range_succ, List.foldl_append]
    simp only [List.foldl_cons, List.foldl_nil, setH, ih]
    split_ifs <;> first | rfl | (exfalso; omega)

theorem cells_loop (l : List (Nat × Nat)) (v : ℚ) (h : Nat → Nat → ℚ) (i j : Nat) :
    (l.foldl (fun h c => setH h c.1 c.2 v) h) i j = if (i, j) ∈ l then v else h i j := by
  induction l generalizing h with
  | nil => simp
  | cons c cs ih =>
    simp only [List.foldl_cons, ih, setH, List.mem_cons]
    by_cases h1 : (i, j) ∈ cs
    · simp [h1]
    · by_cases h2 : (i, j) = c
      · have h3 : i = c.1 ∧ j = c.2 := by rw [← h2]; exact ⟨rfl, rfl⟩
        simp [h1, h2, h3]
      · have h3 : ¬ (i = c.1 ∧ j = c.2) := fun h3 => h2 (Prod.ext h3.1 h3.2)
        simp [h1, h2, h3]

theorem key_room_closed (h : Nat → Nat → ℚ) (i j : Nat) :
    key_room h i j =
    if (i, j) ∈ [((28 : Nat), (24 : Nat)), (27, 24), (26, 24), (25, 24), (25, 23), (25, 22),
        (25, 21), (25, 20), (26, 20), (27, 20), (27, 21)] then height_of_base + 1
    else h i j := by
  unfold key_room
  rw [cells_loop]

/-- The grid before the lakes and pits are carved. -/
theorem ring_grid_eq :
    key_room (ring_cols (ring_rows (base_fill globals0.heights))) = ring_grid := by
  funext i j
  rw [key_room_closed]
  unfold ring_cols
  rw [ring_cols_loop]
  unfold ring_rows
  rw [ring_rows_loop]
  rfl

theorem lake1_inner (h : Nat → Nat → ℚ) (i m a b : Nat) :
    ((List.range' 15 m).foldl (fun h l =>
      let h1 := if i ≠ 7 ∧ l ≠ 22 then setH h i l 4 else h
      if (i = 7 ∨ i = 6 ∨ i = 5) ∧ (l = 22 ∨ l = 23 ∨ l = 21) then setH h1 i l 4 else h1) h)
      a b =
    if a = i ∧ 15 ≤ b ∧ b < 15 + m ∧
        ((i ≠ 7 ∧ b ≠ 22) ∨ ((i = 7 ∨ i = 6 ∨ i = 5) ∧ (b = 22 ∨ b = 23 ∨ b = 21))) then 4
    else h a b := by
  induction m with
  | zero => exact (if_neg (by omega)).symm
  | succ k ih =>
    rw [List.range'_1_concat, List.foldl_append]
    simp only [List.foldl_cons, List.foldl_nil, setH, ite_apply, ih]
    split_ifs <;> first | rfl | (exfalso; omega)

theorem lake1_outer (h : Nat → Nat → ℚ) (n a b : Nat) :
    ((List.range' 2 n).foldl (fun h i =>
      (List.range' 15 14).foldl (fun h l =>
        let h1 := if i ≠ 7 ∧ l ≠ 22 then setH h i l 4 else h
        if (i = 7 ∨ i = 6 ∨ i = 5) ∧ (l = 22 ∨ l = 23 ∨ l = 21) then setH h1 i l 4 else h1) h)
      h) a b =
    if 2 ≤ a ∧ a < 2 + n ∧ 15 ≤ b ∧ b < 29 ∧
        ((a ≠ 7 ∧ b ≠ 22) ∨ ((a = 7 ∨ a = 6 ∨ a = 5) ∧ (b = 22 ∨ b = 23 ∨ b = 21))) then 4
    else h a b := by
  induction n with
  | zero => exact (if_neg (by omega)).symm
  | succ k ih =>
    rw [List.range'_1_concat 2 k, List.foldl_append]
    simp only [List.foldl_cons, List.foldl_nil, lake1_inner, ih]
    split_ifs <;> first | rfl | (exfalso; omega)

theorem pits_fst (l : List Nat) (acc : (Nat → Nat → ℚ) × List (ℚ × ℚ)) :
    (l.foldl pit_row acc).1 =
      l.foldl (fun h i => setH (setH (setH h i 4 0) i 8 0) i 12 0) acc.1 := by
  induction l generalizing acc with
  | nil => rfl
  | cons x xs ih =>
    simp only [List.foldl_cons]
    rw [ih]
    rfl

theorem pits_loop (h : Nat → Nat → ℚ) (n a b : Nat) :
    ((List.range' 1 n).foldl (fun h i => setH (setH (setH h i 4 0) i 8 0) i 12 0) h) a b =
    if 1 ≤ a ∧ a < 1 + n ∧ (b = 12 ∨ b = 8 ∨ b = 4) then 0 else h a b := by
  induction n with
  | zero => exact (if_neg (by omega)).symm
  | succ k ih =>
    rw [List.range'_1_concat, List.foldl_append]
    simp only [List.foldl_cons, List.foldl_nil, setH, ih]
    split_ifs <;> first | rfl | (exfalso; omega)

theorem lake2_inner (h : Nat → Nat → ℚ) (i1 m a b : Nat) :
    ((List.range' 15 m).foldl (fun h i => setH h i1 i 4) h) a b =
    if a = i1 ∧ 15 ≤ b ∧ b < 15 + m then 4 else h a b := by
  induction m with
  | zero => exact (if_neg (by omega)).symm
  | succ k ih =>
    rw [List.range'_1_concat, List.foldl_append]
    simp only [List.foldl_cons, List.foldl_nil, setH, ih]
    split_ifs <;> first | rfl | (exfalso; omega)

theorem lake2_outer (h : Nat → Nat → ℚ) (n a b : Nat) :
    ((List.range' 17 n).foldl (fun h i1 =>
      (List.range' 15 14).foldl (fun h i => setH h i1 i 4) h) h) a b =
    if 17 ≤ a ∧ a < 17 + n ∧ 15 ≤ b ∧ b < 29 then 4 else h a b := by
  induction n with
  | zero => exact (if_neg (by omega)).symm
  | succ k ih =>
    rw [List.range'_1_concat 17 k, List.foldl_append]
    simp only [List.foldl_cons, List.foldl_nil, lake2_inner, ih]
    split_ifs <;> first | rfl | (exfalso; omega)

/-- The grid after `intialize_base`, cell by cell. -/
theorem init_heights_eq : init.heights = init_grid := by
  funext i j
  show lake2 (pits (lake1 (key_room (ring_cols (ring_rows (base_fill globals0.heights)))),
    [])).1 i j = _
  rw [ring_grid_eq]
  unfold lake2
  rw [lake2_outer]
  unfold pits
  rw [pits_fst, pits_loop]
  unfold lake1
  dsimp only
  rw [lake1_outer]
  rfl

/-! ## The obstacle and pit lists of the initial state -/

set_option maxRecDepth 100000 in
theorem init_obstacles_eq : init.obstacles = obstacle_cells.map cell_point := by
  show manual_obstacles (scan (key_room (ring_cols (ring_rows
    (base_fill globals0.heights)))) []) = _
  rw [ring_grid_eq]
  decide!

set_option maxRecDepth 100000 in
theorem init_pits_eq : init.empty_cube = pit_cells.map cell_point := by
  decide!


/-! ## Geometry of the cell centres -/

theorem flip_neg_eq_abs (v : ℚ) : flip_neg v = |v| := by
  unfold flip_neg
  split_ifs with h
  · rw [abs_of_neg h]; ring
  · rw [abs_of_nonneg (not_lt.mp h)]

theorem cell_center_sub (a b : Nat) :
    cell_center a - cell_center b = 25 * ((a : ℚ) - (b : ℚ)) := by
  unfold cell_center length_of_cube_base length_of_base
  ring

/-- The centres of two different grid lines are at least one cube apart. -/
theorem cell_center_apart {a b : Nat} (h : a ≠ b) : 25 ≤ |cell_center a - cell_center b| := by
  rw [cell_center_sub]
  rcases Nat.lt_or_gt_of_ne h with h1 | h1
  · have h2 : (a : ℚ) + 1 ≤ (b : ℚ) := by exact_mod_cast h1
    rw [abs_of_nonpos (by linarith)]
    linarith
  · have h2 : (b : ℚ) + 1 ≤ (a : ℚ) := by exact_mod_cast h1
    rw [abs_of_nonneg (by linarith)]
    linarith


/-! ## A player standing on the centre of a cell -/

/-- The cell test leaves a player alone who stands on the centre of cell
`(a, b)` at the standing height of that cell. -/
theorem cell_test_fixed (s : State) (a b : Nat) (hx : s.person_x = cell_center a)
    (hz : s.person_z = cell_center b)
    (hy : s.person_y = length_of_cube_base / 2 + (s.heights a b - 1) * length_of_cube_base)
    (i2 i : Nat) : cell_test i2 i s = s := by
  unfold cell_test
  dsimp only
  by_cases hc : a = i2 ∧ b = i
  · obtain ⟨rfl, rfl⟩ := hc
    rw [if_neg, if_neg]
    · rintro ⟨_, _, h⟩; rw [hy] at h; linarith
    · rintro ⟨_, _, h⟩; rw [hy] at h; linarith
  · have hfar : ¬ (flip_neg (s.person_x - cell_center i2) < length_of_cube_base / 2 ∧
        flip_neg (s.person_z - cell_center i) < length_of_cube_base / 2) := by
      rintro ⟨h1, h2⟩
      rw [flip_neg_eq_abs, hx] at h1
      rw [flip_neg_eq_abs, hz] at h2
      unfold length_of_cube_base at h1 h2
      by_cases ha : a = i2
      · have hb : b ≠ i := fun hb => hc ⟨ha, hb⟩
        have := cell_center_apart hb
        linarith
      · have := cell_center_apart ha
        linarith
    rw [if_neg, if_neg]
    · rintro ⟨h1, h2, _⟩; exact hfar ⟨h1, h2⟩
    · rintro ⟨h1, h2, _⟩; exact hfar ⟨h1, h2⟩

theorem cell_pass_fixed (s : State) (a b : Nat) (hx : s.person_x = cell_center a)
    (hz : s.person_z = cell_center b)
    (hy : s.person_y = length_of_cube_base / 2 + (s.heights a b - 1) * length_of_cube_base)
    (r1 r2 c1 c2 : Nat) : cell_pass r1 r2 c1 c2 s = s := by
  unfold cell_pass
  apply foldl_fixed
  intro i2 _
  apply foldl_fixed
  intro i _
  exact cell_test_fixed s a b hx hz hy i2 i

theorem terrain_fixed (s : State) (a b : Nat) (hx : s.person_x = cell_center a)
    (hz : s.person_z = cell_center b)
    (hy : s.person_y = length_of_cube_base / 2 + (s.heights a b - 1) * length_of_cube_base) :
    terrain s = s := by
  have h0 : terrain0 s = s := by
    unfold terrain0; split_ifs
    · exact cell_pass_fixed s a b hx hz hy _ _ _ _
    · rfl
  have h1 : terrain1 s = s := by
    unfold terrain1; split_ifs
    · exact cell_pass_fixed s a b hx hz hy _ _ _ _
    · rfl
  unfold terrain
  rw [h0, h1]

/-- The obstacle test leaves alone a player on the centre of a cell other than
the obstacle's. -/
theorem obstacle_test_fixed (s : State) (a b : Nat) (hx : s.person_x = cell_center a)
    (hz : s.person_z = cell_center b) (c : Nat × Nat) (hc : c ≠ (a, b)) :
    obstacle_test (cell_point c) s = s := by
  unfold obstacle_test cell_point
  dsimp only
  rw [if_neg]
  rintro ⟨h1, h2, h3, h4⟩
  rw [hx] at h1 h2
  rw [hz] at h3 h4
  unfold length_of_cube_base at h1 h2 h3 h4
  by_cases ha : a = c.1
  · have hb : b ≠ c.2 := fun hb => hc (by rw [ha, hb])
    have h5 := cell_center_apart hb
    have h6 : |cell_center b - cell_center c.2| < 5 * 25 / 6 := abs_lt.mpr ⟨by linarith, h3⟩
    linarith
  · have h5 := cell_center_apart ha
    have h6 : |cell_center a - cell_center c.1| < 5 * 25 / 6 := abs_lt.mpr ⟨by linarith, h1⟩
    linarith

/-- The obstacle pass leaves alone a player on the centre of a cell that is
not an obstacle cell, when the obstacle list is the initial one. -/
theorem obstacle_pass_fixed (s : State) (a b : Nat) (hx : s.person_x = cell_center a)
    (hz : s.person_z = cell_center b) (ho : s.obstacles = init.obstacles)
    (hab : (a, b) ∉ obstacle_cells) : obstacle_pass s = s := by
  unfold obstacle_pass
  apply foldl_fixed
  intro p hp
  dsimp only
  split_ifs
  · have hp2 : p.2 ∈ s.obstacles := by
      have := List.mem_map_of_mem Prod.snd hp
      rwa [List.enum_map_snd] at this
    rw [ho, init_obstacles_eq, List.mem_map] at hp2
    obtain ⟨c, hc, hcp⟩ := hp2
    rw [← hcp]
    exact obstacle_test_fixed s a b hx hz c (fun h => hab (h ▸ hc))
  · rfl


/-! ## The cells that are not gating cells keep their height -/

theorem setH_off {h : Nat → Nat → ℚ} {a b i j : Nat} (v : ℚ) (hne : ¬ (i = a ∧ j = b)) :
    setH h a b v i j = h i j := by
  unfold setH
  rw [if_neg hne]

theorem respawn_heights_off_gate (s : State) (i j : Nat) (hg : ¬ Gating i j) :
    (respawn s).heights i j = s.heights i j := by
  unfold Gating at hg
  push_neg at hg
  obtain ⟨h1, h2, h3, h4, h5, h6⟩ := hg
  unfold respawn
  split_ifs
  · unfold respawn_body
    dsimp only
    rw [setH_off _ (fun h => h2 h.1 h.2), setH_off _ (fun h => h6 h.1 h.2),
      setH_off _ (fun h => h5 h.1 h.2), setH_off _ (fun h => h4 h.1 h.2),
      setH_off _ (fun h => h3 h.1 h.2), setH_off _ (fun h => h1 h.1 h.2)]
  · rfl

theorem unlock_heights_off_gate (s : State) (i j : Nat) (hg : ¬ Gating i j) :
    (unlock s).heights i j = s.heights i j := by
  unfold Gating at hg
  push_neg at hg
  obtain ⟨h1, h2, h3, h4, h5, h6⟩ := hg
  have e1 : ∀ s : State, (unlock1 s).heights i j = s.heights i j := fun s => by
    unfold unlock1; split_ifs
    · dsimp only
      rw [setH_off _ (fun h => h2 h.1 h.2), setH_off _ (fun h => h1 h.1 h.2)]
    · rfl
  have e2 : ∀ s : State, (unlock2 s).heights i j = s.heights i j := fun s => by
    unfold unlock2; split_ifs
    · dsimp only
      rw [setH_off _ (fun h => h4 h.1 h.2), setH_off _ (fun h => h3 h.1 h.2)]
    · rfl
  have e3 : ∀ s : State, (unlock3 s).heights i j = s.heights i j := fun s => by
    unfold unlock3; split_ifs
    · dsimp only
      rw [setH_off _ (fun h => h6 h.1 h.2), setH_off _ (fun h => h5 h.1 h.2)]
    · rfl
  unfold unlock
  rw [e3, e2, e1]

theorem at_unlock_heights_off_gate (s : State) (i j : Nat) (hg : ¬ Gating i j) :
    (at_unlock s).heights i j = s.heights i j := by
  unfold at_unlock
  rw [unlock_heights_off_gate _ i j hg, jump_frame State.heights (fun _ _ _ _ => rfl),
    respawn_heights_off_gate _ i j hg,
    before_respawn_frame State.heights (fun _ _ _ _ _ _ _ _ => rfl)]

/-- A tick changes no cell other than the six gating cells. -/
theorem draw_heights_off_gate (s : State) (i j : Nat) (hg : ¬ Gating i j) :
    (draw s).heights i j = s.heights i j := by
  rw [draw_heights]
  exact at_unlock_heights_off_gate s i j hg

theorem reachable_heights_off_gate {s : State} (hs : Reachable s) (i j : Nat)
    (hg : ¬ Gating i j) : s.heights i j = init.heights i j := by
  induction hs with
  | init => rfl
  | draw s _ _ ih => rw [draw_heights_off_gate s i j hg, ih]
  | keyboard s k a _ ih =>
    rw [keyboard_frame State.heights (fun _ _ _ _ _ _ _ _ _ _ => rfl)]
    exact ih

theorem reachable_obstacles {s : State} (hs : Reachable s) : s.obstacles = init.obstacles := by
  induction hs with
  | init => rfl
  | draw s _ _ ih =>
    rw [draw_frame State.obstacles
      (fun _ _ _ _ _ _ _ _ _ _ _ _ _ _ _ _ _ _ _ _ _ _ _ _ => rfl)]
    exact ih
  | keyboard s k a _ ih =>
    rw [keyboard_frame State.obstacles (fun _ _ _ _ _ _ _ _ _ _ => rfl)]
    exact ih

/-! ## The key count through a tick -/

theorem draw_eq (s : State) :
    draw s = save_prev (platform_pass (spike_pass (wall_pass (fall (pickups
      (at_pickups s)))))) := rfl

/-- After the pickup step of a tick nothing writes `key`. -/
theorem draw_key (s : State) : (draw s).key = (pickups (at_pickups s)).key := by
  rw [draw_eq, save_prev_frame State.key (fun _ _ _ _ => rfl),
    platform_pass_frame State.key (fun _ _ _ _ _ _ _ => rfl),
    spike_pass_frame State.key (fun _ _ _ => rfl),
    wall_pass_frame State.key (fun _ _ _ _ _ _ _ => rfl),
    fall_frame State.key (fun _ _ _ _ _ => rfl)]

/-- Between the respawn step and the pickup step nothing writes `key`. -/
theorem at_pickups_key (s : State) :
    (at_pickups s).key = (respawn (before_respawn s)).key := by
  unfold at_pickups at_unlock
  rw [obstacle_pass_frame State.key (fun _ _ _ _ => rfl),
    pit_pass_frame State.key (fun _ _ => rfl),
    terrain_frame State.key (fun _ _ _ _ _ _ _ _ => rfl),
    unlock_frame State.key (fun _ _ => rfl),
    jump_frame State.key (fun _ _ _ _ => rfl)]

theorem before_respawn_key (s : State) : (before_respawn s).key = s.key :=
  before_respawn_frame State.key (fun _ _ _ _ _ _ _ _ => rfl) s

theorem pickups_key_ge (s : State) : s.key ≤ (pickups s).key := by
  have h0 : ∀ s : State, s.key ≤ (pickup0 s).key := fun s => by
    unfold pickup0; split_ifs with h
    · dsimp only; rw [h.2.2.2.2]; norm_num
    · exact le_refl _
  have h1 : ∀ s : State, s.key ≤ (pickup1 s).key := fun s => by
    unfold pickup1; split_ifs with h
    · dsimp only; rw [h.2.2.2.2]; norm_num
    · exact le_refl _
  have h2 : ∀ s : State, s.key ≤ (pickup2 s).key := fun s => by
    unfold pickup2; split_ifs with h
    · dsimp only; rw [h.2.2.2.2]; norm_num
    · exact le_refl _
  have h3 : ∀ s : State, s.key ≤ (pickup3 s).key := fun s => by
    unfold pickup3; split_ifs <;> exact le_refl _
  unfold pickups
  exact le_trans (h0 s) (le_trans (h1 _) (le_trans (h2 _) (h3 _)))

theorem pickups_key_ok (s : State) (hk : KeyOK s.key) : KeyOK (pickups s).key := by
  have h0 : ∀ s : State, KeyOK s.key → KeyOK (pickup0 s).key := fun s hk => by
    unfold pickup0; split_ifs
    · exact Or.inr (Or.inl rfl)
    · exact hk
  have h1 : ∀ s : State, KeyOK s.key → KeyOK (pickup1 s).key := fun s hk => by
    unfold pickup1; split_ifs
    · exact Or.inr (Or.inr (Or.inl rfl))
    · exact hk
  have h2 : ∀ s : State, KeyOK s.key → KeyOK (pickup2 s).key := fun s hk => by
    unfold pickup2; split_ifs
    · exact Or.inr (Or.inr (Or.inr rfl))
    · exact hk
  have h3 : ∀ s : State, KeyOK s.key → KeyOK (pickup3 s).key := fun s hk => by
    unfold pickup3; split_ifs <;> exact hk
  unfold pickups
  exact h3 _ (h2 _ (h1 _ (h0 _ hk)))

theorem respawn_key_ok (s : State) (hk : KeyOK s.key) : KeyOK (respawn s).key := by
  unfold respawn
  split_ifs
  · exact Or.inl rfl
  · exact hk

theorem draw_key_ok (s : State) (hk : KeyOK s.key) : KeyOK (draw s).key := by
  rw [draw_key]
  apply pickups_key_ok
  rw [at_pickups_key]
  apply respawn_key_ok
  rw [before_respawn_key]
  exact hk

theorem reachable_key_ok {s : State} (hs : Reachable s) : KeyOK s.key := by
  induction hs with
  | init => exact Or.inl rfl
  | draw s _ _ ih => exact draw_key_ok s ih
  | keyboard s k a _ ih =>
    rw [keyboard_frame State.key (fun _ _ _ _ _ _ _ _ _ _ => rfl)]
    exact ih

/-- Outside the four zones the pickup step does nothing. -/
theorem pickups_fixed (s : State)
    (h0 : ¬ (s.person_x ≤ 290 ∧ s.person_x ≥ 280 ∧ s.person_z ≤ 170 ∧ s.person_z ≥ 160))
    (h1 : ¬ (s.person_z ≤ 340 ∧ s.person_z ≥ 330 ∧ s.person_x ≤ -335))
    (h2 : ¬ (s.person_z ≥ -340 ∧ s.person_z ≤ -330)) : pickups s = s := by
  have e0 : pickup0 s = s := by
    unfold pickup0; rw [if_neg]; rintro ⟨a, b, c, d, _⟩; exact h0 ⟨a, b, c, d⟩
  have e1 : pickup1 s = s := by
    unfold pickup1; rw [if_neg]; rintro ⟨_, a, b, c, _⟩; exact h1 ⟨b, c, a⟩
  have e2 : pickup2 s = s := by
    unfold pickup2; rw [if_neg]; rintro ⟨_, _, a, b, _⟩; exact h2 ⟨a, b⟩
  have e3 : pickup3 s = s := by
    unfold pickup3; rw [if_neg]; rintro ⟨_, _, a, b, _⟩; exact h2 ⟨a, b⟩
  unfold pickups
  rw [e0, e1, e2, e3]

/-! ## A tick in which the respawn step fires -/

theorem start_xz_eq : start_xz = cell_center 28 := by
  unfold start_xz cell_center length_of_cube_base length_of_base; norm_num

theorem unlock_fixed (s : State) (hk : s.key < 1) : unlock s = s := by
  have e1 : unlock1 s = s := by unfold unlock1; rw [if_neg]; exact not_le.mpr hk
  have e2 : unlock2 s = s := by unfold unlock2; rw [if_neg]; exact not_le.mpr (by linarith)
  have e3 : unlock3 s = s := by unfold unlock3; rw [if_neg]; exact not_le.mpr (by linarith)
  unfold unlock
  rw [e1, e2, e3]

/-- When the respawn step fires in a tick of a run, the player is still at
the start coordinates with `key = 0` when the pickup step is reached. -/
theorem at_pickups_after_respawn {s : State} (hs : Reachable s)
    (hf : respawn_fires (before_respawn s)) :
    (at_pickups s).person_x = start_xz ∧ (at_pickups s).person_z = start_xz ∧
      (at_pickups s).key = 0 := by
  have hR : respawn (before_respawn s) = respawn_body (before_respawn s) := if_pos hf
  have hU : at_unlock s = jump (respawn_body (before_respawn s)) := by
    unfold at_unlock
    rw [hR]
    apply unlock_fixed
    rw [jump_frame State.key (fun _ _ _ _ => rfl)]
    show (0 : ℚ) < 1
    norm_num
  have hx : (at_unlock s).person_x = cell_center 28 := by
    rw [hU, jump_frame State.person_x (fun _ _ _ _ => rfl), ← start_xz_eq]; rfl
  have hz : (at_unlock s).person_z = cell_center 28 := by
    rw [hU, jump_frame State.person_z (fun _ _ _ _ => rfl), ← start_xz_eq]; rfl
  have hh : (at_unlock s).heights 28 28 = 5 := by
    rw [at_unlock_heights_off_gate s 28 28 (by unfold Gating; decide),
      reachable_heights_off_gate hs 28 28 (by unfold Gating; decide)]
    decide!
  have hy : (at_unlock s).person_y =
      length_of_cube_base / 2 + ((at_unlock s).heights 28 28 - 1) * length_of_cube_base := by
    rw [hh, hU, jump_frame State.person_y (fun _ _ _ _ => rfl)]
    show start_y = _
    unfold start_y length_of_cube_base height_of_base
    norm_num
  have hT : terrain (at_unlock s) = at_unlock s := terrain_fixed _ 28 28 hx hz hy
  have hobs : (pit_pass (at_unlock s)).obstacles = init.obstacles := by
    rw [pit_pass_frame State.obstacles (fun _ _ => rfl), hU,
      jump_frame State.obstacles (fun _ _ _ _ => rfl)]
    show (before_respawn s).obstacles = _
    rw [before_respawn_frame State.obstacles (fun _ _ _ _ _ _ _ _ => rfl)]
    exact reachable_obstacles hs
  have hO : at_pickups s = pit_pass (at_unlock s) := by
    unfold at_pickups
    rw [hT]
    apply obstacle_pass_fixed _ 28 28 _ _ hobs (by decide)
    · rw [pit_pass_frame State.person_x (fun _ _ => rfl)]; exact hx
    · rw [pit_pass_frame State.person_z (fun _ _ => rfl)]; exact hz
  rw [hO, pit_pass_frame State.person_x (fun _ _ => rfl),
    pit_pass_frame State.person_z (fun _ _ => rfl), pit_pass_frame State.key (fun _ _ => rfl),
    hx, hz, start_xz_eq, hU, jump_frame State.key (fun _ _ _ _ => rfl)]
  exact ⟨rfl, rfl, rfl⟩

/-- C5: in every state of a run `key` is 0, 1, 2 or 3; across one tick `key`
stays the same, increases, or becomes 0; and it becomes smaller only in a tick
in which the respawn step fires. -/
theorem C5_key_count (s : State) (hs : Reachable s) :
    (s.key = 0 ∨ s.key = 1 ∨ s.key = 2 ∨ s.key = 3) ∧
      ((draw s).key = s.key ∨ (draw s).key > s.key ∨ (draw s).key = 0) ∧
      ((draw s).key < s.key → respawn_fires (before_respawn s)) := by
  refine ⟨reachable_key_ok hs, ?_, ?_⟩
  · by_cases hf : respawn_fires (before_respawn s)
    · obtain ⟨hx, hz, hk⟩ := at_pickups_after_respawn hs hf
      right; right
      rw [draw_key, pickups_fixed, hk]
      · rintro ⟨h, _⟩; rw [hx] at h; unfold start_xz length_of_cube_base length_of_base at h
        norm_num at h
      · rintro ⟨_, _, h⟩; rw [hx] at h; unfold start_xz length_of_cube_base length_of_base at h
        norm_num at h
      · rintro ⟨_, h⟩; rw [hz] at h; unfold start_xz length_of_cube_base length_of_base at h
        norm_num at h
    · have hk : (at_pickups s).key = s.key := by
        rw [at_pickups_key, ← before_respawn_key s]
        exact congrArg State.key (if_neg hf)
      rcases lt_or_eq_of_le (pickups_key_ge (at_pickups s)) with h | h
      · right; left
        rw [draw_key, ← hk]
        exact h
      · left
        rw [draw_key, ← h, hk]
  · intro hlt
    by_contra hf
    have hk : (at_pickups s).key = s.key := by
      rw [at_pickups_key, ← before_respawn_key s]
      exact congrArg State.key (if_neg hf)
    have := pickups_key_ge (at_pickups s)
    rw [draw_key] at hlt
    linarith

/-- C5 at a concrete input: the initial state and its first tick. -/
theorem C5_key_count_witness :
    (init.key = 0 ∨ init.key = 1 ∨ init.key = 2 ∨ init.key = 3) ∧
      ((draw init).key = init.key ∨ (draw init).key > init.key ∨ (draw init).key = 0) ∧
      ((draw init).key < init.key → respawn_fires (before_respawn init)) :=
  C5_key_count init Reachable.init


/-! ## Spikes -/

theorem spike_step_ok (sp : Spike) (h : SpikeOK sp) : SpikeOK (spike_step sp) := by
  obtain ⟨h1, h2, n, hn⟩ := h
  have hlo : sp.y ≠ 45 → 45 + 1 / 2 ≤ sp.y := by
    intro hne
    have h3 : (45 : ℚ) < sp.y := lt_of_le_of_ne h1 (Ne.symm hne)
    rw [hn] at h3 ⊢
    have h4 : (90 : ℤ) < n := by
      have : ((90 : ℤ) : ℚ) < (n : ℚ) := by push_cast; linarith
      exact_mod_cast this
    have h5 : ((91 : ℤ) : ℚ) ≤ (n : ℚ) := by exact_mod_cast h4
    push_cast at h5
    linarith
  have hhi : sp.y ≠ 100 → sp.y ≤ 100 - 1 / 2 := by
    intro hne
    have h3 : sp.y < 100 := lt_of_le_of_ne h2 hne
    rw [hn] at h3 ⊢
    have h4 : n < (200 : ℤ) := by
      have : (n : ℚ) < ((200 : ℤ) : ℚ) := by push_cast; linarith
      exact_mod_cast this
    have h5 : (n : ℚ) ≤ ((199 : ℤ) : ℚ) := by exact_mod_cast Int.lt_add_one_iff.mp h4
    push_cast at h5
    linarith
  unfold spike_step
  dsimp only
  by_cases c1 : sp.y ≥ 100
  · have e : sp.y = 100 := le_antisymm h2 c1
    rw [if_pos c1]
    dsimp only
    rw [if_neg (by norm_num)]
    refine ⟨?_, ?_, n - 1, ?_⟩
    · dsimp only; rw [e]; norm_num
    · dsimp only; rw [e]; norm_num
    · dsimp only; rw [hn]; push_cast; ring
  · rw [if_neg c1]
    have c1' : sp.y ≠ 100 := fun e => c1 (ge_of_eq e)
    by_cases c2 : sp.y ≤ 45
    · have e : sp.y = 45 := le_antisymm c2 h1
      rw [if_pos c2]
      dsimp only
      rw [if_pos rfl]
      refine ⟨?_, ?_, n + 1, ?_⟩
      · dsimp only; rw [e]; norm_num
      · dsimp only; rw [e]; norm_num
      · dsimp only; rw [hn]; push_cast; ring
    · rw [if_neg c2]
      have c2' : sp.y ≠ 45 := fun e => c2 (le_of_eq e)
      have l1 := hlo c2'
      have l2 := hhi c1'
      split_ifs
      · refine ⟨?_, ?_, n + 1, ?_⟩
        · dsimp only; linarith
        · dsimp only; linarith
        · dsimp only; rw [hn]; push_cast; ring
      · refine ⟨?_, ?_, n - 1, ?_⟩
        · dsimp only; linarith
        · dsimp only; linarith
        · dsimp only; rw [hn]; push_cast; ring

theorem spike_iterate_ok (sp : Spike) (h : SpikeOK sp) (n : Nat) :
    SpikeOK (Nat.iterate spike_step n sp) := by
  induction n with
  | zero => exact h
  | succ k ih =>
    rw [Function.iterate_succ_apply']
    exact spike_step_ok _ ih

theorem init_spikes_ok (i : Nat) (hi : i < 12) : SpikeOK (init.spike_y i) := by
  have h : ∀ i < 12, (init.spike_y i).y ∈ ([50, 60, 70, 80, 90, 100] : List ℚ) := by decide!
  have hm := h i hi
  simp only [List.mem_cons, List.mem_singleton, List.not_mem_nil, or_false] at hm
  rcases hm with e | e | e | e | e | e
  · exact ⟨by norm_num [e], by norm_num [e], 100, by norm_num [e]⟩
  · exact ⟨by norm_num [e], by norm_num [e], 120, by norm_num [e]⟩
  · exact ⟨by norm_num [e], by norm_num [e], 140, by norm_num [e]⟩
  · exact ⟨by norm_num [e], by norm_num [e], 160, by norm_num [e]⟩
  · exact ⟨by norm_num [e], by norm_num [e], 180, by norm_num [e]⟩
  · exact ⟨by norm_num [e], by norm_num [e], 200, by norm_num [e]⟩

theorem spike_iter_ok (i : Nat) (s : State) (h : ∀ j < 12, SpikeOK (s.spike_y j)) (hi : i < 12) :
    ∀ j < 12, SpikeOK ((spike_iter i s).spike_y j) := by
  have e : (spike_hit i s).spike_y = s.spike_y := by
    unfold spike_hit; dsimp only; split_ifs <;> rfl
  intro j hj
  unfold spike_iter spike_advance
  dsimp only
  rw [e]
  unfold setA
  split_ifs with hji
  · exact spike_step_ok _ (h i hi)
  · exact h j hj

theorem spike_pass_ok (s : State) (h : ∀ j < 12, SpikeOK (s.spike_y j)) :
    ∀ j < 12, SpikeOK ((spike_pass s).spike_y j) := by
  unfold spike_pass
  split_ifs
  · refine foldl_preserves (fun t : State => ∀ j < 12, SpikeOK (t.spike_y j)) _ _ _ h ?_
    intro t i hi ht
    exact spike_iter_ok i t ht (by have := List.mem_range.mp hi; omega)
  · exact h

/-- In a tick only the spike pass writes `spike_y`. -/
theorem draw_spike_y (s : State) :
    (draw s).spike_y = (spike_pass (wall_pass (fall (pickups (at_pickups s))))).spike_y := by
  rw [draw_eq, save_prev_frame State.spike_y (fun _ _ _ _ => rfl),
    platform_pass_frame State.spike_y (fun _ _ _ _ _ _ _ => rfl)]

theorem before_spikes_spike_y (s : State) :
    (wall_pass (fall (pickups (at_pickups s)))).spike_y = s.spike_y := by
  unfold at_pickups at_unlock
  rw [wall_pass_frame State.spike_y (fun _ _ _ _ _ _ _ => rfl),
    fall_frame State.spike_y (fun _ _ _ _ _ => rfl),
    pickups_frame State.spike_y (fun _ _ _ _ => rfl),
    obstacle_pass_frame State.spike_y (fun _ _ _ _ => rfl),
    pit_pass_frame State.spike_y (fun _ _ => rfl),
    terrain_frame State.spike_y (fun _ _ _ _ _ _ _ _ => rfl),
    unlock_frame State.spike_y (fun _ _ => rfl),
    jump_frame State.spike_y (fun _ _ _ _ => rfl),
    respawn_frame State.spike_y (fun _ _ _ _ _ _ _ _ _ => rfl),
    before_respawn_frame State.spike_y (fun _ _ _ _ _ _ _ _ => rfl)]

theorem draw_spikes_ok (s : State) (h : ∀ j < 12, SpikeOK (s.spike_y j)) :
    ∀ j < 12, SpikeOK ((draw s).spike_y j) := by
  rw [draw_spike_y]
  apply spike_pass_ok
  rw [before_spikes_spike_y]
  exact h

theorem reachable_spikes_ok {s : State} (hs : Reachable s) : ∀ j < 12, SpikeOK (s.spike_y j) := by
  induction hs with
  | init => exact init_spikes_ok
  | draw s _ _ ih => exact draw_spikes_ok s ih
  | keyboard s k a _ ih =>
    rw [keyboard_frame State.spike_y (fun _ _ _ _ _ _ _ _ _ _ => rfl)]
    exact ih

/-- C9: the spike oscillation never overshoots: in every state of a run
(the initial offsets 50, 60, ..., 100, 100, ..., 50 with direction +1, then any
ticks and key events) each of the 12 spikes has its y-offset in [45, 100], and
so it has after any number `n` of further animation steps. -/
theorem C9_spike_bounds (s : State) (hs : Reachable s) (i : Nat) (hi : i < 12) (n : Nat) :
    (45 ≤ (s.spike_y i).y ∧ (s.spike_y i).y ≤ 100) ∧
      (45 ≤ (Nat.iterate spike_step n (s.spike_y i)).y ∧
        (Nat.iterate spike_step n (s.spike_y i)).y ≤ 100) := by
  have h := reachable_spikes_ok hs i hi
  have hn := spike_iterate_ok _ h n
  exact ⟨⟨h.1, h.2.1⟩, ⟨hn.1, hn.2.1⟩⟩

/-- C9 at a concrete input: spike 5 (initial offset 100) in the initial state
and after 111 animation steps. -/
theorem C9_spike_bounds_witness :
    (45 ≤ (init.spike_y 5).y ∧ (init.spike_y 5).y ≤ 100) ∧
      (45 ≤ (Nat.iterate spike_step 111 (init.spike_y 5)).y ∧
        (Nat.iterate spike_step 111 (init.spike_y 5)).y ≤ 100) :=
  C9_spike_bounds init Reachable.init 5 (by decide) 111


/-! ## Moving platforms -/

theorem sameMotion_refl (m : MovingBase) : SameMotion m m := ⟨rfl, rfl, rfl, rfl⟩

theorem sameMotion_trans {a b c : MovingBase} (h1 : SameMotion a b) (h2 : SameMotion b c) :
    SameMotion a c :=
  ⟨h2.1.trans h1.1, h2.2.1.trans h1.2.1, h2.2.2.1.trans h1.2.2.1, h2.2.2.2.trans h1.2.2.2⟩

/-- The animation step of a platform does not read the coin flag. -/
theorem platform_step_motion {m m' : MovingBase} (h : SameMotion m m') :
    SameMotion (platform_step m) (platform_step m') := by
  obtain ⟨hx, hy, hz, hd⟩ := h
  unfold platform_step SameMotion
  dsimp only
  rw [hy]
  by_cases c1 : m.y > 120
  · rw [if_pos c1, if_pos c1]
    dsimp only
    rw [if_neg (by norm_num), if_neg (by norm_num)]
    exact ⟨hx, rfl, hz, rfl⟩
  · rw [if_neg c1, if_neg c1]
    by_cases c2 : m.y ≤ 60
    · rw [if_pos c2, if_pos c2]
      dsimp only
      rw [if_pos rfl, if_pos rfl]
      exact ⟨hx, rfl, hz, rfl⟩
    · rw [if_neg c2, if_neg c2, hd]
      split_ifs
      · exact ⟨hx, by dsimp only; rw [hy], hz, rfl⟩
      · exact ⟨hx, by dsimp only; rw [hy], hz, rfl⟩

/-- The player tests of a platform write at most its coin flag. -/
theorem platform_touch_motion (i j : Nat) (s : State) :
    SameMotion (s.moving_base j) ((platform_touch i s).moving_base j) := by
  have h2 : ∀ v (s : State), (platform_block v s).moving_base = s.moving_base := fun v s => by
    unfold platform_block; split_ifs <;> rfl
  have h3 : ∀ a b c (s : State),
      SameMotion (s.moving_base j) ((platform_land i a b c s).moving_base j) := fun a b c s => by
    unfold platform_land
    by_cases hc : c ≤ 12.5 ∧ c ≥ 0 ∧ (a < 19 ∧ b < 19)
    · rw [if_pos hc]
      dsimp only
      unfold setA
      by_cases hji : j = i
      · rw [if_pos hji, hji]; exact ⟨rfl, rfl, rfl, rfl⟩
      · rw [if_neg hji]; exact sameMotion_refl _
    · rw [if_neg hc]; exact sameMotion_refl _
  have h4 : ∀ a b (s : State), (platform_leave a b s).moving_base = s.moving_base :=
    fun a b s => by unfold platform_leave; split_ifs <;> rfl
  have h5 : ∀ (s : State), (platform_carry i s).moving_base = s.moving_base := fun s => by
    unfold platform_carry; split_ifs <;> rfl
  unfold platform_touch
  dsimp only
  split_ifs
  · rw [h5, h4]
    have := h3 (flip_neg (s.person_x - (s.moving_base i).x))
      (flip_neg (s.person_z - (s.moving_base i).z))
      (s.person_y - (s.moving_base i).y - 40) (platform_block
        (s.person_y - (s.moving_base i).y - 40) s)
    rw [h2] at this
    exact this
  · exact sameMotion_refl _

theorem platform_iter_motion_self (i : Nat) (s : State) :
    SameMotion (platform_step (s.moving_base i)) ((platform_iter i s).moving_base i) := by
  unfold platform_iter
  have h := platform_touch_motion i i (platform_advance i s)
  have e : (platform_advance i s).moving_base i = platform_step (s.moving_base i) := by
    unfold platform_advance setA; dsimp only; rw [if_pos rfl]
  rw [e] at h
  exact h

theorem platform_iter_motion_other (i j : Nat) (hji : j ≠ i) (s : State) :
    SameMotion (s.moving_base j) ((platform_iter i s).moving_base j) := by
  unfold platform_iter
  have h := platform_touch_motion i j (platform_advance i s)
  have e : (platform_advance i s).moving_base j = s.moving_base j := by
    unfold platform_advance setA; dsimp only; rw [if_neg hji]
  rw [e] at h
  exact h

/-- The loop over the first `n` platforms animates each of them once and
leaves the others as they are (coin flags apart). -/
theorem platform_loop_motion (s : State) (n j : Nat) :
    (j < n → SameMotion (platform_step (s.moving_base j))
      (((List.range n).foldl (fun s i => platform_iter i s) s).moving_base j)) ∧
    (n ≤ j → SameMotion (s.moving_base j)
      (((List.range n).foldl (fun s i => platform_iter i s) s).moving_base j)) := by
  induction n with
  | zero =>
    exact ⟨fun h => absurd h (Nat.not_lt_zero j), fun _ => sameMotion_refl _⟩
  | succ k ih =>
    rw [List.range_succ, List.foldl_append]
    simp only [List.foldl_cons, List.foldl_nil]
    constructor
    · intro hj
      by_cases hjk : j = k
      · rw [hjk] at ih ⊢
        exact sameMotion_trans (platform_step_motion (ih.2 (le_refl k)))
          (platform_iter_motion_self k _)
      · exact sameMotion_trans (ih.1 (by omega)) (platform_iter_motion_other k j hjk _)
    · intro hj
      exact sameMotion_trans (ih.2 (by omega)) (platform_iter_motion_other k j (by omega) _)

theorem platform_pass_motion (s : State) (hk : s.key ≥ 0) (j : Nat)
    (hj : j < s.no_of_moving_base) :
    SameMotion (platform_step (s.moving_base j)) ((platform_pass s).moving_base j) := by
  unfold platform_pass
  rw [if_pos hk]
  exact (platform_loop_motion s s.no_of_moving_base j).1 hj

theorem keyOK_nonneg {k : ℚ} (h : KeyOK k) : k ≥ 0 := by
  rcases h with h | h | h | h <;> rw [h] <;> norm_num

/-- One tick animates each platform once, whatever the player does. -/
theorem draw_platform_motion (s : State) (hk : KeyOK s.key) (j : Nat)
    (hj : j < s.no_of_moving_base) :
    SameMotion (platform_step (s.moving_base j)) ((draw s).moving_base j) := by
  have e1 : (draw s).moving_base =
      (platform_pass (spike_pass (wall_pass (fall (pickups (at_pickups s)))))).moving_base := by
    rw [draw_eq, save_prev_frame State.moving_base (fun _ _ _ _ => rfl)]
  have e2 : (spike_pass (wall_pass (fall (pickups (at_pickups s))))).moving_base =
      s.moving_base := by
    unfold at_pickups at_unlock
    rw [spike_pass_frame State.moving_base (fun _ _ _ => rfl),
      wall_pass_frame State.moving_base (fun _ _ _ _ _ _ _ => rfl),
      fall_frame State.moving_base (fun _ _ _ _ _ => rfl),
      pickups_frame State.moving_base (fun _ _ _ _ => rfl),
      obstacle_pass_frame State.moving_base (fun _ _ _ _ => rfl),
      pit_pass_frame State.moving_base (fun _ _ => rfl),
      terrain_frame State.moving_base (fun _ _ _ _ _ _ _ _ => rfl),
      unlock_frame State.moving_base (fun _ _ => rfl),
      jump_frame State.moving_base (fun _ _ _ _ => rfl),
      respawn_frame State.moving_base (fun _ _ _ _ _ _ _ _ _ => rfl),
      before_respawn_frame State.moving_base (fun _ _ _ _ _ _ _ _ => rfl)]
  have e3 : (spike_pass (wall_pass (fall (pickups (at_pickups s))))).no_of_moving_base =
      s.no_of_moving_base := by
    unfold at_pickups at_unlock
    rw [spike_pass_frame State.no_of_moving_base (fun _ _ _ => rfl),
      wall_pass_frame State.no_of_moving_base (fun _ _ _ _ _ _ _ => rfl),
      fall_frame State.no_of_moving_base (fun _ _ _ _ _ => rfl),
      pickups_frame State.no_of_moving_base (fun _ _ _ _ => rfl),
      obstacle_pass_frame State.no_of_moving_base (fun _ _ _ _ => rfl),
      pit_pass_frame State.no_of_moving_base (fun _ _ => rfl),
      terrain_frame State.no_of_moving_base (fun _ _ _ _ _ _ _ _ => rfl),
      unlock_frame State.no_of_moving_base (fun _ _ => rfl),
      jump_frame State.no_of_moving_base (fun _ _ _ _ => rfl),
      respawn_frame State.no_of_moving_base (fun _ _ _ _ _ _ _ _ _ => rfl),
      before_respawn_frame State.no_of_moving_base (fun _ _ _ _ _ _ _ _ => rfl)]
  have e4 : (spike_pass (wall_pass (fall (pickups (at_pickups s))))).key =
      (pickups (at_pickups s)).key := by
    rw [spike_pass_frame State.key (fun _ _ _ => rfl),
      wall_pass_frame State.key (fun _ _ _ _ _ _ _ => rfl),
      fall_frame State.key (fun _ _ _ _ _ => rfl)]
  have hk' : (spike_pass (wall_pass (fall (pickups (at_pickups s))))).key ≥ 0 := by
    rw [e4, ← draw_key]
    exact keyOK_nonneg (draw_key_ok s hk)
  have h := platform_pass_motion _ hk' j (by rw [e3]; exact hj)
  rw [e2] at h
  rw [e1]
  exact h

/-- After `n` ticks from the initial state, whatever happens to the player,
each of the five platforms has made `n` animation steps. -/
theorem iterate_draw_platform (n : Nat) :
    KeyOK (Nat.iterate draw n init).key ∧ (Nat.iterate draw n init).no_of_moving_base = 5 ∧
      ∀ j < 5, SameMotion (Nat.iterate platform_step n (init.moving_base j))
        ((Nat.iterate draw n init).moving_base j) := by
  induction n with
  | zero => exact ⟨Or.inl rfl, rfl, fun j _ => sameMotion_refl _⟩
  | succ k ih =>
    obtain ⟨hk, hn, hm⟩ := ih
    rw [Function.iterate_succ_apply']
    refine ⟨draw_key_ok _ hk, ?_, ?_⟩
    · rw [draw_frame State.no_of_moving_base
        (fun _ _ _ _ _ _ _ _ _ _ _ _ _ _ _ _ _ _ _ _ _ _ _ _ => rfl)]
      exact hn
    · intro j hj
      rw [Function.iterate_succ_apply']
      exact sameMotion_trans (platform_step_motion (hm j hj))
        (draw_platform_motion _ hk j (by rw [hn]; exact hj))


/-! ## A tick of a player who stands on the centre of a free cell -/

/-- The pit test leaves alone a player on the centre of a cell other than the
pit's. -/
theorem pit_test_fixed (s : State) (a b : Nat) (hx : s.person_x = cell_center a)
    (hz : s.person_z = cell_center b) (c : Nat × Nat) (hc : c ≠ (a, b)) :
    pit_test (cell_point c) s = s := by
  unfold pit_test cell_point
  dsimp only
  split_ifs with h0 h
  · exfalso
    obtain ⟨h1, h2, h3, h4⟩ := h
    rw [hx] at h1 h2
    rw [hz] at h3 h4
    unfold length_of_cube_base at h1 h2 h3 h4
    by_cases ha : a = c.1
    · have hb : b ≠ c.2 := fun hb => hc (by rw [ha, hb])
      have h5 := cell_center_apart hb
      have h6 : |cell_center b - cell_center c.2| < 25 / 2 := abs_lt.mpr ⟨by linarith, h3⟩
      linarith
    · have h5 := cell_center_apart ha
      have h6 : |cell_center a - cell_center c.1| < 25 / 2 := abs_lt.mpr ⟨by linarith, h1⟩
      linarith
  · rfl
  · rfl

theorem pit_pass_fixed (s : State) (a b : Nat) (hx : s.person_x = cell_center a)
    (hz : s.person_z = cell_center b) (hp : s.empty_cube = init.empty_cube)
    (hab : (a, b) ∉ pit_cells) : pit_pass s = s := by
  unfold pit_pass
  split_ifs
  · apply foldl_fixed
    intro p hp2
    rw [hp, init_pits_eq, List.mem_map] at hp2
    obtain ⟨c, hc, hcp⟩ := hp2
    rw [← hcp]
    exact pit_test_fixed s a b hx hz c (fun h => hab (h ▸ hc))
  · rfl

theorem at_unlock_obstacles (s : State) : (at_unlock s).obstacles = s.obstacles := by
  unfold at_unlock
  rw [unlock_frame State.obstacles (fun _ _ => rfl),
    jump_frame State.obstacles (fun _ _ _ _ => rfl),
    respawn_frame State.obstacles (fun _ _ _ _ _ _ _ _ _ => rfl),
    before_respawn_frame State.obstacles (fun _ _ _ _ _ _ _ _ => rfl)]

theorem at_unlock_empty_cube (s : State) : (at_unlock s).empty_cube = s.empty_cube := by
  unfold at_unlock
  rw [unlock_frame State.empty_cube (fun _ _ => rfl),
    jump_frame State.empty_cube (fun _ _ _ _ => rfl),
    respawn_frame State.empty_cube (fun _ _ _ _ _ _ _ _ _ => rfl),
    before_respawn_frame State.empty_cube (fun _ _ _ _ _ _ _ _ => rfl)]

/-- A player who, after the unlock step, stands on the centre of a cell that is
neither an obstacle nor a pit, at the standing height of that cell, reaches the
pickup step untouched by the terrain, pit and obstacle passes. -/
theorem at_pickups_standing (s : State) (a b : Nat)
    (hx : (at_unlock s).person_x = cell_center a)
    (hz : (at_unlock s).person_z = cell_center b)
    (hy : (at_unlock s).person_y =
      length_of_cube_base / 2 + ((at_unlock s).heights a b - 1) * length_of_cube_base)
    (ho : s.obstacles = init.obstacles) (hp : s.empty_cube = init.empty_cube)
    (hab : (a, b) ∉ obstacle_cells) (hab' : (a, b) ∉ pit_cells) :
    at_pickups s = at_unlock s := by
  unfold at_pickups
  rw [terrain_fixed _ a b hx hz hy,
    pit_pass_fixed _ a b hx hz ((at_unlock_empty_cube s).trans hp) hab',
    obstacle_pass_fixed _ a b hx hz ((at_unlock_obstacles s).trans ho) hab]

theorem fall_fixed (s : State) (h : s.fall_state ≠ 1) : fall s = s := by
  unfold fall; rw [if_neg h]

theorem wall_pass_fixed (s : State) (h : s.key < 2) : wall_pass s = s := by
  unfold wall_pass; rw [if_neg (not_le.mpr h)]

theorem spike_pass_fixed (s : State) (h : s.key < 3) : spike_pass s = s := by
  unfold spike_pass; rw [if_neg (not_le.mpr h)]

/-- With `fall_state` clear and fewer than two keys, the fall step and the wall
and spike passes do nothing. -/
theorem hazards_fixed (s : State) (hf : s.fall_state ≠ 1) (hk : s.key < 2) :
    spike_pass (wall_pass (fall s)) = s := by
  rw [fall_fixed s hf, wall_pass_fixed s hk, spike_pass_fixed s (by linarith)]

/-- In zone 0 with no key the pickup step gives the first key and 20 points. -/
theorem pickups_zone0 (s : State)
    (h : s.person_x ≤ 290 ∧ s.person_x ≥ 280 ∧ s.person_z ≤ 170 ∧ s.person_z ≥ 160 ∧ s.key = 0) :
    pickups s = { s with score := s.score + 20, key := 1 } := by
  have e0 : pickup0 s = { s with score := s.score + 20, key := 1 } := by
    unfold pickup0; rw [if_pos h]
  have e1 : pickup1 (pickup0 s) = pickup0 s := by
    unfold pickup1; rw [if_neg]; rw [e0]; rintro ⟨_, h', _⟩; dsimp only at h'; linarith [h.2.1]
  have e2 : pickup2 (pickup0 s) = pickup0 s := by
    unfold pickup2; rw [if_neg]; rw [e0]; rintro ⟨_, h', _⟩; dsimp only at h'; linarith [h.2.1]
  have e3 : pickup3 (pickup0 s) = pickup0 s := by
    unfold pickup3; rw [if_neg]; rw [e0]; rintro ⟨_, h', _⟩; dsimp only at h'; linarith [h.1]
  unfold pickups
  rw [e1, e2, e3, e0]


/-! ## Unlocking on the tick after the pickup -/

theorem unlock1_opens (s : State) (hk : s.key = 1) :
    (unlock s).heights 14 15 = 5 ∧ (unlock s).heights 14 16 = 5 := by
  have e1 : unlock1 s =
      { s with heights := setH (setH s.heights 14 15 height_of_base) 14 16 height_of_base } := by
    unfold unlock1; rw [if_pos (by rw [hk])]
  have e2 : ∀ t : State, t.key = 1 → unlock2 t = t := fun t ht => by
    unfold unlock2; rw [if_neg]; rw [ht]; norm_num
  have e3 : ∀ t : State, t.key = 1 → unlock3 t = t := fun t ht => by
    unfold unlock3; rw [if_neg]; rw [ht]; norm_num
  have hk1 : (unlock1 s).key = 1 := by rw [e1]; exact hk
  unfold unlock
  rw [e2 _ hk1, e3 _ hk1, e1]
  unfold setH height_of_base
  constructor <;> simp

/-- C8: from a state with `key = 0` in which the gating cells (14,15) and
(14,16) have height 6, as after `intialize_base`: at the end of the tick in
which `key` becomes 1 both cells still have height 6, and at the end of the next
tick, if no respawn fires in it, both have height 5. -/
theorem C8_unlock_on_next_tick (s : State) (h15 : s.heights 14 15 = 6)
    (h16 : s.heights 14 16 = 6) (hk : s.key = 0) (hk1 : (draw s).key = 1) :
    ((draw s).heights 14 15 = 6 ∧ (draw s).heights 14 16 = 6) ∧
      (¬ respawn_fires (before_respawn (draw s)) →
        (draw (draw s)).heights 14 15 = 5 ∧ (draw (draw s)).heights 14 16 = 5) := by
  constructor
  · have hkr : (jump (respawn (before_respawn s))).key = 0 := by
      rw [jump_frame State.key (fun _ _ _ _ => rfl)]
      unfold respawn
      split_ifs
      · rfl
      · rw [before_respawn_key]; exact hk
    have hb : (before_respawn s).heights = s.heights :=
      before_respawn_frame State.heights (fun _ _ _ _ _ _ _ _ => rfl) s
    have hr : (respawn (before_respawn s)).heights 14 15 = 6 ∧
        (respawn (before_respawn s)).heights 14 16 = 6 := by
      unfold respawn
      split_ifs
      · unfold respawn_body setH height_of_base
        constructor <;> norm_num
      · rw [hb]; exact ⟨h15, h16⟩
    rw [draw_heights, unlock_fixed _ (by rw [hkr]; norm_num),
      jump_frame State.heights (fun _ _ _ _ => rfl)]
    exact hr
  · intro hnf
    have hkk : (jump (respawn (before_respawn (draw s)))).key = 1 := by
      rw [jump_frame State.key (fun _ _ _ _ => rfl)]
      have : respawn (before_respawn (draw s)) = before_respawn (draw s) := if_neg hnf
      rw [this, before_respawn_key]
      exact hk1
    rw [draw_heights]
    exact unlock1_opens _ hkk

theorem in_zone0_at_pickups : at_pickups in_zone0 = at_unlock in_zone0 := by
  apply at_pickups_standing in_zone0 26 21
  · decide!
  · decide!
  · decide!
  · rfl
  · rfl
  · decide
  · decide

theorem in_zone0_pickups :
    pickups (at_pickups in_zone0) =
      { at_unlock in_zone0 with score := (at_unlock in_zone0).score + 20, key := 1 } := by
  rw [in_zone0_at_pickups]
  apply pickups_zone0
  decide!

theorem in_zone0_key : (draw in_zone0).key = 1 := by
  rw [draw_key, in_zone0_pickups]

theorem in_zone0_quiet :
    (draw in_zone0).l_pressed = 0 ∧ (draw in_zone0).person_health = 100 ∧
      (draw in_zone0).gameover = 0 := by
  have h : spike_pass (wall_pass (fall (pickups (at_pickups in_zone0)))) =
      pickups (at_pickups in_zone0) := by
    apply hazards_fixed
    · rw [in_zone0_pickups]; decide!
    · rw [in_zone0_pickups]; show (1 : ℚ) < 2; norm_num
  refine ⟨?_, ?_, ?_⟩
  · rw [draw_frame State.l_pressed
      (fun _ _ _ _ _ _ _ _ _ _ _ _ _ _ _ _ _ _ _ _ _ _ _ _ => rfl)]
    rfl
  · rw [draw_eq, save_prev_frame State.person_health (fun _ _ _ _ => rfl),
      platform_pass_frame State.person_health (fun _ _ _ _ _ _ _ => rfl), h, in_zone0_pickups]
    decide!
  · rw [draw_eq, save_prev_frame State.gameover (fun _ _ _ _ => rfl),
      platform_pass_frame State.gameover (fun _ _ _ _ _ _ _ => rfl), h, in_zone0_pickups]
    decide!

theorem before_respawn_quiet (s : State) (hl : s.l_pressed = 0) (hh : s.person_health = 100)
    (hg : s.gameover = 0) : ¬ respawn_fires (before_respawn s) := by
  have e1 : (before_respawn s).l_pressed = 0 := by
    rw [before_respawn_frame State.l_pressed (fun _ _ _ _ _ _ _ _ => rfl)]; exact hl
  have e2 : (before_respawn s).gameover = 0 := by
    rw [before_respawn_frame State.gameover (fun _ _ _ _ _ _ _ _ => rfl)]; exact hg
  have e3 : (before_respawn s).person_health ≥ 99 := by
    unfold before_respawn
    rw [hand_speed_frame State.person_health (fun _ _ => rfl)]
    have e4 : (hand_reset (move (bounds (normalize_direction s)))).person_health = 100 := by
      rw [hand_reset_frame State.person_health (fun _ _ => rfl),
        move_frame State.person_health (fun _ _ _ _ => rfl),
        bounds_frame State.person_health (fun _ _ => rfl)]
      exact hh
    unfold health_decay
    split_ifs
    · dsimp only; rw [e4]; norm_num
    · rw [e4]; norm_num
  unfold respawn_fires
  rw [e1, e2]
  rintro (h | h | h)
  · exact absurd h (by decide)
  · linarith
  · exact absurd h (by norm_num)

/-- C8 at a concrete input: the initial state with the player in zone 0. The
tick gives `key = 1` and leaves both cells at height 6; the next tick, in which
no respawn fires, lowers both to height 5. -/
theorem C8_unlock_on_next_tick_witness :
    (draw in_zone0).key = 1 ∧
      ((draw in_zone0).heights 14 15 = 6 ∧ (draw in_zone0).heights 14 16 = 6) ∧
      ((draw (draw in_zone0)).heights 14 15 = 5 ∧ (draw (draw in_zone0)).heights 14 16 = 5) :=
  have h := C8_unlock_on_next_tick in_zone0 (by decide!) (by decide!) rfl in_zone0_key
  ⟨in_zone0_key, h.1,
    h.2 (before_respawn_quiet _ in_zone0_quiet.1 in_zone0_quiet.2.1 in_zone0_quiet.2.2)⟩


/-! ## Ticks without input: the player rests on the start cell -/

theorem move_fixed (s : State) (hu : s.up_pressed = 0) (hd : s.down_pressed = 0)
    (hl : s.left_pressed = 0) (hr : s.right_pressed = 0) : move s = s := by
  have hf : ∀ d dx dz, walk_facing d dx dz s = s := fun d dx dz => by
    unfold walk_facing; rw [if_neg]; rintro ⟨_, h⟩; rw [hu] at h; exact absurd h (by decide)
  have e1 : walk_right s = s := by
    unfold walk_right; rw [if_neg]; rw [hr]; decide
  have e2 : walk_left s = s := by
    unfold walk_left; rw [if_neg]; rw [hl]; decide
  have e3 : walk_down s = s := by
    unfold walk_down; rw [if_neg]; rw [hd]; decide
  have e4 : walk_up s = s := by
    unfold walk_up; rw [if_neg]; rw [hu]; decide
  unfold move
  split_ifs
  · rw [hf, hf, hf, hf]
  · rw [e1, e2, e3, e4]

theorem bounds_fixed (s : State) (hx1 : s.person_x < level_edge)
    (hx2 : -1 * level_edge < s.person_x) (hz1 : s.person_z < level_edge)
    (hz2 : -1 * level_edge < s.person_z) : bounds s = s := by
  have e1 : bounds_x s = s := by
    unfold bounds_x; rw [if_neg]; rintro (h | h) <;> linarith
  have e2 : bounds_z s = s := by
    unfold bounds_z; rw [if_neg]; rintro (h | h) <;> linarith
  unfold bounds
  rw [e1, e2]

theorem health_decay_fixed (s : State) (h : ¬ s.person_y + s.jump_speed < 112.5) :
    health_decay s = s := by
  unfold health_decay; rw [if_neg h]

theorem respawn_fixed (s : State) (h : ¬ respawn_fires s) : respawn s = s := if_neg h

theorem jump_fixed (s : State) (h : s.person_jump ≠ 1) : jump s = s := by
  unfold jump; rw [if_neg h]

/-- Without input, in bounds and at rest height, the steps before the respawn
check only normalise the facing direction and reset the hand swing. -/
theorem before_respawn_idle (s : State) (hu : s.up_pressed = 0) (hd : s.down_pressed = 0)
    (hl : s.left_pressed = 0) (hr : s.right_pressed = 0)
    (hx : s.person_x = start_xz) (hz : s.person_z = start_xz)
    (hy : s.person_y = start_y) (hj : s.jump_speed = 0) :
    before_respawn s = hand_speed (hand_reset (normalize_direction s)) := by
  unfold before_respawn
  have hb : bounds (normalize_direction s) = normalize_direction s := by
    apply bounds_fixed
    · show s.person_x < _; rw [hx]; unfold start_xz level_edge length_of_cube_base
        length_of_base width_of_base; norm_num
    · show _ < s.person_x; rw [hx]; unfold start_xz level_edge length_of_cube_base
        length_of_base width_of_base; norm_num
    · show s.person_z < _; rw [hz]; unfold start_xz level_edge length_of_cube_base
        length_of_base width_of_base; norm_num
    · show _ < s.person_z; rw [hz]; unfold start_xz level_edge length_of_cube_base
        length_of_base width_of_base; norm_num
  have hm : move (normalize_direction s) = normalize_direction s :=
    move_fixed _ hu hd hl hr
  rw [hb, hm]
  have hh : health_decay (hand_reset (normalize_direction s)) =
      hand_reset (normalize_direction s) := by
    apply health_decay_fixed
    rw [hand_reset_frame State.person_y (fun _ _ => rfl),
      hand_reset_frame State.jump_speed (fun _ _ => rfl)]
    show ¬ s.person_y + s.jump_speed < 112.5
    rw [hy, hj]
    unfold start_y length_of_cube_base height_of_base
    norm_num
  rw [hh]

/-- An observation that reads neither the facing direction nor the hand swing
is the same before and after the steps that precede the respawn check, when the
player is idle. -/
theorem before_respawn_idle_frame {α : Type} (g : State → α)
    (hg : ∀ (s : State) (d : Int) (a v : ℚ),
      g { s with person_direction_in_reset_view := d, person_hand_angle := a,
                 hand_angle_speed := v } = g s)
    (s : State) (hs : Idle s) : g (before_respawn s) = g s := by
  obtain ⟨⟨hx, hz, hy⟩, _, _, ⟨_, hj⟩, ⟨_, hu, hd, hl, hr⟩, _, _⟩ := hs
  rw [before_respawn_idle s hu hd hl hr hx hz hy hj,
    hand_speed_frame g (fun s v => hg s _ _ v),
    hand_reset_frame g (fun s a => hg s _ a _),
    normalize_direction_frame g (fun s d => hg s d _ _)]

/-- In a tick of an idle player the state that reaches the platform pass is
the state that the steps before the respawn check leave. -/
theorem idle_before_platforms (s : State) (hs : Idle s) :
    spike_pass (wall_pass (fall (pickups (at_pickups s)))) = before_respawn s := by
  have hI := hs
  obtain ⟨⟨hx, hz, hy⟩, ⟨hk, _, hgo, _⟩, ⟨hfs, hhl, _⟩, ⟨hpj, _⟩, ⟨hlp, _⟩,
    ⟨hob, hpit, hh⟩, _⟩ := hs
  have bx : (before_respawn s).person_x = start_xz := by
    rw [before_respawn_idle_frame State.person_x (fun _ _ _ _ => rfl) s hI]; exact hx
  have bz : (before_respawn s).person_z = start_xz := by
    rw [before_respawn_idle_frame State.person_z (fun _ _ _ _ => rfl) s hI]; exact hz
  have hby : (before_respawn s).person_y = start_y := by
    rw [before_respawn_idle_frame State.person_y (fun _ _ _ _ => rfl) s hI]; exact hy
  have bk : (before_respawn s).key = 0 := by rw [before_respawn_key]; exact hk
  have bf : (before_respawn s).fall_state = 0 := by
    rw [before_respawn_idle_frame State.fall_state (fun _ _ _ _ => rfl) s hI]; exact hfs
  have bh : (before_respawn s).heights 28 28 = 5 := by
    rw [before_respawn_frame State.heights (fun _ _ _ _ _ _ _ _ => rfl)]; exact hh
  have hnf : ¬ respawn_fires (before_respawn s) := by
    unfold respawn_fires
    rw [before_respawn_idle_frame State.l_pressed (fun _ _ _ _ => rfl) s hI,
      before_respawn_idle_frame State.person_health (fun _ _ _ _ => rfl) s hI,
      before_respawn_idle_frame State.gameover (fun _ _ _ _ => rfl) s hI, hlp, hhl, hgo]
    rintro (h | h | h)
    · exact absurd h (by decide)
    · norm_num at h
    · norm_num at h
  have hU : at_unlock s = before_respawn s := by
    unfold at_unlock
    rw [respawn_fixed _ hnf, jump_fixed, unlock_fixed _ (by rw [bk]; norm_num)]
    rw [before_respawn_idle_frame State.person_jump (fun _ _ _ _ => rfl) s hI, hpj]
    norm_num
  have hP : at_pickups s = before_respawn s := by
    rw [at_pickups_standing s 28 28 _ _ _ hob hpit (by decide) (by decide), hU]
    · rw [hU, bx, start_xz_eq]
    · rw [hU, bz, start_xz_eq]
    · rw [hU, hby, bh]
      unfold start_y length_of_cube_base height_of_base
      norm_num
  rw [hP, pickups_fixed, hazards_fixed _ (by rw [bf]; norm_num) (by rw [bk]; norm_num)]
  · rintro ⟨h, _⟩; rw [bx] at h; unfold start_xz length_of_cube_base length_of_base at h
    norm_num at h
  · rintro ⟨_, _, h⟩; rw [bx] at h; unfold start_xz length_of_cube_base length_of_base at h
    norm_num at h
  · rintro ⟨_, h⟩; rw [bz] at h; unfold start_xz length_of_cube_base length_of_base at h
    norm_num at h

theorem platform_step_x (m : MovingBase) : (platform_step m).x = m.x := by
  unfold platform_step
  dsimp only
  split_ifs <;> rfl

/-- Far from platform `i` the platform step only animates the platform. -/
theorem platform_iter_far (i : Nat) (s : State) (hx : s.person_x = start_xz)
    (hm : (s.moving_base i).x ≤ 185) : platform_iter i s = platform_advance i s := by
  unfold platform_iter platform_touch
  dsimp only
  rw [if_neg]
  rintro ⟨⟨_, h⟩, _⟩
  have e1 : (platform_advance i s).person_x = start_xz := hx
  have e2 : ((platform_advance i s).moving_base i).x = (s.moving_base i).x := by
    unfold platform_advance setA
    dsimp only
    rw [if_pos rfl, platform_step_x]
  rw [flip_neg_eq_abs, e1, e2] at h
  unfold start_xz length_of_cube_base length_of_base at h
  have := (abs_le.mp h).2
  linarith

/-- For an idle player the platform pass writes only `moving_base`. -/
theorem platform_pass_idle {α : Type} (g : State → α)
    (hg : ∀ (s : State) (mb : Nat → MovingBase), g { s with moving_base := mb } = g s)
    (s : State) (hx : s.person_x = start_xz) (hn : s.no_of_moving_base = 5)
    (hm : ∀ j, j < 5 → (s.moving_base j).x ≤ 185) :
    g (platform_pass s) = g s ∧ ∀ j, j < 5 → ((platform_pass s).moving_base j).x ≤ 185 := by
  unfold platform_pass
  split_ifs
  · refine foldl_preserves (fun t : State => (g t = g s ∧
      ∀ j, j < 5 → (t.moving_base j).x ≤ 185) ∧ t.person_x = start_xz) _ _ _
      ⟨⟨rfl, hm⟩, hx⟩ ?_ |>.1
    rintro t i hi ⟨⟨ht1, ht2⟩, ht3⟩
    have hi5 : i < 5 := by rw [hn] at hi; exact List.mem_range.mp hi
    rw [platform_iter_far i t ht3 (ht2 i hi5)]
    refine ⟨⟨?_, ?_⟩, ht3⟩
    · rw [← ht1]; exact hg t _
    · intro j hj
      unfold platform_advance setA
      dsimp only
      split_ifs with hji
      · rw [platform_step_x]; exact ht2 i hi5
      · exact ht2 j hj
  · exact ⟨rfl, hm⟩

/-- An observation that reads neither the facing direction, the hand swing,
the platforms nor the last-safe position is unchanged by a tick of an idle
player. -/
theorem draw_idle_frame {α : Type} (g : State → α)
    (hg : ∀ (s : State) (d : Int) (a v : ℚ) (mb : Nat → MovingBase) (px py pz : ℚ),
      g { s with person_direction_in_reset_view := d, person_hand_angle := a,
                 hand_angle_speed := v, moving_base := mb, prev_x := px, prev_y := py,
                 prev_z := pz } = g s)
    (s : State) (hs : Idle s) : g (draw s) = g s := by
  have hI := hs
  obtain ⟨⟨hx, _, _⟩, _, _, _, _, _, ⟨hn, hm⟩⟩ := hs
  have bx : (before_respawn s).person_x = start_xz := by
    rw [before_respawn_idle_frame State.person_x (fun _ _ _ _ => rfl) s hI]; exact hx
  have bn : (before_respawn s).no_of_moving_base = 5 := by
    rw [before_respawn_idle_frame State.no_of_moving_base (fun _ _ _ _ => rfl) s hI]
    exact hn
  have bm : ∀ j, j < 5 → ((before_respawn s).moving_base j).x ≤ 185 := by
    rw [before_respawn_idle_frame State.moving_base (fun _ _ _ _ => rfl) s hI]
    exact hm
  rw [draw_eq, save_prev_frame g (fun s x y z => hg s _ _ _ _ x y z),
    idle_before_platforms s hI,
    (platform_pass_idle g (fun s mb => hg s _ _ _ mb _ _ _) _ bx bn bm).1,
    before_respawn_idle_frame g (fun s d a v => hg s d a v _ _ _ _) s hI]

/-- A tick keeps an idle player idle. -/
theorem draw_idle (s : State) (hs : Idle s) : Idle (draw s) := by
  have hI := hs
  obtain ⟨⟨hx, hz, hy⟩, ⟨hk, hsc, hgo, hge⟩, ⟨hfs, hhl, hps⟩, ⟨hpj, hjs⟩,
    ⟨hlp, hu, hd, hl, hr⟩, ⟨hob, hpit, hh⟩, ⟨hn, hm⟩⟩ := hs
  have bx : (before_respawn s).person_x = start_xz := by
    rw [before_respawn_idle_frame State.person_x (fun _ _ _ _ => rfl) s hI]; exact hx
  have bn : (before_respawn s).no_of_moving_base = 5 := by
    rw [before_respawn_idle_frame State.no_of_moving_base (fun _ _ _ _ => rfl) s hI]
    exact hn
  have bm : ∀ j, j < 5 → ((before_respawn s).moving_base j).x ≤ 185 := by
    rw [before_respawn_idle_frame State.moving_base (fun _ _ _ _ => rfl) s hI]
    exact hm
  have hmb : ∀ j, j < 5 → ((draw s).moving_base j).x ≤ 185 := by
    rw [draw_eq, save_prev_frame State.moving_base (fun _ _ _ _ => rfl),
      idle_before_platforms s hI]
    exact (platform_pass_idle State.person_x (fun _ _ => rfl) _ bx bn bm).2
  refine ⟨⟨?_, ?_, ?_⟩, ⟨?_, ?_, ?_, ?_⟩, ⟨?_, ?_, ?_⟩, ⟨?_, ?_⟩, ⟨?_, ?_, ?_, ?_, ?_⟩,
    ⟨?_, ?_, ?_⟩, ⟨?_, hmb⟩⟩
  · rw [draw_idle_frame State.person_x (fun _ _ _ _ _ _ _ _ => rfl) s hI]; exact hx
  · rw [draw_idle_frame State.person_z (fun _ _ _ _ _ _ _ _ => rfl) s hI]; exact hz
  · rw [draw_idle_frame State.person_y (fun _ _ _ _ _ _ _ _ => rfl) s hI]; exact hy
  · rw [draw_idle_frame State.key (fun _ _ _ _ _ _ _ _ => rfl) s hI]; exact hk
  · rw [draw_idle_frame State.score (fun _ _ _ _ _ _ _ _ => rfl) s hI]; exact hsc
  · rw [draw_idle_frame State.gameover (fun _ _ _ _ _ _ _ _ => rfl) s hI]; exact hgo
  · rw [draw_idle_frame State.gameend (fun _ _ _ _ _ _ _ _ => rfl) s hI]; exact hge
  · rw [draw_idle_frame State.fall_state (fun _ _ _ _ _ _ _ _ => rfl) s hI]; exact hfs
  · rw [draw_idle_frame State.person_health (fun _ _ _ _ _ _ _ _ => rfl) s hI]; exact hhl
  · rw [draw_idle_frame State.person_state (fun _ _ _ _ _ _ _ _ => rfl) s hI]; exact hps
  · rw [draw_idle_frame State.person_jump (fun _ _ _ _ _ _ _ _ => rfl) s hI]; exact hpj
  · rw [draw_idle_frame State.jump_speed (fun _ _ _ _ _ _ _ _ => rfl) s hI]; exact hjs
  · rw [draw_idle_frame State.l_pressed (fun _ _ _ _ _ _ _ _ => rfl) s hI]; exact hlp
  · rw [draw_idle_frame State.up_pressed (fun _ _ _ _ _ _ _ _ => rfl) s hI]; exact hu
  · rw [draw_idle_frame State.down_pressed (fun _ _ _ _ _ _ _ _ => rfl) s hI]; exact hd
  · rw [draw_idle_frame State.left_pressed (fun _ _ _ _ _ _ _ _ => rfl) s hI]; exact hl
  · rw [draw_idle_frame State.right_pressed (fun _ _ _ _ _ _ _ _ => rfl) s hI]; exact hr
  · rw [draw_idle_frame State.obstacles (fun _ _ _ _ _ _ _ _ => rfl) s hI]; exact hob
  · rw [draw_idle_frame State.empty_cube (fun _ _ _ _ _ _ _ _ => rfl) s hI]; exact hpit
  · rw [draw_idle_frame (fun s => s.heights 28 28) (fun _ _ _ _ _ _ _ _ => rfl) s hI]
    exact hh
  · rw [draw_idle_frame State.no_of_moving_base (fun _ _ _ _ _ _ _ _ => rfl) s hI]
    exact hn

theorem init_idle : Idle init := by
  refine ⟨⟨rfl, rfl, rfl⟩, ⟨rfl, rfl, rfl, rfl⟩, ⟨rfl, rfl, rfl⟩, ⟨rfl, rfl⟩,
    ⟨rfl, rfl, rfl, rfl, rfl⟩, ⟨rfl, rfl, ?_⟩, ⟨rfl, ?_⟩⟩
  · rw [init_heights_eq]; decide!
  · decide!

/-- After any number of ticks without a key event the player is idle. -/
theorem iterate_draw_idle (n : Nat) : Idle (Nat.iterate draw n init) := by
  induction n with
  | zero => exact init_idle
  | succ k ih =>
    rw [Function.iterate_succ_apply']
    exact draw_idle _ ih

/-- The state after `n` ticks without a key event is a state of a run. -/
theorem iterate_draw_reachable (n : Nat) : Reachable (Nat.iterate draw n init) := by
  induction n with
  | zero => exact Reachable.init
  | succ k ih =>
    rw [Function.iterate_succ_apply']
    refine Reachable.draw _ ih ?_
    rw [(iterate_draw_idle k).2.1.2.2.2]
    decide


/-! ## The range of the platforms -/

theorem platform_step_ok (m : MovingBase) (h : PlatformOK m) : PlatformOK (platform_step m) := by
  obtain ⟨h1, h2, n, hn⟩ := h
  have hlo : ¬ m.y ≤ 60 → 60 + 1 / 2 ≤ m.y := by
    intro hne
    have h3 : (60 : ℚ) < m.y := not_le.mp hne
    rw [hn] at h3 ⊢
    have h4 : (120 : ℤ) < n := by
      have : ((120 : ℤ) : ℚ) < (n : ℚ) := by push_cast; linarith
      exact_mod_cast this
    have h5 : ((121 : ℤ) : ℚ) ≤ (n : ℚ) := by exact_mod_cast h4
    push_cast at h5
    linarith
  have hhi : ¬ m.y > 120 → m.y ≤ 120 := fun hne => not_lt.mp hne
  have hhi2 : m.y > 120 → m.y = 120 + 1 / 2 := by
    intro hgt
    have h3 : (120 : ℚ) < m.y := hgt
    rw [hn] at h3 h2 ⊢
    have h4 : (240 : ℤ) < n := by
      have : ((240 : ℤ) : ℚ) < (n : ℚ) := by push_cast; linarith
      exact_mod_cast this
    have h5 : ((241 : ℤ) : ℚ) ≤ (n : ℚ) := by exact_mod_cast h4
    push_cast at h5
    norm_num at h2
    linarith
  unfold platform_step
  dsimp only
  by_cases c1 : m.y > 120
  · have e := hhi2 c1
    rw [if_pos c1]
    dsimp only
    rw [if_neg (by norm_num)]
    refine ⟨?_, ?_, n - 1, ?_⟩
    · dsimp only; rw [e]; norm_num
    · dsimp only; rw [e]; norm_num
    · dsimp only; rw [hn]; push_cast; ring
  · rw [if_neg c1]
    have l2 := hhi c1
    by_cases c2 : m.y ≤ 60
    · have e : m.y = 60 := le_antisymm c2 h1
      rw [if_pos c2]
      dsimp only
      rw [if_pos rfl]
      refine ⟨?_, ?_, n + 1, ?_⟩
      · dsimp only; rw [e]; norm_num
      · dsimp only; rw [e]; norm_num
      · dsimp only; rw [hn]; push_cast; ring
    · rw [if_neg c2]
      have l1 := hlo c2
      split_ifs
      · refine ⟨?_, ?_, n + 1, ?_⟩
        · dsimp only; linarith
        · dsimp only; norm_num; linarith
        · dsimp only; rw [hn]; push_cast; ring
      · refine ⟨?_, ?_, n - 1, ?_⟩
        · dsimp only; linarith
        · dsimp only; norm_num; linarith
        · dsimp only; rw [hn]; push_cast; ring

theorem platformOK_of_motion {m m' : MovingBase} (h : SameMotion m m') (hm : PlatformOK m) :
    PlatformOK m' := by
  unfold PlatformOK
  rw [h.2.1]
  exact hm

theorem reachable_no_of_moving_base {s : State} (hs : Reachable s) :
    s.no_of_moving_base = 5 := by
  induction hs with
  | init => rfl
  | draw s _ _ ih =>
    rw [draw_frame State.no_of_moving_base
      (fun _ _ _ _ _ _ _ _ _ _ _ _ _ _ _ _ _ _ _ _ _ _ _ _ => rfl)]
    exact ih
  | keyboard s k a _ ih =>
    rw [keyboard_frame State.no_of_moving_base (fun _ _ _ _ _ _ _ _ _ _ => rfl)]
    exact ih

/-- In every state of a run each of the five platforms has its y in
[60, 120.5]. -/
theorem reachable_platforms_ok {s : State} (hs : Reachable s) :
    ∀ j, j < 5 → PlatformOK (s.moving_base j) := by
  induction hs with
  | init =>
    intro j hj
    have h : ∀ j < 5, (init.moving_base j).y = 100 := by decide!
    exact ⟨by rw [h j hj]; norm_num, by rw [h j hj]; norm_num, 200, by rw [h j hj]; norm_num⟩
  | draw s hs' _ ih =>
    intro j hj
    exact platformOK_of_motion
      (draw_platform_motion s (reachable_key_ok hs') j
        (by rw [reachable_no_of_moving_base hs']; exact hj))
      (platform_step_ok _ (ih j hj))
  | keyboard s k a _ ih =>
    rw [keyboard_frame State.moving_base (fun _ _ _ _ _ _ _ _ _ _ => rfl)]
    exact ih

/-- C10, evaluated: a platform starts at y = 100 with direction +1; its 41st
animation step takes it from 120 to 120.5, above the bound 120, because the
turn test of line 2003 is `>120` and not `>=120`. The state after 41 ticks
without input is a state of a run, and in it platform 0 is at y = 120.5. -/
theorem C10_platform_overshoot :
    (Nat.iterate platform_step 40 (init.moving_base 0)).y = 120 ∧
      (Nat.iterate platform_step 41 (init.moving_base 0)).y = 120.5 ∧
      Reachable (Nat.iterate draw 41 init) ∧
      ((Nat.iterate draw 41 init).moving_base 0).y = 120.5 := by
  have h := ((iterate_draw_platform 41).2.2 0 (by decide)).2.1
  rw [h]
  refine ⟨?_, ?_, iterate_draw_reachable 41, ?_⟩ <;> decide!


/-! ## The jump -/

/-- The jump step reads and writes only the three jump variables. -/
theorem jump_congr (s t : State) (h : SameJump s t) : SameJump (jump s) (jump t) := by
  have rise : ∀ s t, SameJump s t → SameJump (jump_rise s) (jump_rise t) := by
    intro s t ⟨h1, h2, h3⟩
    by_cases c : t.jump_direction = 1
    · rw [jump_rise, jump_rise, if_pos c, if_pos (h3.trans c)]
      exact ⟨h1, congrArg (fun v => v + 1.5) h2, h3⟩
    · rw [jump_rise, jump_rise, if_neg c, if_neg (fun e => c (h3 ▸ e))]
      exact ⟨h1, h2, h3⟩
  have sink : ∀ s t, SameJump s t → SameJump (jump_sink s) (jump_sink t) := by
    intro s t ⟨h1, h2, h3⟩
    by_cases c : t.jump_speed > length_of_cube_base + 10 ∨ t.jump_direction = -1
    · rw [jump_sink, jump_sink, if_pos c, if_pos (by rw [h2, h3]; exact c)]
      exact ⟨h1, congrArg (fun v => v - 1) h2, rfl⟩
    · rw [jump_sink, jump_sink, if_neg c, if_neg (by rw [h2, h3]; exact c)]
      exact ⟨h1, h2, h3⟩
  have land : ∀ s t, SameJump s t → SameJump (jump_land s) (jump_land t) := by
    intro s t ⟨h1, h2, h3⟩
    by_cases c : t.jump_speed = 0
    · rw [jump_land, jump_land, if_pos c, if_pos (h2.trans c)]
      exact ⟨rfl, h2, rfl⟩
    · rw [jump_land, jump_land, if_neg c, if_neg (by rw [h2]; exact c)]
      exact ⟨h1, h2, h3⟩
  by_cases c : t.person_jump = 1
  · rw [jump, jump, if_pos c, if_pos (h.1.trans c)]
    exact land _ _ (sink _ _ (rise _ _ h))
  · rw [jump, jump, if_neg c, if_neg (by rw [h.1]; exact c)]
    exact h

theorem iterate_jump_congr (n : Nat) (s t : State) (h : SameJump s t) :
    SameJump (jump^[n] s) (jump^[n] t) := by
  induction n generalizing s t with
  | zero => exact h
  | succ n ih =>
    rw [Function.iterate_succ_apply, Function.iterate_succ_apply]
    exact ih _ _ (jump_congr s t h)

/-- The jump started by a press of `SPACE` in the initial state, step by step. -/
theorem jump_profile_start :
    (∀ n, n ≤ 23 →
      (jump^[n] (keyboard Key.SPACE Action.PRESS init)).jump_speed = 3 * (n : ℚ) / 2) ∧
    (∀ n, 24 ≤ n → n ≤ 59 →
      (jump^[n] (keyboard Key.SPACE Action.PRESS init)).jump_speed = 59 - (n : ℚ)) ∧
    (jump^[59] (keyboard Key.SPACE Action.PRESS init)).person_jump = 0 ∧
    (jump^[59] (keyboard Key.SPACE Action.PRESS init)).jump_direction = 1 ∧
    ∀ n, 0 < n → n < 59 →
      (jump^[n] (keyboard Key.SPACE Action.PRESS init)).person_jump = 1 := by
  have h : ∀ n, n < 60 →
      (jump^[n] (keyboard Key.SPACE Action.PRESS init)).jump_speed =
        (if n ≤ 23 then 3 * (n : ℚ) / 2 else 59 - (n : ℚ)) ∧
      (jump^[n] (keyboard Key.SPACE Action.PRESS init)).person_jump =
        (if n = 59 then 0 else 1) ∧
      (n = 59 → (jump^[n] (keyboard Key.SPACE Action.PRESS init)).jump_direction = 1) := by
    set_option maxRecDepth 100000 in decide!
  refine ⟨fun n hn => ?_, fun n h1 h2 => ?_, ?_, ?_, fun n h1 h2 => ?_⟩
  · rw [(h n (by omega)).1, if_pos hn]
  · rw [(h n (by omega)).1, if_neg (by omega)]
  · exact (h 59 (by omega)).2.1
  · exact (h 59 (by omega)).2.2 rfl
  · rw [(h n (by omega)).2.1, if_neg (by omega)]

/-- C13: from a state with `person_jump = 1`, `jump_speed = 0` and
`jump_direction = 1`, the jump step (lines 1525-1539) iterated `n` times gives
`jump_speed = 1.5 n` for `n ≤ 23` (a rise of 1.5 per tick), 36 inside tick 24,
which the same tick lowers to 35, and `59 - n` for `24 ≤ n ≤ 59` (a fall of 1 per
tick); after exactly 59 steps `person_jump = 0`, `jump_speed = 0` and
`jump_direction = 1`, and after `n` steps with `0 < n < 59` the jump is still on
with `0 < jump_speed ≤ 35`. -/
theorem C13_jump_completes (s : State) (hj : s.person_jump = 1) (hs : s.jump_speed = 0)
    (hd : s.jump_direction = 1) :
    (∀ n, n ≤ 23 → (jump^[n] s).jump_speed = 3 * (n : ℚ) / 2) ∧
    (∀ n, 24 ≤ n → n ≤ 59 → (jump^[n] s).jump_speed = 59 - (n : ℚ)) ∧
    ((jump^[59] s).person_jump = 0 ∧ (jump^[59] s).jump_speed = 0 ∧
      (jump^[59] s).jump_direction = 1) ∧
    ∀ n, 0 < n → n < 59 →
      (jump^[n] s).person_jump = 1 ∧ 0 < (jump^[n] s).jump_speed ∧
        (jump^[n] s).jump_speed ≤ 35 := by
  have e : ∀ n, SameJump (jump^[n] s) (jump^[n] (keyboard Key.SPACE Action.PRESS init)) :=
    fun n => iterate_jump_congr n _ _ ⟨hj, hs, hd⟩
  obtain ⟨p1, p2, p3, p4, p5⟩ := jump_profile_start
  have up : ∀ n, n ≤ 23 → (jump^[n] s).jump_speed = 3 * (n : ℚ) / 2 :=
    fun n hn => (e n).2.1.trans (p1 n hn)
  have down : ∀ n, 24 ≤ n → n ≤ 59 → (jump^[n] s).jump_speed = 59 - (n : ℚ) :=
    fun n h1 h2 => (e n).2.1.trans (p2 n h1 h2)
  refine ⟨up, down, ⟨(e 59).1.trans p3, ?_, (e 59).2.2.trans p4⟩, fun n h1 h2 => ?_⟩
  · rw [down 59 (by omega) (by omega)]; norm_num
  · refine ⟨(e n).1.trans (p5 n h1 h2), ?_⟩
    have c1 : (1 : ℚ) ≤ (n : ℚ) := by exact_mod_cast h1
    have c2 : (n : ℚ) ≤ 58 := by exact_mod_cast (by omega : n ≤ 58)
    by_cases c : n ≤ 23
    · have c3 : (n : ℚ) ≤ 23 := by exact_mod_cast c
      rw [up n c]
      constructor <;> linarith
    · have c3 : (24 : ℚ) ≤ (n : ℚ) := by exact_mod_cast (by omega : 24 ≤ n)
      rw [down n (by omega) (by omega)]
      constructor <;> linarith

/-- C13 at a concrete input: the jump started by a press of `SPACE` in the
initial state. -/
theorem C13_jump_completes_witness :
    (jump^[59] (keyboard Key.SPACE Action.PRESS init)).person_jump = 0 ∧
      (jump^[59] (keyboard Key.SPACE Action.PRESS init)).jump_speed = 0 ∧
      (jump^[59] (keyboard Key.SPACE Action.PRESS init)).jump_direction = 1 :=
  (C13_jump_completes (keyboard Key.SPACE Action.PRESS init) rfl rfl rfl).2.2.1


/-! ## Walls -/

/-- A wall that does not touch the player leaves the state alone in its test. -/
theorem wall_hit_fixed (i : Nat) (s : State) (h : ¬ wall_touch i s) : wall_hit i s = s := by
  unfold wall_hit
  exact if_neg h

/-- The move and the turn of wall `i` are `wall_patrol` on its row; the other
rows and the player are untouched. -/
theorem wall_patrol_eq (i : Nat) (s : State) :
    wall_turn i (wall_advance i s) = { s with wall := setA s.wall i (wall_patrol (s.wall i)) } := by
  have e : ∀ (w : Nat → Wall) (a b : Wall), setA (setA w i a) i b = setA w i b := by
    intro w a b
    funext j
    unfold setA
    split_ifs <;> rfl
  have g : ∀ (w : Nat → Wall) (a : Wall), setA w i a i = a := by
    intro w a
    unfold setA
    exact if_pos rfl
  unfold wall_advance wall_patrol
  by_cases c : (s.wall i).direction = 1
  · rw [if_pos c, if_pos c]
    unfold wall_turn
    dsimp only
    rw [g]
    split_ifs <;> first | rfl | rw [e]
  · rw [if_neg c, if_neg c]
    unfold wall_turn
    dsimp only
    rw [g]
    split_ifs <;> first | rfl | rw [e]

/-- One patrol step keeps the invariant of a wall. -/
theorem wall_patrol_ok (w : Wall) (h : WallOK w) : WallOK (wall_patrol w) := by
  obtain ⟨hl, ⟨n, hn⟩, lo, hi, hd, h70, h305⟩ := h
  have n1 : (-61 : ℚ) ≤ (n : ℚ) := by linarith
  have n2 : (n : ℚ) ≤ -14 := by linarith
  have n1' : (-61 : ℤ) ≤ n := by exact_mod_cast n1
  have n2' : n ≤ -14 := by exact_mod_cast n2
  unfold wall_patrol length_of_cube_base
  rcases hd with hd | hd
  · have ne : n ≠ -14 := by
      intro e
      have := h70 (by rw [hn, e]; norm_num)
      rw [hd] at this
      norm_num at this
    have n3 : (n : ℚ) ≤ -15 := by exact_mod_cast (by omega : n ≤ -15)
    rw [if_pos hd]
    dsimp only
    by_cases c : w.x + 5 + w.length + 25 > 0
    · rw [if_pos c]
      have n4 : (-15 : ℚ) < (n : ℚ) + 0 + 0 ∨ (n : ℚ) = -15 := by
        right
        have : (-16 : ℚ) < (n : ℚ) := by rw [hn, hl] at c; linarith
        have : (-16 : ℤ) < n := by exact_mod_cast this
        exact_mod_cast (by omega : n = -15)
      have n5 : (n : ℚ) = -15 := by rcases n4 with h | h <;> linarith
      refine ⟨hl, ⟨n + 1, by dsimp only; rw [hn]; push_cast; ring⟩, by dsimp only; linarith,
        by dsimp only; rw [hn, n5]; norm_num, Or.inr (by dsimp only; rw [hd]; norm_num),
        fun _ => by dsimp only; rw [hd]; norm_num, fun e => ?_⟩
      dsimp only at e
      rw [hn, n5] at e
      norm_num at e
    · rw [if_neg c, if_neg (show ¬ w.x + 5 < -300 by linarith)]
      refine ⟨hl, ⟨n + 1, by dsimp only; rw [hn]; push_cast; ring⟩, by dsimp only; linarith,
        by dsimp only; rw [hn]; linarith, Or.inl hd, fun e => ?_, fun e => ?_⟩
      · dsimp only at e
        rw [hl] at c
        exact absurd (by linarith : w.x + 5 + 50 + 25 > 0) c
      · dsimp only at e
        linarith
  · have ne : n ≠ -61 := by
      intro e
      have := h305 (by rw [hn, e]; norm_num)
      rw [hd] at this
      norm_num at this
    have n3 : (-60 : ℚ) ≤ (n : ℚ) := by exact_mod_cast (by omega : (-60 : ℤ) ≤ n)
    rw [if_neg (show ¬ w.direction = 1 by rw [hd]; norm_num)]
    dsimp only
    rw [if_neg (show ¬ w.x - 5 + w.length + 25 > 0 by rw [hl]; linarith)]
    by_cases c : w.x - 5 < -300
    · rw [if_pos c]
      refine ⟨hl, ⟨n - 1, by dsimp only; rw [hn]; push_cast; ring⟩, by dsimp only; rw [hn]; linarith,
        by dsimp only; linarith, Or.inl (by dsimp only; rw [hd]; norm_num),
        fun e => ?_, fun _ => by dsimp only; rw [hd]; norm_num⟩
      dsimp only at e
      linarith
    · rw [if_neg c]
      refine ⟨hl, ⟨n - 1, by dsimp only; rw [hn]; push_cast; ring⟩, by dsimp only; linarith,
        by dsimp only; linarith, Or.inr hd, fun e => ?_, fun e => ?_⟩
      · dsimp only at e
        linarith
      · dsimp only at e
        exact absurd (by linarith : w.x - 5 < -300) c

/-- The three walls of `intialize_base` satisfy the invariant. -/
theorem init_walls_ok (i : Nat) (hi : i < 3) : WallOK (init.wall i) := by
  have e0 : init.wall 0 = ⟨-300, cell_center 4, length_of_cube_base * 2, 1⟩ := rfl
  have e1 : init.wall 1 = ⟨-200, cell_center 8, length_of_cube_base * 2, 1⟩ := rfl
  have e2 : init.wall 2 = ⟨-100, cell_center 12, length_of_cube_base * 2, 1⟩ := rfl
  have key : ∀ (z : ℚ) (m : ℤ), -61 < m → m < -14 →
      WallOK ⟨5 * m, z, length_of_cube_base * 2, 1⟩ := by
    intro z m h1 h2
    have a1 : (-61 : ℚ) < (m : ℚ) := by exact_mod_cast h1
    have a2 : (m : ℚ) < -14 := by exact_mod_cast h2
    refine ⟨by unfold length_of_cube_base; norm_num, ⟨m, rfl⟩, by dsimp only; linarith,
      by dsimp only; linarith, Or.inl rfl, fun e => ?_, fun _ => rfl⟩
    dsimp only at e
    linarith
  have c : i = 0 ∨ i = 1 ∨ i = 2 := by omega
  rcases c with c | c | c <;> subst c
  · rw [e0]; have := key (cell_center 4) (-60) (by decide) (by decide); norm_num at this; exact this
  · rw [e1]; have := key (cell_center 8) (-40) (by decide) (by decide); norm_num at this; exact this
  · rw [e2]; have := key (cell_center 12) (-20) (by decide) (by decide); norm_num at this; exact this

/-- The invariant holds after any number of patrol steps. -/
theorem wall_patrol_iterate_ok (w : Wall) (h : WallOK w) (n : Nat) :
    WallOK (wall_patrol^[n] w) := by
  induction n generalizing w with
  | zero => exact h
  | succ n ih =>
    rw [Function.iterate_succ_apply]
    exact ih _ (wall_patrol_ok w h)

/-- The wall loop in a state in which no wall touches the player: every wall
of the loop does one patrol step, nothing else changes. -/
theorem wall_loop_quiet (s : State) (k : Nat) (h : ∀ i, i < k → ¬ wall_touch i s) :
    (List.range k).foldl (fun s i => wall_iter i s) s =
      { s with wall := fun i => if i < k then wall_patrol (s.wall i) else s.wall i } := by
  induction k with
  | zero =>
    have e : (fun i => if i < 0 then wall_patrol (s.wall i) else s.wall i) = s.wall :=
      funext (fun i => if_neg (Nat.not_lt_zero i))
    rw [e]
    rfl
  | succ k ih =>
    rw [List.range_succ, List.foldl_append, ih (fun i hi => h i (Nat.lt_succ_of_lt hi))]
    simp only [List.foldl_cons, List.foldl_nil]
    have ht : ¬ wall_touch k
        { s with wall := fun i => if i < k then wall_patrol (s.wall i) else s.wall i } := by
      intro c
      apply h k (Nat.lt_succ_self k)
      unfold wall_touch at c ⊢
      simp only [lt_irrefl, if_false] at c
      exact c
    unfold wall_iter
    rw [wall_hit_fixed k _ ht, wall_patrol_eq]
    have e : setA (fun i => if i < k then wall_patrol (s.wall i) else s.wall i) k
        (wall_patrol ((fun i => if i < k then wall_patrol (s.wall i) else s.wall i) k)) =
        fun i => if i < k + 1 then wall_patrol (s.wall i) else s.wall i := by
      funext j
      unfold setA
      dsimp only
      split_ifs <;> first | rfl | (exfalso; omega) | (subst j; rfl)
    exact congrArg (fun w => { s with wall := w }) e

/-- The wall pass of a tick with two keys in which no wall touches the player. -/
theorem wall_pass_quiet (s : State) (hk : s.key ≥ 2)
    (h : ∀ i, i < s.no_of_walls → ¬ wall_touch i s) :
    wall_pass s =
      { s with wall := fun i => if i < s.no_of_walls then wall_patrol (s.wall i) else s.wall i } := by
  unfold wall_pass
  rw [if_pos hk]
  exact wall_loop_quiet s _ h

/-- Nothing before the wall pass of a tick writes `wall` or `no_of_walls`, and
nothing after it writes `wall`. -/
theorem draw_wall (s : State) :
    (draw s).wall = (wall_pass (fall (pickups (at_pickups s)))).wall ∧
      (fall (pickups (at_pickups s))).wall = s.wall ∧
      (fall (pickups (at_pickups s))).no_of_walls = s.no_of_walls := by
  refine ⟨?_, ?_, ?_⟩
  · rw [draw_eq, save_prev_frame State.wall (fun _ _ _ _ => rfl),
      platform_pass_frame State.wall (fun _ _ _ _ _ _ _ => rfl),
      spike_pass_frame State.wall (fun _ _ _ => rfl)]
  · unfold at_pickups at_unlock
    rw [fall_frame State.wall (fun _ _ _ _ _ => rfl),
      pickups_frame State.wall (fun _ _ _ _ => rfl),
      obstacle_pass_frame State.wall (fun _ _ _ _ => rfl),
      pit_pass_frame State.wall (fun _ _ => rfl),
      terrain_frame State.wall (fun _ _ _ _ _ _ _ _ => rfl),
      unlock_frame State.wall (fun _ _ => rfl),
      jump_frame State.wall (fun _ _ _ _ => rfl),
      respawn_frame State.wall (fun _ _ _ _ _ _ _ _ _ => rfl),
      before_respawn_frame State.wall (fun _ _ _ _ _ _ _ _ => rfl)]
  · unfold at_pickups at_unlock
    rw [fall_frame State.no_of_walls (fun _ _ _ _ _ => rfl),
      pickups_frame State.no_of_walls (fun _ _ _ _ => rfl),
      obstacle_pass_frame State.no_of_walls (fun _ _ _ _ => rfl),
      pit_pass_frame State.no_of_walls (fun _ _ => rfl),
      terrain_frame State.no_of_walls (fun _ _ _ _ _ _ _ _ => rfl),
      unlock_frame State.no_of_walls (fun _ _ => rfl),
      jump_frame State.no_of_walls (fun _ _ _ _ => rfl),
      respawn_frame State.no_of_walls (fun _ _ _ _ _ _ _ _ _ => rfl),
      before_respawn_frame State.no_of_walls (fun _ _ _ _ _ _ _ _ => rfl)]

/-- C11: in a tick whose wall pass runs (`key ≥ 2` when the pass is reached) and
in which no wall touches the player, every wall does one patrol step; a patrol
step moves the wall by exactly 5 in its direction and, for a wall of length 50,
reverses the direction exactly when the new `x` has `x + 75 > 0` or `x < -300`;
a tick in which no wall touches the player keeps the wall invariant whatever
the key count; and from the initial walls any number of patrol steps keeps `x`
in `[-305, -70]`. -/
theorem C11_wall_patrol :
    (∀ (s : State) (i : Nat), i < s.no_of_walls →
      (fall (pickups (at_pickups s))).key ≥ 2 →
      (∀ j, j < s.no_of_walls → ¬ wall_touch j (fall (pickups (at_pickups s)))) →
      (draw s).wall i = wall_patrol (s.wall i)) ∧
    (∀ w : Wall, (w.direction = 1 → (wall_patrol w).x = w.x + 5) ∧
      (w.direction ≠ 1 → (wall_patrol w).x = w.x - 5)) ∧
    (∀ w : Wall, w.length = 50 →
      (wall_patrol w).direction =
        if (wall_patrol w).x + 75 > 0 ∨ (wall_patrol w).x < -300 then w.direction * -1
        else w.direction) ∧
    (∀ s : State, s.no_of_walls = 3 → (∀ i, i < 3 → WallOK (s.wall i)) →
      (∀ j, j < 3 → ¬ wall_touch j (fall (pickups (at_pickups s)))) →
      ∀ i, i < 3 → WallOK ((draw s).wall i)) ∧
    (∀ n i : Nat, i < 3 →
      -305 ≤ (wall_patrol^[n] (init.wall i)).x ∧ (wall_patrol^[n] (init.wall i)).x ≤ -70) := by
  have tick : ∀ (s : State) (i : Nat), i < s.no_of_walls →
      (fall (pickups (at_pickups s))).key ≥ 2 →
      (∀ j, j < s.no_of_walls → ¬ wall_touch j (fall (pickups (at_pickups s)))) →
      (draw s).wall i = wall_patrol (s.wall i) := by
    intro s i hi hk hq
    obtain ⟨e1, e2, e3⟩ := draw_wall s
    rw [e1, wall_pass_quiet _ hk (by rw [e3]; exact hq)]
    dsimp only
    rw [e3, if_pos hi, e2]
  have xs : ∀ w : Wall, (w.direction = 1 → (wall_patrol w).x = w.x + 5) ∧
      (w.direction ≠ 1 → (wall_patrol w).x = w.x - 5) := by
    intro w
    unfold wall_patrol
    constructor
    · intro c
      rw [if_pos c]
      dsimp only
      split_ifs <;> rfl
    · intro c
      rw [if_neg c]
      dsimp only
      split_ifs <;> rfl
  refine ⟨tick, xs, ?_, ?_, ?_⟩
  · intro w hl
    by_cases c : w.direction = 1
    · rw [(xs w).1 c]
      unfold wall_patrol length_of_cube_base
      rw [if_pos c]
      dsimp only
      rw [hl]
      by_cases c1 : w.x + 5 + 50 + 25 > 0
      · rw [if_pos c1, if_pos (Or.inl (by linarith))]
      · by_cases c2 : w.x + 5 < -300
        · rw [if_neg c1, if_pos c2, if_pos (Or.inr c2)]
        · rw [if_neg c1, if_neg c2, if_neg (by rintro (h | h) <;> [exact c1 (by linarith); exact c2 h])]
    · rw [(xs w).2 c]
      unfold wall_patrol length_of_cube_base
      rw [if_neg c]
      dsimp only
      rw [hl]
      by_cases c1 : w.x - 5 + 50 + 25 > 0
      · rw [if_pos c1, if_pos (Or.inl (by linarith))]
      · by_cases c2 : w.x - 5 < -300
        · rw [if_neg c1, if_pos c2, if_pos (Or.inr c2)]
        · rw [if_neg c1, if_neg c2, if_neg (by rintro (h | h) <;> [exact c1 (by linarith); exact c2 h])]
  · intro s hn hw hq i hi
    by_cases hk : (fall (pickups (at_pickups s))).key ≥ 2
    · rw [tick s i (by rw [hn]; exact hi) hk (by rw [hn]; exact hq)]
      exact wall_patrol_ok _ (hw i hi)
    · rw [(draw_wall s).1, wall_pass_fixed _ (not_le.mp hk), (draw_wall s).2.1]
      exact hw i hi
  · intro n i hi
    have h := wall_patrol_iterate_ok _ (init_walls_ok i hi) n
    exact ⟨h.2.2.1, h.2.2.2.1⟩

/-- C11 at a concrete input: wall 0 after 46 patrol steps from `x = -300` (it is
then at `x = -70`, its right end) and after 47. -/
theorem C11_wall_patrol_witness :
    (-305 ≤ (wall_patrol^[46] (init.wall 0)).x ∧ (wall_patrol^[46] (init.wall 0)).x ≤ -70) ∧
      (-305 ≤ (wall_patrol^[47] (init.wall 0)).x ∧ (wall_patrol^[47] (init.wall 0)).x ≤ -70) :=
  ⟨C11_wall_patrol.2.2.2.2 46 0 (by decide), C11_wall_patrol.2.2.2.2 47 0 (by decide)⟩


/-! ## The spike loop -/

/-- The spike loop over `0..k-1`: each of these spikes does one animation step,
the others are left alone. -/
theorem spike_loop (s : State) (k : Nat) :
    ((List.range k).foldl (fun s i => spike_iter i s) s).spike_y =
      fun i => if i < k then spike_step (s.spike_y i) else s.spike_y i := by
  induction k with
  | zero => exact funext (fun i => (if_neg (Nat.not_lt_zero i)).symm)
  | succ k ih =>
    rw [List.range_succ, List.foldl_append]
    simp only [List.foldl_cons, List.foldl_nil]
    have e : ∀ t : State, (spike_iter k t).spike_y =
        setA t.spike_y k (spike_step (t.spike_y k)) := by
      intro t
      have e1 : (spike_hit k t).spike_y = t.spike_y := by
        unfold spike_hit; dsimp only; split_ifs <;> rfl
      unfold spike_iter spike_advance
      dsimp only
      rw [e1]
    rw [e, ih]
    funext j
    unfold setA
    dsimp only
    split_ifs <;> first | rfl | (exfalso; omega) | (subst j; rfl)

/-- The spike pass of a tick with three keys animates the spikes 0..10 and
leaves spike 11 (and every later row) alone. -/
theorem spike_pass_eq (s : State) (hk : s.key ≥ 3) :
    (spike_pass s).spike_y = fun i => if i < 11 then spike_step (s.spike_y i) else s.spike_y i := by
  unfold spike_pass
  rw [if_pos hk]
  exact spike_loop s 11

/-- No tick writes the row of spike 11. -/
theorem draw_spike_11 (s : State) : (draw s).spike_y 11 = s.spike_y 11 := by
  rw [draw_spike_y]
  by_cases hk : (wall_pass (fall (pickups (at_pickups s)))).key ≥ 3
  · rw [spike_pass_eq _ hk]
    dsimp only
    rw [if_neg (by decide), before_spikes_spike_y]
  · rw [spike_pass_fixed _ (not_le.mp hk), before_spikes_spike_y]

/-- C12, evaluated: the spike loop is `for (int i = 0; i <11;i++)`, so spike 11,
which `intialize_base` creates at offset 50 with direction 1, is skipped: no
tick changes its row, in every state of a run it is still at offset 50, and a
player inside its box, with three keys, is not hit by the spike pass although
the test of the loop body would hit. The spikes 0..10 are animated in every
tick whose spike pass runs. -/
theorem C12_spike_11_skipped :
    (∀ s : State, (draw s).spike_y 11 = s.spike_y 11) ∧
    (∀ s : State, Reachable s → (s.spike_y 11).y = 50 ∧ (s.spike_y 11).direction = 1) ∧
    ((spike_step (init.spike_y 11)).y = 50.5) ∧
    ((spike_pass on_spike_11).gameover = 0 ∧ (spike_hit 11 on_spike_11).gameover = 1 ∧
      ((spike_pass on_spike_11).spike_y 11).y = 50) ∧
    (∀ (s : State) (i : Nat), i < 11 → (wall_pass (fall (pickups (at_pickups s)))).key ≥ 3 →
      (draw s).spike_y i = spike_step (s.spike_y i)) := by
  refine ⟨draw_spike_11, ?_, by decide!, ⟨by decide!, by decide!, by decide!⟩, ?_⟩
  · intro s hs
    induction hs with
    | init => exact ⟨by decide!, by decide!⟩
    | draw s _ _ ih => rw [draw_spike_11]; exact ih
    | keyboard s k a _ ih =>
      rw [keyboard_frame State.spike_y (fun _ _ _ _ _ _ _ _ _ _ => rfl)]
      exact ih
  · intro s i hi hk
    rw [draw_spike_y, spike_pass_eq _ hk]
    dsimp only
    rw [if_pos hi, before_spikes_spike_y]


/-! ## The pit pass -/

/-- The loop of the pit pass: `fall_state` is set when some pit point of the
list passes the guard, and nothing else is written. -/
theorem pit_loop (l : List (ℚ × ℚ)) (s : State) :
    ((∃ p ∈ l, pit_under p s) →
      l.foldl (fun s p => pit_test p s) s = { s with fall_state := 1 }) ∧
    ((¬ ∃ p ∈ l, pit_under p s) → l.foldl (fun s p => pit_test p s) s = s) := by
  have hit : ∀ (p : ℚ × ℚ) (t : State), pit_under p t →
      pit_test p t = { t with fall_state := 1 } := by
    intro p t h
    unfold pit_test
    dsimp only
    rw [if_pos h.1, if_pos h.2]
  have miss : ∀ (p : ℚ × ℚ) (t : State), ¬ pit_under p t → pit_test p t = t := by
    intro p t h
    unfold pit_test
    dsimp only
    by_cases c0 : t.person_y + t.jump_speed = start_y
    · rw [if_pos c0, if_neg (fun c1 => h ⟨c0, c1⟩)]
    · rw [if_neg c0]
  induction l generalizing s with
  | nil => exact ⟨fun ⟨p, hp, _⟩ => absurd hp (List.not_mem_nil p), fun _ => rfl⟩
  | cons x xs ih =>
    rw [List.foldl_cons]
    by_cases cx : pit_under x s
    · rw [hit x s cx]
      refine ⟨fun _ => ?_, fun h => absurd ⟨x, List.mem_cons_self x xs, cx⟩ h⟩
      by_cases c : ∃ p ∈ xs, pit_under p { s with fall_state := 1 }
      · exact (ih _).1 c
      · exact (ih _).2 c
    · rw [miss x s cx]
      constructor
      · rintro ⟨p, hp, hu⟩
        rcases List.mem_cons.mp hp with e | e
        · exact absurd (e ▸ hu) cx
        · exact (ih s).1 ⟨p, e, hu⟩
      · intro h
        exact (ih s).2 (fun ⟨p, hp, hu⟩ => h ⟨p, List.mem_cons_of_mem x hp, hu⟩)

/-- C14, as stated, fails: in the state `over_pit_mid_jump` the jump is on
(`jump_speed = 1`, not 0) and `fall_state` is 0, yet the pit pass sets
`fall_state` to 1, because the guard of line 1737 compares
`person_y + jump_speed` (here 111.5 + 1) with the rest height. -/
theorem C14_counterexample :
    over_pit_mid_jump.jump_speed ≠ 0 ∧ over_pit_mid_jump.person_jump = 1 ∧
      over_pit_mid_jump.fall_state = 0 ∧ (pit_pass over_pit_mid_jump).fall_state = 1 := by
  refine ⟨by decide!, rfl, rfl, ?_⟩
  have h : ∃ p ∈ over_pit_mid_jump.empty_cube, pit_under p over_pit_mid_jump := by
    refine ⟨cell_point (1, 4), ?_, by unfold pit_under; decide!⟩
    show cell_point (1, 4) ∈ init.empty_cube
    rw [init_pits_eq]
    exact List.mem_map_of_mem _ (by decide)
  unfold pit_pass
  rw [if_pos (by rfl), (pit_loop _ _).1 h]

/-- C14, amended: the pit check is evaluated only when the drawn height
`person_y + jump_speed` is exactly the rest height 112.5: in every state in
which `person_y + jump_speed ≠ 112.5`, the pit pass changes nothing, so it does
not set `fall_state`, whatever the player's position. A jump from the rest
height (`person_y = 112.5`, `jump_speed ≠ 0`) is such a state. -/
theorem C14_pit_check_guard (s : State) (h : s.person_y + s.jump_speed ≠ 112.5) :
    pit_pass s = s ∧ (pit_pass s).fall_state = s.fall_state := by
  have e : pit_pass s = s := by
    unfold pit_pass
    split_ifs
    · refine (pit_loop _ _).2 ?_
      rintro ⟨p, _, hu⟩
      apply h
      have := hu.1
      unfold start_y length_of_cube_base height_of_base at this
      rw [this]
      norm_num
    · rfl
  exact ⟨e, by rw [e]⟩

/-- C14 (amended) at a concrete input: over the pit cell (1, 4), in the air
with `jump_speed = 1` and `person_y` at the rest height. -/
theorem C14_pit_check_guard_witness :
    pit_pass { over_pit_mid_jump with person_y := 112.5 } =
        { over_pit_mid_jump with person_y := 112.5 } ∧
      (pit_pass { over_pit_mid_jump with person_y := 112.5 }).fall_state =
        ({ over_pit_mid_jump with person_y := 112.5 } : State).fall_state :=
  C14_pit_check_guard { over_pit_mid_jump with person_y := 112.5 } (by decide!)


/-! ## Pits -/

theorem cell_center_inj {a b : Nat} (h : cell_center a = cell_center b) : a = b := by
  by_contra hne
  have := cell_center_apart hne
  rw [h, sub_self, abs_zero] at this
  norm_num at this

theorem cell_point_mem (l : List (Nat × Nat)) (i j : Nat) :
    (cell_center i, cell_center j) ∈ l.map cell_point ↔ (i, j) ∈ l := by
  rw [List.mem_map]
  constructor
  · rintro ⟨c, hc, e⟩
    unfold cell_point at e
    have e1 := cell_center_inj (congrArg Prod.fst e)
    have e2 := cell_center_inj (congrArg Prod.snd e)
    have : c = (i, j) := Prod.ext e1 e2
    rw [← this]
    exact hc
  · intro h
    exact ⟨(i, j), h, rfl⟩

/-- No tick and no key event writes the pit list. -/
theorem reachable_empty_cube {s : State} (hs : Reachable s) :
    s.empty_cube = init.empty_cube := by
  induction hs with
  | init => rfl
  | draw s _ _ ih =>
    rw [draw_frame State.empty_cube
      (fun _ _ _ _ _ _ _ _ _ _ _ _ _ _ _ _ _ _ _ _ _ _ _ _ => rfl)]
    exact ih
  | keyboard s k a _ ih =>
    rw [keyboard_frame State.empty_cube (fun _ _ _ _ _ _ _ _ _ _ => rfl)]
    exact ih

/-- The gating cells never go below base height: the respawn block writes 6 or
7 there, the unlock block 5. -/
theorem reachable_gates_up {s : State} (hs : Reachable s) : GatesUp s.heights := by
  have set : ∀ (h : Nat → Nat → ℚ) (a b : Nat) (v : ℚ), GatesUp h → 5 ≤ v →
      GatesUp (setH h a b v) := by
    intro h a b v hh hv i j hg
    unfold setH
    split_ifs
    · exact hv
    · exact hh i j hg
  have c5 : (5 : ℚ) ≤ height_of_base := by unfold height_of_base; norm_num
  have c6 : (5 : ℚ) ≤ height_of_base + 1 := by unfold height_of_base; norm_num
  have c7 : (5 : ℚ) ≤ height_of_base + 2 := by unfold height_of_base; norm_num
  have resp : ∀ s : State, GatesUp s.heights → GatesUp (respawn s).heights := by
    intro s h
    unfold respawn
    split_ifs
    · unfold respawn_body
      dsimp only
      exact set _ _ _ _ (set _ _ _ _ (set _ _ _ _ (set _ _ _ _ (set _ _ _ _
        (set _ _ _ _ h c6) c7) c7) c6) c6) c6
    · exact h
  have unl : ∀ s : State, GatesUp s.heights → GatesUp (unlock s).heights := by
    intro s h
    have e1 : ∀ s : State, GatesUp s.heights → GatesUp (unlock1 s).heights := fun s h => by
      unfold unlock1; split_ifs
      · exact set _ _ _ _ (set _ _ _ _ h c5) c5
      · exact h
    have e2 : ∀ s : State, GatesUp s.heights → GatesUp (unlock2 s).heights := fun s h => by
      unfold unlock2; split_ifs
      · exact set _ _ _ _ (set _ _ _ _ h c5) c5
      · exact h
    have e3 : ∀ s : State, GatesUp s.heights → GatesUp (unlock3 s).heights := fun s h => by
      unfold unlock3; split_ifs
      · exact set _ _ _ _ (set _ _ _ _ h c5) c5
      · exact h
    exact e3 _ (e2 _ (e1 _ h))
  induction hs with
  | init =>
    rw [init_heights_eq]
    intro i j hg
    unfold Gating at hg
    rcases hg with ⟨rfl, rfl⟩ | ⟨rfl, rfl⟩ | ⟨rfl, rfl⟩ | ⟨rfl, rfl⟩ | ⟨rfl, rfl⟩ | ⟨rfl, rfl⟩ <;>
      decide!
  | draw s _ _ ih =>
    rw [draw_heights]
    apply unl
    rw [jump_frame State.heights (fun _ _ _ _ => rfl)]
    apply resp
    rw [before_respawn_frame State.heights (fun _ _ _ _ _ _ _ _ => rfl)]
    exact ih
  | keyboard s k a _ ih =>
    rw [keyboard_frame State.heights (fun _ _ _ _ _ _ _ _ _ _ => rfl)]
    exact ih

set_option synthInstance.maxSize 2000 in
set_option synthInstance.maxHeartbeats 200000 in
set_option maxRecDepth 100000 in
/-- One sweep over the initial grid: a cell of height 0 lies on one of the three
pit lanes, and the index of a cell higher than 5 is the index of an obstacle
cell. -/
theorem grid_sweep : ∀ i, i < 30 → ∀ j, j < 30 →
    (init_grid i j = 0 → (1 ≤ i ∧ i ≤ 13 ∧ (j = 4 ∨ j = 8 ∨ j = 12))) ∧
    (init_grid i j > 5 → cell_code (i, j) ∈ obstacle_cells.map cell_code) := by
  decide!

set_option synthInstance.maxSize 2000 in
set_option synthInstance.maxHeartbeats 200000 in
set_option maxRecDepth 100000 in
/-- The pit cells and the obstacle cells, looked up in the initial grid. -/
theorem cells_sweep :
    (∀ c ∈ pit_cells, init_grid c.1 c.2 = 0 ∧ 1 ≤ c.1 ∧ c.1 ≤ 13 ∧
      (c.2 = 4 ∨ c.2 = 8 ∨ c.2 = 12)) ∧
    (∀ i, i < 14 → 1 ≤ i → (i, 4) ∈ pit_cells ∧ (i, 8) ∈ pit_cells ∧ (i, 12) ∈ pit_cells) ∧
    (∀ c ∈ obstacle_cells, init_grid c.1 c.2 > 5 ∧ c.1 < 30 ∧ c.2 < 30) := by
  refine ⟨by decide!, ?_, by decide!⟩
  have h : ∀ i, i < 14 →
      (1 ≤ i → (i, 4) ∈ pit_cells ∧ (i, 8) ∈ pit_cells ∧ (i, 12) ∈ pit_cells) := by decide!
  exact h

/-- The zero cells of the initial grid and the pit cells are the three lanes. -/
theorem pit_lanes (i j : Nat) (hi : i < 30) (hj : j < 30) :
    (init_grid i j = 0 ↔ (i, j) ∈ pit_cells) ∧
      ((i, j) ∈ pit_cells ↔ (1 ≤ i ∧ i ≤ 13 ∧ (j = 4 ∨ j = 8 ∨ j = 12))) ∧
      ((i, j) ∈ pit_cells → ¬ Gating i j) := by
  obtain ⟨c1, c2, _⟩ := cells_sweep
  have lane : (1 ≤ i ∧ i ≤ 13 ∧ (j = 4 ∨ j = 8 ∨ j = 12)) → (i, j) ∈ pit_cells := by
    rintro ⟨a, b, c⟩
    have := c2 i (by omega) a
    rcases c with c | c | c <;> subst c
    · exact this.1
    · exact this.2.1
    · exact this.2.2
  have mem : (i, j) ∈ pit_cells → (1 ≤ i ∧ i ≤ 13 ∧ (j = 4 ∨ j = 8 ∨ j = 12)) :=
    fun h => (c1 (i, j) h).2
  refine ⟨⟨fun h => lane ((grid_sweep i hi j hj).1 h), fun h => (c1 (i, j) h).1⟩,
    ⟨mem, lane⟩, fun hp hg => ?_⟩
  have := mem hp
  unfold Gating at hg
  omega

/-- C15: in every state of a run (after `intialize_base`, and after any ticks
and key events) the pit list holds 39 points, and for every cell `(i, j)` of the
30 x 30 grid `heights[i][j] = 0` if and only if the centre
`(12.5 + (i-15)*25, 12.5 + (j-15)*25)` of the cell is one of the pit points, which
is the case exactly for the lanes `j = 4, 8, 12` with `i = 1..13`. -/
theorem C15_pits_are_zero_cells (s : State) (hs : Reachable s) :
    s.empty_cube.length = 39 ∧
      ∀ i j : Nat, i < 30 → j < 30 →
        (s.heights i j = 0 ↔
          (12.5 + ((i : ℚ) - 15) * 25, 12.5 + ((j : ℚ) - 15) * 25) ∈ s.empty_cube) ∧
        ((12.5 + ((i : ℚ) - 15) * 25, 12.5 + ((j : ℚ) - 15) * 25) ∈ s.empty_cube ↔
          (1 ≤ i ∧ i ≤ 13 ∧ (j = 4 ∨ j = 8 ∨ j = 12))) := by
  have cc : ∀ i : Nat, 12.5 + ((i : ℚ) - 15) * 25 = cell_center i := by
    intro i
    unfold cell_center length_of_cube_base length_of_base
    norm_num
  rw [reachable_empty_cube hs, init_pits_eq]
  refine ⟨by rw [List.length_map]; rfl, fun i j hi hj => ?_⟩
  rw [cc i, cc j, cell_point_mem]
  obtain ⟨h1, h2, h3⟩ := pit_lanes i j hi hj
  refine ⟨?_, h2⟩
  by_cases hg : Gating i j
  · have up := reachable_gates_up hs i j hg
    constructor
    · intro e
      rw [e] at up
      norm_num at up
    · intro hp
      exact absurd hg (h3 hp)
  · rw [reachable_heights_off_gate hs i j hg, init_heights_eq]
    exact h1

/-- C15 at a concrete input: the pit cell (13, 12) and the gating cell (14, 15)
after the initialisation, a press of `L` and one tick. -/
theorem C15_pits_are_zero_cells_witness :
    (draw (keyboard Key.L Action.PRESS init)).empty_cube.length = 39 ∧
      ∀ i j : Nat, i < 30 → j < 30 →
        ((draw (keyboard Key.L Action.PRESS init)).heights i j = 0 ↔
          (12.5 + ((i : ℚ) - 15) * 25, 12.5 + ((j : ℚ) - 15) * 25) ∈
            (draw (keyboard Key.L Action.PRESS init)).empty_cube) ∧
        ((12.5 + ((i : ℚ) - 15) * 25, 12.5 + ((j : ℚ) - 15) * 25) ∈
            (draw (keyboard Key.L Action.PRESS init)).empty_cube ↔
          (1 ≤ i ∧ i ≤ 13 ∧ (j = 4 ∨ j = 8 ∨ j = 12))) :=
  C15_pits_are_zero_cells _
    (Reachable.draw _ (Reachable.keyboard _ Key.L Action.PRESS Reachable.init) (by decide))


/-! ## Obstacles -/

theorem cell_code_inj {c d : Nat × Nat} (hc : c.2 < 30) (hd : d.2 < 30)
    (h : cell_code c = cell_code d) : c = d := by
  unfold cell_code at h
  exact Prod.ext (by omega) (by omega)

/-- The cells of the initial grid above base height are the obstacle cells. -/
theorem obstacle_cells_high (i j : Nat) (hi : i < 30) (hj : j < 30) :
    init_grid i j > 5 ↔ (i, j) ∈ obstacle_cells := by
  obtain ⟨_, _, c3⟩ := cells_sweep
  constructor
  · intro h
    obtain ⟨c, hc, e⟩ := List.mem_map.mp ((grid_sweep i hi j hj).2 h)
    have : c = (i, j) := cell_code_inj (c3 c hc).2.2 hj e
    rw [← this]
    exact hc
  · intro h
    exact (c3 (i, j) h).1

theorem increasing_nodup (l : List Nat) (h : increasing l = true) : l.Nodup := by
  have ch : ∀ l : List Nat, increasing l = true → List.Chain' (fun a b => a < b) l := by
    intro l
    induction l with
    | nil => intro _; exact List.chain'_nil
    | cons a l ih =>
      cases l with
      | nil => intro _; exact List.chain'_singleton a
      | cons b l =>
        intro h
        unfold increasing at h
        rw [Bool.and_eq_true, decide_eq_true_eq] at h
        exact List.chain'_cons.mpr ⟨h.1, ih h.2⟩
  have pw := List.chain'_iff_pairwise.mp (ch l h)
  exact pw.imp (fun h => ne_of_lt h)

set_option maxRecDepth 100000 in
/-- The obstacle cells are pairwise distinct: the 172 cells of the scan come in
row-major order, and the six cells placed by hand are not among them. -/
theorem obstacle_cells_nodup : obstacle_cells.Nodup := by
  have h1 : increasing ((obstacle_cells.take 172).map cell_code) = true := by decide!
  have h2 : (obstacle_cells.drop 172).Nodup := by decide!
  have h3 : ∀ c ∈ obstacle_cells.drop 172, c ∉ obstacle_cells.take 172 := by decide!
  have n1 : (obstacle_cells.take 172).Nodup := List.Nodup.of_map _ (increasing_nodup _ h1)
  rw [← List.take_append_drop 172 obstacle_cells]
  exact List.nodup_append.mpr ⟨n1, h2, fun a ha hb => h3 a hb ha⟩

/-- C16: `intialize_base` produces exactly 178 obstacle points, the 172 of the
scan followed by the 6 placed by hand, which fits the 182 rows of `obstacles`;
the points are pairwise distinct, each is the centre of a cell of the grid, and
the centre of a cell `(i, j)` is among them exactly when the height of the cell
after `intialize_base` is greater than 5. -/
theorem C16_obstacle_list :
    init.obstacles.length = 178 ∧
    (scan (key_room (ring_cols (ring_rows (base_fill globals0.heights)))) []).length = 172 ∧
    init.obstacles =
      manual_obstacles (scan (key_room (ring_cols (ring_rows (base_fill globals0.heights)))) []) ∧
    init.obstacles.length ≤ 182 ∧
    init.obstacles.Nodup ∧
    (∀ i j : Nat, i < 30 → j < 30 →
      (init.heights i j > 5 ↔ (cell_center i, cell_center j) ∈ init.obstacles)) ∧
    (∀ p ∈ init.obstacles, ∃ i j : Nat, i < 30 ∧ j < 30 ∧ p = (cell_center i, cell_center j)) := by
  have len : init.obstacles.length = 178 := by
    rw [init_obstacles_eq, List.length_map]; rfl
  have man : ∀ acc : List (ℚ × ℚ), (manual_obstacles acc).length = acc.length + 6 := by
    intro acc
    simp [manual_obstacles]
  have e : init.obstacles =
      manual_obstacles (scan (key_room (ring_cols (ring_rows (base_fill globals0.heights)))) []) :=
    rfl
  refine ⟨len, ?_, e, by rw [len]; decide, ?_, ?_, ?_⟩
  · have := man (scan (key_room (ring_cols (ring_rows (base_fill globals0.heights)))) [])
    rw [← e, len] at this
    omega
  · rw [init_obstacles_eq]
    refine List.Nodup.map ?_ obstacle_cells_nodup
    intro a b hab
    unfold cell_point at hab
    exact Prod.ext (cell_center_inj (congrArg Prod.fst hab)) (cell_center_inj (congrArg Prod.snd hab))
  · intro i j hi hj
    rw [init_obstacles_eq, cell_point_mem, init_heights_eq]
    exact obstacle_cells_high i j hi hj
  · intro p hp
    rw [init_obstacles_eq, List.mem_map] at hp
    obtain ⟨c, hc, rfl⟩ := hp
    exact ⟨c.1, c.2, (cells_sweep.2.2 c hc).2.1, (cells_sweep.2.2 c hc).2.2, rfl⟩


/-! ## The cell test -/

/-- A fold in which only the step for `a` does anything, before and after it. -/
theorem foldl_single {α β : Type} (f : α → β → α) (l : List β) (a : β) (s : α)
    (hn : l.Nodup) (ha : a ∈ l) (h1 : ∀ b ∈ l, b ≠ a → f s b = s)
    (h2 : ∀ b ∈ l, b ≠ a → f (f s a) b = f s a) : l.foldl f s = f s a := by
  induction l with
  | nil => exact absurd ha (List.not_mem_nil a)
  | cons x xs ih =>
    rw [List.foldl_cons]
    obtain ⟨hx, hxs⟩ := List.nodup_cons.mp hn
    by_cases e : x = a
    · subst e
      exact foldl_fixed f xs _ (fun b hb =>
        h2 b (List.mem_cons_of_mem x hb) (fun e => hx (e ▸ hb)))
    · rw [h1 x (List.mem_cons_self x xs) e]
      rcases List.mem_cons.mp ha with e' | e'
      · exact absurd e'.symm e
      · exact ih hxs e' (fun b hb => h1 b (List.mem_cons_of_mem x hb))
          (fun b hb => h2 b (List.mem_cons_of_mem x hb))

/-- The test of a cell does nothing to a player outside its column. -/
theorem cell_test_outside (i2 i : Nat) (s : State) (h : ¬ in_cell i2 i s) :
    cell_test i2 i s = s := by
  unfold cell_test
  dsimp only
  rw [if_neg (fun c => h ⟨c.1, c.2.1⟩), if_neg (fun c => h ⟨c.1, c.2.1⟩)]

/-- A player strictly inside the column of `(a, b)` is outside every other
column. -/
theorem in_cell_unique {a b i2 i : Nat} {s : State} (h : in_cell a b s)
    (hne : ¬ (i2 = a ∧ i = b)) : ¬ in_cell i2 i s := by
  rintro ⟨h1, h2⟩
  obtain ⟨h3, h4⟩ := h
  rw [flip_neg_eq_abs] at h1 h2 h3 h4
  unfold length_of_cube_base at h1 h2 h3 h4
  by_cases e : i2 = a
  · have hb : i ≠ b := fun hb => hne ⟨e, hb⟩
    have := cell_center_apart hb
    have t := abs_sub_le (cell_center i) s.person_z (cell_center b)
    rw [abs_sub_comm (cell_center i) s.person_z] at t
    linarith
  · have := cell_center_apart e
    have t := abs_sub_le (cell_center i2) s.person_x (cell_center a)
    rw [abs_sub_comm (cell_center i2) s.person_x] at t
    linarith

/-- The nested loops around the cell test, when the player is strictly inside
the column of one cell `(a, b)` of the range and the test of that cell leaves
the player outside every other column of the range: the pass is the test of
`(a, b)`. -/
theorem cell_pass_single (r1 r2 c1 c2 a b : Nat) (s : State)
    (ha : r1 ≤ a ∧ a < r2) (hb : c1 ≤ b ∧ b < c2) (hin : in_cell a b s)
    (hout : ∀ i2 i, ¬ (i2 = a ∧ i = b) → ¬ in_cell i2 i (cell_test a b s)) :
    cell_pass r1 r2 c1 c2 s = cell_test a b s := by
  have row : ∀ (t : State) (i2 : Nat), (∀ i, ¬ in_cell i2 i t) →
      (List.range' c1 (c2 - c1)).foldl (fun s i => cell_test i2 i s) t = t :=
    fun t i2 h => foldl_fixed _ _ _ (fun i _ => cell_test_outside i2 i t (h i))
  have rowa : (List.range' c1 (c2 - c1)).foldl (fun s i => cell_test a i s) s =
      cell_test a b s := by
    apply foldl_single (fun s i => cell_test a i s) _ b s (List.nodup_range' c1 (c2 - c1))
    · rw [List.mem_range']
      exact ⟨b - c1, by omega, by omega⟩
    · intro i _ hi
      exact cell_test_outside a i s (in_cell_unique hin (fun h => hi h.2))
    · intro i _ hi
      exact cell_test_outside a i _ (hout a i (fun h => hi h.2))
  unfold cell_pass
  have key := foldl_single (fun s i2 =>
    (List.range' c1 (c2 - c1)).foldl (fun s i => cell_test i2 i s) s)
    (List.range' r1 (r2 - r1)) a s (List.nodup_range' r1 (r2 - r1))
    (by rw [List.mem_range']; exact ⟨a - r1, by omega, by omega⟩)
    (fun i2 _ hi => row s i2 (fun i => in_cell_unique hin (fun h => hi h.1)))
    (fun i2 _ hi => by
      dsimp only
      rw [rowa]
      exact row _ i2 (fun i => hout i2 i (fun h => hi h.1)))
  rw [key]
  exact rowa

/-- A player on the line `x = 0` is strictly inside no column: the line is the
border between the rows 14 and 15 of the grid. -/
theorem origin_outside (i2 i : Nat) (s : State) (h : s.person_x = 0) : ¬ in_cell i2 i s := by
  rintro ⟨h1, _⟩
  rw [flip_neg_eq_abs, h, abs_lt] at h1
  unfold cell_center length_of_cube_base length_of_base at h1
  have a1 : (14 : ℚ) < (i2 : ℚ) := by linarith [h1.2]
  have a2 : (i2 : ℚ) < 15 := by linarith [h1.1]
  have b1 : 14 < i2 := by exact_mod_cast a1
  have b2 : i2 < 15 := by exact_mod_cast a2
  omega

/-- C17, as stated, fails: `below_column` has the player strictly inside the
column of the start cell (28, 28), below its standing height, with no jump on;
the cell test puts the player back on the last-safe position `(0, 112.5, 0)` but
leaves `person_health` at 100, and so does the whole terrain step. -/
theorem C17_counterexample :
    in_cell 28 28 below_column ∧
    below_column.person_y < 12.5 + (below_column.heights 28 28 - 1) * 25 ∧
    below_column.person_jump = 0 ∧
    ((cell_test 28 28 below_column).person_x = below_column.prev_x ∧
      (cell_test 28 28 below_column).person_y = below_column.prev_y ∧
      (cell_test 28 28 below_column).person_z = below_column.prev_z) ∧
    (cell_test 28 28 below_column).person_health = below_column.person_health ∧
    (cell_test 28 28 below_column).person_health ≠ below_column.person_health - 0.15 ∧
    terrain below_column = cell_test 28 28 below_column := by
  have hin : in_cell 28 28 below_column := by unfold in_cell; decide!
  have hx : (cell_test 28 28 below_column).person_x = 0 := by decide!
  refine ⟨hin, by decide!, rfl, ⟨by decide!, by decide!, by decide!⟩, by decide!, by decide!, ?_⟩
  have e0 : terrain0 below_column = cell_test 28 28 below_column := by
    unfold terrain0
    rw [if_pos (by decide!)]
    exact cell_pass_single 14 30 14 30 28 28 _ (by omega) (by omega) hin
      (fun i2 i _ => origin_outside i2 i _ hx)
  have e1 : ∀ t : State, t.key = 0 → terrain1 t = t := by
    intro t ht
    unfold terrain1
    rw [if_neg (by rw [ht]; norm_num)]
  unfold terrain
  rw [e0, e1 _ (by decide!)]

/-- C17, amended: when the player is strictly within half a cube width (12.5)
of the centre of cell `(i2, i)` on both axes, the test of that cell does this.
With `person_y` below the standing height `12.5 + (h-1)*25` of the cell: if a
jump is on (`person_jump ≠ 0`) `person_y` is set to 13 above the standing height
and the jump is cancelled (`person_jump = 0`, `jump_speed = 0`,
`jump_direction = 1`), position and health unchanged; if `person_jump = 0` the
position is put back to the last-safe position and `person_health` is unchanged.
The penalty 0.15 is taken, with `person_y` lowered by 1, when `person_y` is above
the standing height. -/
theorem C17_collision_from_below (s : State) (i2 i : Nat)
    (hx : flip_neg (s.person_x - cell_center i2) < 12.5)
    (hz : flip_neg (s.person_z - cell_center i) < 12.5) :
    (s.person_y < 12.5 + (s.heights i2 i - 1) * 25 → s.person_jump ≠ 0 →
      (cell_test i2 i s).person_y = 12.5 + (s.heights i2 i - 1) * 25 + 12.5 + 0.5 ∧
      (cell_test i2 i s).person_jump = 0 ∧ (cell_test i2 i s).jump_speed = 0 ∧
      (cell_test i2 i s).jump_direction = 1 ∧
      (cell_test i2 i s).person_x = s.person_x ∧ (cell_test i2 i s).person_z = s.person_z ∧
      (cell_test i2 i s).person_health = s.person_health) ∧
    (s.person_y < 12.5 + (s.heights i2 i - 1) * 25 → s.person_jump = 0 →
      (cell_test i2 i s).person_x = s.prev_x ∧ (cell_test i2 i s).person_y = s.prev_y ∧
      (cell_test i2 i s).person_z = s.prev_z ∧
      (cell_test i2 i s).person_health = s.person_health) ∧
    (s.person_y > 12.5 + (s.heights i2 i - 1) * 25 →
      (cell_test i2 i s).person_y = s.person_y - 1 ∧
      (cell_test i2 i s).person_health = s.person_health - 0.15 ∧
      (cell_test i2 i s).person_x = s.person_x ∧ (cell_test i2 i s).person_z = s.person_z) := by
  have c : (length_of_cube_base / 2 : ℚ) = 12.5 := by unfold length_of_cube_base; norm_num
  have d : length_of_cube_base / 2 + (s.heights i2 i - 1) * length_of_cube_base =
      12.5 + (s.heights i2 i - 1) * 25 := by
    unfold length_of_cube_base; norm_num
  have hx' : flip_neg (s.person_x - cell_center i2) < length_of_cube_base / 2 := by
    rw [c]; exact hx
  have hz' : flip_neg (s.person_z - cell_center i) < length_of_cube_base / 2 := by
    rw [c]; exact hz
  unfold cell_test
  dsimp only
  refine ⟨fun hy hj => ?_, fun hy hj => ?_, fun hy => ?_⟩
  · rw [if_neg (fun h => by have := h.2.2; rw [d] at this; linarith),
      if_pos ⟨hx', hz', by rw [d]; linarith⟩, if_neg hj]
    exact ⟨by dsimp only; rw [d, c], rfl, rfl, rfl, rfl, rfl, rfl⟩
  · rw [if_neg (fun h => by have := h.2.2; rw [d] at this; linarith),
      if_pos ⟨hx', hz', by rw [d]; linarith⟩, if_pos hj]
    exact ⟨rfl, rfl, rfl, rfl⟩
  · rw [if_pos ⟨hx', hz', by rw [d]; linarith⟩]
    exact ⟨rfl, rfl, rfl, rfl⟩

/-- C17 (amended) at a concrete input: `below_column`, grounded below the
standing height of the start cell; the health stays at 100. -/
theorem C17_collision_from_below_witness :
    (cell_test 28 28 below_column).person_x = below_column.prev_x ∧
      (cell_test 28 28 below_column).person_y = below_column.prev_y ∧
      (cell_test 28 28 below_column).person_z = below_column.prev_z ∧
      (cell_test 28 28 below_column).person_health = below_column.person_health :=
  (C17_collision_from_below below_column 28 28 (by decide!) (by decide!)).2.1
    (by decide!) rfl


/-! ## The quadrant blocks -/

/-- The cells that the two collision blocks test all have a column index of at
least 14: a player with `z ≤ -25` is in none of their columns, and the terrain
step does nothing. -/
theorem terrain_west (s : State) (hz : s.person_z ≤ -25) : terrain s = s := by
  have out : ∀ (t : State) (i2 i : Nat), t.person_z ≤ -25 → 14 ≤ i → ¬ in_cell i2 i t := by
    rintro t i2 i ht hi ⟨_, h⟩
    rw [flip_neg_eq_abs, abs_lt] at h
    unfold cell_center length_of_cube_base length_of_base at h
    have : (14 : ℚ) ≤ (i : ℚ) := by exact_mod_cast hi
    linarith [h.1]
  have pass : ∀ r1 r2 : Nat, cell_pass r1 r2 14 30 s = s := by
    intro r1 r2
    unfold cell_pass
    refine foldl_fixed _ _ _ (fun i2 _ => foldl_fixed _ _ _ (fun i hi => ?_))
    exact cell_test_outside i2 i s (out s i2 i hz (by
      obtain ⟨k, _, rfl⟩ := List.mem_range'.mp hi
      omega))
  have e0 : terrain0 s = s := by
    unfold terrain0; split_ifs
    · exact pass _ _
    · rfl
  have e1 : terrain1 s = s := by
    unfold terrain1; split_ifs
    · exact pass _ _
    · rfl
  unfold terrain
  rw [e0, e1]

/-- C18, evaluated: only the blocks `if (key>=0)` and `if (key>=1)` contain the
cell test; the blocks `if (key>=2)` and `if (key>=3)` draw their cells and test
nothing. Whatever the key count, the terrain step leaves a player alone who is
in the columns `j ≤ 13` of these two quadrants (`z ≤ -25`). With three keys, a
grounded player on the centre of cell (5, 5) or of cell (20, 5), below the
standing height of the cell, is not put back, although the cell test, applied
to that cell, would put the player back to the last-safe position. -/
theorem C18_quadrants_2_3_not_tested :
    (∀ s : State, s.person_z ≤ -25 → terrain s = s) ∧
    (in_cell 5 5 in_quadrant2 ∧ in_quadrant2.key = 3 ∧ in_quadrant2.person_jump = 0 ∧
      in_quadrant2.person_y < 12.5 + (in_quadrant2.heights 5 5 - 1) * 25 ∧
      terrain in_quadrant2 = in_quadrant2 ∧
      (cell_test 5 5 in_quadrant2).person_x = in_quadrant2.prev_x ∧
      (cell_test 5 5 in_quadrant2).person_x ≠ in_quadrant2.person_x) ∧
    (in_cell 20 5 in_quadrant3 ∧ in_quadrant3.key = 3 ∧ in_quadrant3.person_jump = 0 ∧
      in_quadrant3.person_y < 12.5 + (in_quadrant3.heights 20 5 - 1) * 25 ∧
      terrain in_quadrant3 = in_quadrant3 ∧
      (cell_test 20 5 in_quadrant3).person_x = in_quadrant3.prev_x ∧
      (cell_test 20 5 in_quadrant3).person_x ≠ in_quadrant3.person_x) := by
  refine ⟨terrain_west, ⟨by unfold in_cell; decide!, rfl, rfl, by decide!, ?_, by decide!,
    by decide!⟩, ⟨by unfold in_cell; decide!, rfl, rfl, by decide!, ?_, by decide!, by decide!⟩⟩
  · exact terrain_west _ (by decide!)
  · exact terrain_west _ (by decide!)

/-! ## Row 14 is in both collision blocks -/

/-- The test of the cell a player is in, above the standing height. -/
theorem cell_test_push (a b : Nat) (s : State) (hin : in_cell a b s)
    (hy : s.person_y > length_of_cube_base / 2 + (s.heights a b - 1) * length_of_cube_base) :
    cell_test a b s =
      { s with person_y := s.person_y - 1, person_health := s.person_health - 0.15 } := by
  unfold cell_test
  dsimp only
  rw [if_pos ⟨hin.1, hin.2, by linarith⟩]

/-- A collision block whose range holds the cell the player is in, above the
standing height, lowers the player by 1 and takes 0.15 of the health. -/
theorem cell_pass_push (r1 r2 c1 c2 a b : Nat) (s : State)
    (ha : r1 ≤ a ∧ a < r2) (hb : c1 ≤ b ∧ b < c2) (hin : in_cell a b s)
    (hy : s.person_y > length_of_cube_base / 2 + (s.heights a b - 1) * length_of_cube_base) :
    cell_pass r1 r2 c1 c2 s =
      { s with person_y := s.person_y - 1, person_health := s.person_health - 0.15 } := by
  rw [cell_pass_single r1 r2 c1 c2 a b s ha hb hin, cell_test_push a b s hin hy]
  intro i2 i hne
  rw [cell_test_push a b s hin hy]
  have h : in_cell a b
      { s with person_y := s.person_y - 1, person_health := s.person_health - 0.15 } := hin
  exact in_cell_unique h hne

/-- C19, evaluated: the block `if (key>=0)` runs over the rows 14..29 and the
block `if (key>=1)` over the rows 0..14, so with a key the cells of row 14
(columns 14..29) are tested twice in a tick. A player strictly inside the
column of such a cell, more than 1 above its standing height, is lowered by 2
and loses 0.3 of the health in one terrain step. -/
theorem C19_double_push_down (s : State) (b : Nat) (hb : 14 ≤ b ∧ b < 30) (hk : s.key ≥ 1)
    (hin : in_cell 14 b s) (hy : s.person_y > 12.5 + (s.heights 14 b - 1) * 25 + 1) :
    (terrain s).person_y = s.person_y - 2 ∧
      (terrain s).person_health = s.person_health - 0.3 := by
  have d : length_of_cube_base / 2 + (s.heights 14 b - 1) * length_of_cube_base =
      12.5 + (s.heights 14 b - 1) * 25 := by
    unfold length_of_cube_base; norm_num
  have e0 : terrain0 s =
      { s with person_y := s.person_y - 1, person_health := s.person_health - 0.15 } := by
    unfold terrain0
    rw [if_pos (by linarith)]
    exact cell_pass_push 14 30 14 30 14 b s (by omega) hb hin (by rw [d]; linarith)
  have e1 : ∀ t : State, t.key ≥ 1 → in_cell 14 b t →
      t.person_y > length_of_cube_base / 2 + (t.heights 14 b - 1) * length_of_cube_base →
      terrain1 t =
        { t with person_y := t.person_y - 1, person_health := t.person_health - 0.15 } := by
    intro t tk tin ty
    unfold terrain1
    rw [if_pos tk]
    exact cell_pass_push 0 15 14 30 14 b t (by omega) hb tin ty
  unfold terrain
  rw [e1 (terrain0 s) (by rw [e0]; exact hk) (by rw [e0]; exact hin) (by
    rw [e0]
    show s.person_y - 1 > length_of_cube_base / 2 + (s.heights 14 b - 1) * length_of_cube_base
    rw [d]; linarith), e0]
  constructor
  · show s.person_y - 1 - 1 = s.person_y - 2
    ring
  · show s.person_health - 0.15 - 0.15 = s.person_health - 0.3
    ring

/-- C19 at a concrete input: `on_gate`, with `person_y = 125.5` on the gating
cell (14, 15) of height 5 and a health of 100. -/
theorem C19_double_push_down_witness :
    (terrain on_gate).person_y = on_gate.person_y - 2 ∧
      (terrain on_gate).person_health = on_gate.person_health - 0.3 :=
  C19_double_push_down on_gate 15 (by omega) (by decide!) (by unfold in_cell; decide!)
    (by decide!)


/-! ## A run, tick by tick -/

theorem force_nat_eq {α : Type} (n : Nat) (k : Nat → α) : force_nat n k = k n := by
  cases n <;> rfl

theorem force_int_eq {α : Type} (z : Int) (k : Int → α) : force_int z k = k z := by
  cases z with
  | ofNat n => exact force_nat_eq n (fun m => k (Int.ofNat m))
  | negSucc n => exact force_nat_eq n (fun m => k (Int.negSucc m))

theorem force_rat_eq {α : Type} (q : ℚ) (k : ℚ → α) : force_rat q k = k q := by
  unfold force_rat
  rw [force_int_eq, force_nat_eq, Rat.mkRat_self]

theorem freeze_eq {α : Type} (p : Snap) (k : Snap → α) : freeze p k = k p := by
  have hm : ∀ (m : MovingBase) (k : MovingBase → α), force_mb m k = k m := by
    intro m k
    unfold force_mb
    simp only [force_rat_eq]
  unfold freeze
  simp only [force_rat_eq, force_int_eq, hm]

theorem static_toState (p : Snap) : Static (toState p) :=
  ⟨rfl, rfl, rfl, rfl, rfl, rfl, rfl, fun i hi => by
    show (if i = 0 then p.mb0 else if i = 1 then p.mb1 else if i = 2 then p.mb2
      else if i = 3 then p.mb3 else if i = 4 then p.mb4 else init.moving_base i) = _
    rw [if_neg (by omega), if_neg (by omega), if_neg (by omega), if_neg (by omega),
      if_neg (by omega)]⟩

theorem toState_fromState (s : State) (h : Static s) : toState (fromState s) = s := by
  obtain ⟨h1, h2, h3, h4, h5, h6, h7, h8⟩ := h
  have e : (fun i => if i = 0 then s.moving_base 0 else if i = 1 then s.moving_base 1
      else if i = 2 then s.moving_base 2 else if i = 3 then s.moving_base 3
      else if i = 4 then s.moving_base 4 else init.moving_base i) = s.moving_base := by
    funext i
    split_ifs with c0 c1 c2 c3 c4
    · rw [c0]
    · rw [c1]
    · rw [c2]
    · rw [c3]
    · rw [c4]
    · exact (h8 i (by omega)).symm
  unfold toState fromState
  dsimp only
  rw [e, ← h1, ← h2, ← h3, ← h4, ← h5, ← h6, ← h7]

/-- East of `z = -50` no pit point is within reach. -/
theorem pit_pass_east (s : State) (hp : s.empty_cube = pit_cells.map cell_point)
    (hz : s.person_z ≥ -50) : pit_pass s = s := by
  have far : ∀ c ∈ pit_cells, cell_center c.2 ≤ -62.5 := by decide!
  unfold pit_pass
  split_ifs
  · refine (pit_loop _ _).2 ?_
    rintro ⟨p, hp2, hu⟩
    rw [hp, List.mem_map] at hp2
    obtain ⟨c, hc, rfl⟩ := hp2
    have h1 := hu.2.2.2.1
    have h2 := far c hc
    unfold cell_point length_of_cube_base at h1
    dsimp only at h1
    linarith
  · rfl

set_option maxRecDepth 100000 in
theorem clear_boxes_far : ∀ bx ∈ clear_boxes, ∀ c ∈ obstacle_cells,
    cell_center c.1 ≥ bx.2.1 + 125 / 6 ∨ cell_center c.1 ≤ bx.1 - 125 / 6 ∨
      cell_center c.2 ≥ bx.2.2.2 + 125 / 6 ∨ cell_center c.2 ≤ bx.2.2.1 - 125 / 6 := by
  decide!

/-- In a clear box the obstacle pass does nothing. -/
theorem obstacle_pass_clear (s : State) (ho : s.obstacles = obstacle_cells.map cell_point)
    (hb : ∃ bx ∈ clear_boxes, InBox bx.1 bx.2.1 bx.2.2.1 bx.2.2.2 s) : obstacle_pass s = s := by
  obtain ⟨bx, hbx, b1, b2, b3, b4⟩ := hb
  unfold obstacle_pass
  apply foldl_fixed
  intro p hp
  dsimp only
  split_ifs
  · have hp2 : p.2 ∈ s.obstacles := by
      have := List.mem_map_of_mem Prod.snd hp
      rwa [List.enum_map_snd] at this
    rw [ho, List.mem_map] at hp2
    obtain ⟨c, hc, hcp⟩ := hp2
    rw [← hcp]
    unfold obstacle_test cell_point length_of_cube_base
    dsimp only
    rw [if_neg]
    rintro ⟨h1, h2, h3, h4⟩
    rcases clear_boxes_far bx hbx c hc with f | f | f | f <;> linarith
  · rfl

/-- Under `tick_ok` the terrain, pit and obstacle loops of a tick reduce to the
test of the player's cell. -/
theorem at_pickups_fast (s : State) (hs : Static s) (h : tick_ok s = true) :
    at_pickups s = fast_terrain (at_unlock s) := by
  obtain ⟨_, _, ⟨k0, k1⟩, ⟨hin, a1, a2, b1, b2⟩, ⟨tx, tz⟩, pz, bx, _⟩ := of_decide_eq_true h
  have tin : in_cell (cell_of (at_unlock s).person_x) (cell_of (at_unlock s).person_z)
      (fast_terrain (at_unlock s)) := by
    unfold in_cell
    rw [tx, tz]
    exact hin
  have e0 : terrain0 (at_unlock s) = fast_terrain (at_unlock s) := by
    unfold terrain0
    rw [if_pos k0]
    exact cell_pass_single 14 30 14 30 _ _ _ ⟨a1, a2⟩ ⟨b1, b2⟩ hin
      (fun i2 i hne => in_cell_unique tin hne)
  have e1 : terrain1 (fast_terrain (at_unlock s)) = fast_terrain (at_unlock s) := by
    unfold terrain1
    rw [if_neg]
    unfold fast_terrain
    rw [cell_test_frame State.key (fun _ _ _ _ _ _ _ _ => rfl)]
    exact not_le.mpr k1
  unfold at_pickups terrain
  rw [e0, e1, pit_pass_east _ _ pz, obstacle_pass_clear _ _ bx]
  · unfold fast_terrain
    rw [cell_test_frame State.obstacles (fun _ _ _ _ _ _ _ _ => rfl), at_unlock_obstacles]
    exact hs.2.1
  · unfold fast_terrain
    rw [cell_test_frame State.empty_cube (fun _ _ _ _ _ _ _ _ => rfl), at_unlock_empty_cube]
    exact hs.2.2.1

/-- Under `tick_ok` a tick is `fast_draw`. -/
theorem draw_fast (s : State) (hs : Static s) (h : tick_ok s = true) : draw s = fast_draw s := by
  rw [draw_eq, at_pickups_fast s hs h]
  rfl

/-- The body of the platform loop for platform `i` writes no other row. -/
theorem platform_iter_other (i j : Nat) (hji : j ≠ i) (s : State) :
    (platform_iter i s).moving_base j = s.moving_base j := by
  have h2 : ∀ v (s : State), (platform_block v s).moving_base = s.moving_base := fun v s => by
    unfold platform_block; split_ifs <;> rfl
  have h3 : ∀ a b c (s : State),
      (platform_land i a b c s).moving_base j = s.moving_base j := fun a b c s => by
    unfold platform_land
    by_cases hc : c ≤ 12.5 ∧ c ≥ 0 ∧ (a < 19 ∧ b < 19)
    · rw [if_pos hc]
      dsimp only
      unfold setA
      rw [if_neg hji]
    · rw [if_neg hc]
  have h4 : ∀ a b (s : State), (platform_leave a b s).moving_base = s.moving_base :=
    fun a b s => by unfold platform_leave; split_ifs <;> rfl
  have h5 : ∀ (s : State), (platform_carry i s).moving_base = s.moving_base := fun s => by
    unfold platform_carry; split_ifs <;> rfl
  have ht : ∀ s : State, (platform_touch i s).moving_base j = s.moving_base j := by
    intro s
    unfold platform_touch
    dsimp only
    split_ifs
    · rw [h5, h4, h3, h2]
    · rfl
  unfold platform_iter
  rw [ht]
  unfold platform_advance setA
  dsimp only
  rw [if_neg hji]

/-- What a tick under `tick_ok` leaves as `intialize_base` made it. -/
theorem draw_static (s : State) (hs : Static s) (h : tick_ok s = true) : Static (draw s) := by
  obtain ⟨h1, h2, h3, h4, h5, h6, h7, h8⟩ := hs
  have hs' : Static s := ⟨h1, h2, h3, h4, h5, h6, h7, h8⟩
  obtain ⟨_, nf, ⟨_, k1⟩, _, _, _, _, k2⟩ := of_decide_eq_true h
  have fr : ∀ {α : Type} (g : State → α),
      (∀ (s : State) (h : Nat → Nat → ℚ) (w : Nat → Wall) (sp : Nat → Spike)
        (mb : Nat → MovingBase) (go : ℚ) (ge : Int) (k x y z f : ℚ) (d : Int)
        (pj js jd a v ps hl sc px py pz : ℚ),
        g { s with heights := h, wall := w, spike_y := sp, moving_base := mb, gameover := go,
                   gameend := ge, key := k, person_x := x, person_y := y, person_z := z,
                   fall_state := f, person_direction_in_reset_view := d, person_jump := pj,
                   jump_speed := js, jump_direction := jd, person_hand_angle := a,
                   hand_angle_speed := v, person_state := ps, person_health := hl, score := sc,
                   prev_x := px, prev_y := py, prev_z := pz } = g s) → g (draw s) = g s :=
    fun g hg => draw_frame g hg s
  have ap := at_pickups_fast s hs' h
  have kx : (fall (pickups (at_pickups s))).key < 2 := by
    rw [fall_frame State.key (fun _ _ _ _ _ => rfl), ap]
    exact k2
  refine ⟨?_, ?_, ?_, ?_, ?_, ?_, ?_, ?_⟩
  · rw [draw_heights, unlock_fixed, jump_frame State.heights (fun _ _ _ _ => rfl),
      respawn_fixed _ nf, before_respawn_frame State.heights (fun _ _ _ _ _ _ _ _ => rfl)]
    · exact h1
    · have e : (at_unlock s).key = (jump (respawn (before_respawn s))).key := by
        unfold at_unlock
        rw [unlock_frame State.key (fun _ _ => rfl)]
      rw [← e]
      exact k1
  · rw [fr State.obstacles (fun _ _ _ _ _ _ _ _ _ _ _ _ _ _ _ _ _ _ _ _ _ _ _ _ => rfl)]
    exact h2
  · rw [fr State.empty_cube (fun _ _ _ _ _ _ _ _ _ _ _ _ _ _ _ _ _ _ _ _ _ _ _ _ => rfl)]
    exact h3
  · rw [(draw_wall s).1, wall_pass_fixed _ kx, (draw_wall s).2.1]
    exact h4
  · rw [fr State.no_of_walls (fun _ _ _ _ _ _ _ _ _ _ _ _ _ _ _ _ _ _ _ _ _ _ _ _ => rfl)]
    exact h5
  · rw [draw_spike_y, spike_pass_fixed, before_spikes_spike_y]
    · exact h6
    · rw [wall_pass_frame State.key (fun _ _ _ _ _ _ _ => rfl)]
      linarith
  · rw [fr State.no_of_moving_base (fun _ _ _ _ _ _ _ _ _ _ _ _ _ _ _ _ _ _ _ _ _ _ _ _ => rfl)]
    exact h7
  · intro i hi
    have eY : (spike_pass (wall_pass (fall (pickups (at_pickups s))))).moving_base =
        s.moving_base := by
      unfold at_pickups at_unlock
      rw [spike_pass_frame State.moving_base (fun _ _ _ => rfl),
        wall_pass_frame State.moving_base (fun _ _ _ _ _ _ _ => rfl),
        fall_frame State.moving_base (fun _ _ _ _ _ => rfl),
        pickups_frame State.moving_base (fun _ _ _ _ => rfl),
        obstacle_pass_frame State.moving_base (fun _ _ _ _ => rfl),
        pit_pass_frame State.moving_base (fun _ _ => rfl),
        terrain_frame State.moving_base (fun _ _ _ _ _ _ _ _ => rfl),
        unlock_frame State.moving_base (fun _ _ => rfl),
        jump_frame State.moving_base (fun _ _ _ _ => rfl),
        respawn_frame State.moving_base (fun _ _ _ _ _ _ _ _ _ => rfl),
        before_respawn_frame State.moving_base (fun _ _ _ _ _ _ _ _ => rfl)]
    have eN : (spike_pass (wall_pass (fall (pickups (at_pickups s))))).no_of_moving_base =
        5 := by
      unfold at_pickups at_unlock
      rw [spike_pass_frame State.no_of_moving_base (fun _ _ _ => rfl),
        wall_pass_frame State.no_of_moving_base (fun _ _ _ _ _ _ _ => rfl),
        fall_frame State.no_of_moving_base (fun _ _ _ _ _ => rfl),
        pickups_frame State.no_of_moving_base (fun _ _ _ _ => rfl),
        obstacle_pass_frame State.no_of_moving_base (fun _ _ _ _ => rfl),
        pit_pass_frame State.no_of_moving_base (fun _ _ => rfl),
        terrain_frame State.no_of_moving_base (fun _ _ _ _ _ _ _ _ => rfl),
        unlock_frame State.no_of_moving_base (fun _ _ => rfl),
        jump_frame State.no_of_moving_base (fun _ _ _ _ => rfl),
        respawn_frame State.no_of_moving_base (fun _ _ _ _ _ _ _ _ _ => rfl),
        before_respawn_frame State.no_of_moving_base (fun _ _ _ _ _ _ _ _ => rfl)]
      exact h7
    have eP : ∀ t : State, t.no_of_moving_base = 5 →
        (platform_pass t).moving_base i = t.moving_base i := by
      intro t ht
      unfold platform_pass
      split_ifs
      · refine foldl_preserves (fun u : State => u.moving_base i = t.moving_base i) _ _ _ rfl ?_
        intro u j hj hu
        have hj5 : j < 5 := by rw [ht] at hj; exact List.mem_range.mp hj
        rw [platform_iter_other j i (by omega) u]
        exact hu
      · rfl
    rw [draw_eq, save_prev_frame State.moving_base (fun _ _ _ _ => rfl), eP _ eN, eY]
    exact h8 i hi

theorem keyboard_static (k : Key) (a : Action) (s : State) (hs : Static s) :
    Static (keyboard k a s) := by
  obtain ⟨h1, h2, h3, h4, h5, h6, h7, h8⟩ := hs
  refine ⟨?_, ?_, ?_, ?_, ?_, ?_, ?_, ?_⟩
  · rw [keyboard_frame State.heights (fun _ _ _ _ _ _ _ _ _ _ => rfl)]; exact h1
  · rw [keyboard_frame State.obstacles (fun _ _ _ _ _ _ _ _ _ _ => rfl)]; exact h2
  · rw [keyboard_frame State.empty_cube (fun _ _ _ _ _ _ _ _ _ _ => rfl)]; exact h3
  · rw [keyboard_frame State.wall (fun _ _ _ _ _ _ _ _ _ _ => rfl)]; exact h4
  · rw [keyboard_frame State.no_of_walls (fun _ _ _ _ _ _ _ _ _ _ => rfl)]; exact h5
  · rw [keyboard_frame State.spike_y (fun _ _ _ _ _ _ _ _ _ _ => rfl)]; exact h6
  · rw [keyboard_frame State.no_of_moving_base (fun _ _ _ _ _ _ _ _ _ _ => rfl)]; exact h7
  · rw [keyboard_frame State.moving_base (fun _ _ _ _ _ _ _ _ _ _ => rfl)]; exact h8

/-- Key events keep a state in the run and leave the static parts alone. -/
theorem apply_keys_ok (ks : List (Key × Action)) (s : State) (hr : Reachable s)
    (hs : Static s) : Reachable (apply_keys ks s) ∧ Static (apply_keys ks s) := by
  unfold apply_keys
  refine foldl_preserves (fun t : State => Reachable t ∧ Static t) _ _ _ ⟨hr, hs⟩ ?_
  rintro t ka _ ⟨h1, h2⟩
  exact ⟨Reachable.keyboard t ka.1 ka.2 h1, keyboard_static ka.1 ka.2 t h2⟩

/-- The snap that `run` reaches is the state of a run of the program with the
same key events. -/
theorem run_sound (l : List (List (Key × Action))) (p q : Snap) (h : run l p = some q)
    (hr : Reachable (toState p)) : Reachable (toState q) := by
  induction l generalizing p with
  | nil =>
    have e : p = q := Option.some.inj h
    rw [← e]
    exact hr
  | cons ks rest ih =>
    unfold run at h
    by_cases c : tick_ok (apply_keys ks (toState p)) = true
    · rw [if_pos c, freeze_eq] at h
      obtain ⟨kr, kst⟩ := apply_keys_ok ks (toState p) hr (static_toState p)
      have ge : (apply_keys ks (toState p)).gameend ≠ 1 := (of_decide_eq_true c).1
      apply ih _ h
      rw [← draw_fast _ kst c, toState_fromState _ (draw_static _ kst c)]
      exact Reachable.draw _ kr ge
    · rw [if_neg c] at h
      exact absurd h (by simp)

/-- The initial state is the state of its snap. -/
theorem toState_init : toState (fromState init) = init :=
  toState_fromState init ⟨init_heights_eq, init_obstacles_eq, init_pits_eq, rfl, rfl, rfl, rfl,
    fun _ _ => rfl⟩


/-! ## A player sinks into a column after a platform ride -/

/-- A run whose check against a snap `q` evaluates to `true` ends in `q`. -/
theorem run_eq_of_check (l : List (List (Key × Action))) (p q : Snap)
    (h : (run l p).map (fun r => decide (r = q)) = some true) : run l p = some q := by
  cases hr : run l p with
  | none => rw [hr] at h; exact absurd h (by simp)
  | some r =>
    rw [hr, Option.map_some', Option.some.injEq] at h
    rw [of_decide_eq_true h]

set_option maxRecDepth 1000000 in
set_option maxHeartbeats 0 in
/-- The run `platform_trip` passes the check of every tick and ends in the snap
`trip_end`. -/
theorem run_trip : run platform_trip (fromState init) = some trip_end := by
  apply run_eq_of_check
  decide!

/-- The run `platform_trip` passes the check of every tick and ends with the
player at `(207.5, 112, 217.5)`, grounded, off the platform. -/
theorem platform_trip_end :
    (run platform_trip (fromState init)).map (fun q => decide
      (q.person_x = 207.5 ∧ q.person_y = 112 ∧ q.person_z = 217.5 ∧ q.person_jump = 0 ∧
        q.fall_state = 0 ∧ q.key = 0 ∧ q.person_state = 0 ∧ q.gameover = 0 ∧
        q.person_health = 99.85 ∧ q.score = 20 ∧ q.mb0.y = 60)) = some true := by
  rw [run_trip]
  decide!

/-- Without key events the player stays on the start cell, at its standing
height: such a run has no penetration. -/
theorem idle_no_penetration (n i j : Nat) (h : in_cell i j (Nat.iterate draw n init)) :
    (Nat.iterate draw n init).person_y ≥
      12.5 + ((Nat.iterate draw n init).heights i j - 1) * 25 := by
  obtain ⟨⟨hx, hz, hy⟩, _, _, _, _, ⟨_, _, hh⟩, _⟩ := iterate_draw_idle n
  have h28 : in_cell 28 28 (Nat.iterate draw n init) := by
    unfold in_cell
    rw [hx, hz, start_xz_eq, sub_self]
    decide!
  have e : i = 28 ∧ j = 28 := by
    by_contra c
    exact in_cell_unique h28 c h
  rw [e.1, e.2, hh, hy]
  unfold start_y length_of_cube_base height_of_base
  norm_num

/-- C20, evaluated: a run of 162 ticks from the initial state (the key events
of `platform_trip`: walk to platform 0, step on it while it is at its lowest,
step off again) ends a tick with the player grounded (`person_jump = 0`),
not falling (`fall_state = 0`), strictly inside the column of cell (23, 23),
a cell of height 5 in the rows and columns 14..29 of the collision block
`if (key>=0)`, at `person_y = 112`, which is below the standing height 112.5 of
that column. The platform carried the player to `y = 60.5 + 52.5 = 113`, and the
push-down of the cell test lowers `person_y` by a whole unit. (In a run without
any key event the player never leaves the start cell and the property holds.) -/
theorem C20_penetration_after_platform :
    (∃ q : Snap, run platform_trip (fromState init) = some q ∧ Reachable (toState q) ∧
      (toState q).person_jump = 0 ∧ (toState q).fall_state = 0 ∧ 0 ≤ (toState q).key ∧
      in_cell 23 23 (toState q) ∧ (toState q).heights 23 23 = 5 ∧
      (toState q).person_y = 112 ∧
      (toState q).person_y < 12.5 + ((toState q).heights 23 23 - 1) * 25) ∧
    (∀ n i j : Nat, in_cell i j (Nat.iterate draw n init) →
      (Nat.iterate draw n init).person_y ≥
        12.5 + ((Nat.iterate draw n init).heights i j - 1) * 25) := by
  refine ⟨?_, idle_no_penetration⟩
  have h := platform_trip_end
  cases hq : run platform_trip (fromState init) with
  | none => rw [hq] at h; exact absurd h (by simp)
  | some q =>
    rw [hq, Option.map_some', Option.some.injEq] at h
    obtain ⟨hx, hy, hz, hj, hf, hk, _⟩ := of_decide_eq_true h
    have hr : Reachable (toState q) :=
      run_sound platform_trip (fromState init) q hq (by rw [toState_init]; exact Reachable.init)
    have hh : (toState q).heights 23 23 = 5 := by
      show init_grid 23 23 = 5
      decide!
    refine ⟨q, rfl, hr, hj, hf, ?_, ?_, hh, hy, ?_⟩
    · show (0 : ℚ) ≤ q.key
      rw [hk]
    · show flip_neg (q.person_x - cell_center 23) < length_of_cube_base / 2 ∧
        flip_neg (q.person_z - cell_center 23) < length_of_cube_base / 2
      rw [hx, hz]
      decide!
    · rw [hh]
      show q.person_y < _
      rw [hy]
      norm_num


/-! ## The wall test -/

/-- The guard of line 1862 with the absolute values written out. -/
theorem wall_touch_iff (i : Nat) (s : State) :
    wall_touch i s ↔
      (0 < |s.person_x - (s.wall i).x| ∧
        |s.person_x - (s.wall i).x| < (s.wall i).length + length_of_cube_base / 3) ∧
      (0 < |s.person_z - (s.wall i).z| ∧ |s.person_z - (s.wall i).z| < length_of_cube_base) := by
  unfold wall_touch
  rw [flip_neg_eq_abs, flip_neg_eq_abs]

/-- C21: the wall test of line 1862 is
`(var1>0&&var1<wall[i][2]+length_of_cube_base/3)&&(var2>0&&var2<length_of_cube_base)`.
Inside the box of the claim and off the two centre lines of the wall
(`person_x ≠ wall.x`, `person_z ≠ wall.z`) the test fires and does what the
claim says: the player is put back to the last-safe position, the wall's
direction is multiplied by -1 and `gameover` is 1 (and 0.1 health is taken).
On a centre line the test does not fire, whatever the other coordinate is: the
wall test leaves the state as it is. The state `on_wall_line` is inside the box
of wall 0, with two keys, and the whole wall pass leaves its `gameover` at 0 and
the player where it is. -/
theorem C21_wall_box_misses_centre_lines :
    (∀ (i : Nat) (s : State), in_wall_box i s → s.person_x ≠ (s.wall i).x →
      s.person_z ≠ (s.wall i).z →
      (wall_hit i s).person_x = s.prev_x ∧ (wall_hit i s).person_y = s.prev_y ∧
      (wall_hit i s).person_z = s.prev_z ∧
      ((wall_hit i s).wall i).direction = (s.wall i).direction * -1 ∧
      (wall_hit i s).gameover = 1 ∧ (wall_hit i s).person_health = s.person_health - 0.1) ∧
    (∀ (i : Nat) (s : State), s.person_x = (s.wall i).x ∨ s.person_z = (s.wall i).z →
      wall_hit i s = s) ∧
    (on_wall_line.key ≥ 2 ∧ in_wall_box 0 on_wall_line ∧
      (wall_pass on_wall_line).gameover = 0 ∧
      (wall_pass on_wall_line).person_x = on_wall_line.person_x ∧
      (wall_pass on_wall_line).person_y = on_wall_line.person_y ∧
      (wall_pass on_wall_line).person_z = on_wall_line.person_z ∧
      ((wall_hit 0 on_wall_line).wall 0).direction = (on_wall_line.wall 0).direction) := by
  refine ⟨?_, ?_, ?_⟩
  · intro i s hb hx hz
    have ht : wall_touch i s := by
      rw [wall_touch_iff]
      have c : length_of_cube_base = 25 := rfl
      refine ⟨⟨abs_pos.mpr (sub_ne_zero.mpr hx), ?_⟩, abs_pos.mpr (sub_ne_zero.mpr hz), hb.2⟩
      have := hb.1
      rw [c]
      linarith
    have ht2 := ht.2
    unfold wall_touch at ht
    unfold wall_hit
    dsimp only
    rw [if_pos ht]
    dsimp only
    rw [if_pos ht2]
    refine ⟨rfl, rfl, rfl, ?_, rfl, rfl⟩
    unfold setA
    rw [if_pos rfl]
  · intro i s h
    apply wall_hit_fixed
    rw [wall_touch_iff]
    rcases h with h | h
    · intro c
      rw [h, sub_self, abs_zero] at c
      exact lt_irrefl _ c.1.1
    · intro c
      rw [h, sub_self, abs_zero] at c
      exact lt_irrefl _ c.2.1
  · refine ⟨by decide!, ?_, by decide!, by decide!, by decide!, by decide!, by decide!⟩
    unfold in_wall_box
    rw [← flip_neg_eq_abs, ← flip_neg_eq_abs]
    decide!


/-! ## The spike test -/

/-- The guard of line 1899 is the box of the claim. -/
theorem spike_touch_iff (i : Nat) (s : State) : spike_touch i s ↔ in_spike_box i s := by
  unfold spike_touch in_spike_box
  rw [flip_neg_eq_abs, flip_neg_eq_abs, flip_neg_eq_abs, mul_comm (i : ℚ) 30]
  constructor
  · rintro ⟨_, h2, _, h4, _, h6⟩
    exact ⟨h4, h2, h6⟩
  · rintro ⟨h1, h2, h3⟩
    exact ⟨abs_nonneg _, h2, abs_nonneg _, h1, abs_nonneg _, h3⟩

/-- The test of one spike: `gameover = 1` inside the box, nothing outside. -/
theorem spike_hit_eq (i : Nat) (s : State) :
    (spike_touch i s → spike_hit i s = { s with gameover := 1 }) ∧
      (¬ spike_touch i s → spike_hit i s = s) := by
  unfold spike_touch spike_hit
  dsimp only
  exact ⟨fun h => if_pos h, fun h => if_neg h⟩

/-- The spike loop over `0..k-1` leaves the player where it is, tests every
spike against its offset from before the loop, and sets `gameover = 1` exactly
when one of the tests holds. -/
theorem spike_loop_gameover (s : State) (k : Nat) :
    (((List.range k).foldl (fun s i => spike_iter i s) s).person_x = s.person_x ∧
      ((List.range k).foldl (fun s i => spike_iter i s) s).person_y = s.person_y ∧
      ((List.range k).foldl (fun s i => spike_iter i s) s).person_z = s.person_z) ∧
    ((∃ i, i < k ∧ spike_touch i s) →
      ((List.range k).foldl (fun s i => spike_iter i s) s).gameover = 1) ∧
    ((¬ ∃ i, i < k ∧ spike_touch i s) →
      ((List.range k).foldl (fun s i => spike_iter i s) s).gameover = s.gameover) := by
  induction k with
  | zero =>
    refine ⟨⟨rfl, rfl, rfl⟩, ?_, fun _ => rfl⟩
    rintro ⟨i, hi, _⟩
    exact absurd hi (Nat.not_lt_zero i)
  | succ k ih =>
    have hy := spike_loop s k
    rw [List.range_succ, List.foldl_append]
    simp only [List.foldl_cons, List.foldl_nil]
    generalize (List.range k).foldl (fun s i => spike_iter i s) s = t at ih hy
    obtain ⟨⟨hx, hyy, hz⟩, h1, h0⟩ := ih
    have hsp : t.spike_y k = s.spike_y k := by
      rw [hy]
      exact if_neg (lt_irrefl k)
    have htouch : spike_touch k t ↔ spike_touch k s := by
      unfold spike_touch
      rw [hx, hyy, hz, hsp]
    have hpos : ∀ u : State, (spike_advance k u).person_x = u.person_x ∧
        (spike_advance k u).person_y = u.person_y ∧ (spike_advance k u).person_z = u.person_z ∧
        (spike_advance k u).gameover = u.gameover := fun u => ⟨rfl, rfl, rfl, rfl⟩
    unfold spike_iter
    by_cases c : spike_touch k s
    · rw [(spike_hit_eq k t).1 (htouch.mpr c)]
      refine ⟨⟨hx, hyy, hz⟩, fun _ => rfl, fun hn => absurd ⟨k, Nat.lt_succ_self k, c⟩ hn⟩
    · rw [(spike_hit_eq k t).2 (fun h => c (htouch.mp h))]
      refine ⟨⟨hx, hyy, hz⟩, ?_, ?_⟩
      · rintro ⟨i, hi, hti⟩
        apply h1
        rcases Nat.lt_succ_iff_lt_or_eq.mp hi with hlt | heq
        · exact ⟨i, hlt, hti⟩
        · subst heq; exact absurd hti c
      · intro hn
        apply h0
        rintro ⟨i, hi, hti⟩
        exact hn ⟨i, Nat.lt_succ_of_lt hi, hti⟩

/-- C22: with `key >= 3` the spike pass ends with `gameover = 1` exactly when
`gameover` was 1 already or the player is inside the box of one of the animated
spikes 0..10 (`|person_x - 200| <= 20`, `|person_y - spike_y[i]| < 50`,
`|person_z + 40 + 30*i| <= 15`, with the offset the spike has when the pass
starts); without such a spike `gameover` keeps its value. The pass never changes
the player's position, and the test of a spike whose box the player is outside
of on one axis changes nothing. -/
theorem C22_spike_box (s : State) (hk : s.key ≥ 3) :
    ((spike_pass s).gameover = 1 ↔ s.gameover = 1 ∨ ∃ i, i < 11 ∧ in_spike_box i s) ∧
    ((¬ ∃ i, i < 11 ∧ in_spike_box i s) → (spike_pass s).gameover = s.gameover) ∧
    ((spike_pass s).person_x = s.person_x ∧ (spike_pass s).person_y = s.person_y ∧
      (spike_pass s).person_z = s.person_z) ∧
    (∀ i : Nat, (20 < |s.person_x - 200| ∨ 50 ≤ |s.person_y - (s.spike_y i).y| ∨
        15 < |s.person_z + 40 + 30 * (i : ℚ)|) → spike_hit i s = s) := by
  have hl := spike_loop_gameover s 11
  have e : spike_pass s = (List.range 11).foldl (fun s i => spike_iter i s) s := by
    unfold spike_pass
    rw [if_pos hk]
  rw [← e] at hl
  obtain ⟨hpos, h1, h0⟩ := hl
  have hex : (∃ i, i < 11 ∧ spike_touch i s) ↔ ∃ i, i < 11 ∧ in_spike_box i s :=
    exists_congr (fun i => and_congr Iff.rfl (spike_touch_iff i s))
  rw [hex] at h1 h0
  refine ⟨?_, h0, hpos, ?_⟩
  · constructor
    · intro hg
      by_cases c : ∃ i, i < 11 ∧ in_spike_box i s
      · exact Or.inr c
      · rw [h0 c] at hg
        exact Or.inl hg
    · rintro (hg | c)
      · by_cases c : ∃ i, i < 11 ∧ in_spike_box i s
        · exact h1 c
        · rw [h0 c]; exact hg
      · exact h1 c
  · intro i h
    apply (spike_hit_eq i s).2
    rw [spike_touch_iff]
    rintro ⟨b1, b2, b3⟩
    rcases h with h | h | h
    · exact absurd b1 (not_le.mpr h)
    · exact absurd b2 (not_lt.mpr h)
    · exact absurd b3 (not_le.mpr h)

/-- C22 at a state with three keys and the player in the box of spike 0. -/
theorem C22_spike_box_witness :
    on_spike_0.key ≥ 3 ∧ (spike_pass on_spike_0).gameover = 1 ∧
      (spike_pass on_spike_0).person_z = -40 :=
  ⟨by decide!,
    (C22_spike_box on_spike_0 (by decide!)).1.mpr
      (Or.inr ⟨0, by decide, (spike_touch_iff 0 on_spike_0).mp (by unfold spike_touch; decide!)⟩),
    (C22_spike_box on_spike_0 (by decide!)).2.2.1.2.2.trans (by decide!)⟩


/-! ## Coins -/

/-- The tests of platform `i`: the flag of the platform and the score. Either
both are left alone, or the flag was 1, is now 0 and the score has grown by 20,
or the flag was not 1, is now 0 and the score is left alone. -/
theorem platform_iter_coin (i : Nat) (s : State) :
    ((platform_iter i s).score = s.score ∧
      ((platform_iter i s).moving_base i).coin = (s.moving_base i).coin) ∨
    ((platform_iter i s).score = s.score + 20 ∧ (s.moving_base i).coin = 1 ∧
      ((platform_iter i s).moving_base i).coin = 0) ∨
    ((platform_iter i s).score = s.score ∧ (s.moving_base i).coin ≠ 1 ∧
      ((platform_iter i s).moving_base i).coin = 0) := by
  have hstep : ∀ m : MovingBase, (platform_step m).coin = m.coin := fun m => by
    unfold platform_step; dsimp only; split_ifs <;> rfl
  have ha : (platform_advance i s).score = s.score ∧
      ((platform_advance i s).moving_base i).coin = (s.moving_base i).coin := by
    unfold platform_advance setA
    dsimp only
    rw [if_pos rfl]
    exact ⟨rfl, hstep _⟩
  have h2 : ∀ v (t : State), (platform_block v t).score = t.score ∧
      (platform_block v t).moving_base = t.moving_base := fun v t => by
    unfold platform_block; split_ifs <;> exact ⟨rfl, rfl⟩
  have h4 : ∀ a b (t : State), (platform_leave a b t).score = t.score ∧
      (platform_leave a b t).moving_base = t.moving_base := fun a b t => by
    unfold platform_leave; split_ifs <;> exact ⟨rfl, rfl⟩
  have h5 : ∀ (t : State), (platform_carry i t).score = t.score ∧
      (platform_carry i t).moving_base = t.moving_base := fun t => by
    unfold platform_carry; split_ifs <;> exact ⟨rfl, rfl⟩
  have h3 : ∀ a b c (t : State),
      ((platform_land i a b c t).score = t.score ∧
        ((platform_land i a b c t).moving_base i).coin = (t.moving_base i).coin) ∨
      ((platform_land i a b c t).score = t.score + 20 ∧ (t.moving_base i).coin = 1 ∧
        ((platform_land i a b c t).moving_base i).coin = 0) ∨
      ((platform_land i a b c t).score = t.score ∧ (t.moving_base i).coin ≠ 1 ∧
        ((platform_land i a b c t).moving_base i).coin = 0) := fun a b c t => by
    unfold platform_land
    by_cases hc : c ≤ 12.5 ∧ c ≥ 0 ∧ (a < 19 ∧ b < 19)
    · rw [if_pos hc]
      have e : (setA t.moving_base i { t.moving_base i with coin := 0 } i).coin = 0 := by
        unfold setA; rw [if_pos rfl]
      by_cases h1 : (t.moving_base i).coin = 1
      · exact Or.inr (Or.inl ⟨if_pos h1, h1, e⟩)
      · exact Or.inr (Or.inr ⟨if_neg h1, h1, e⟩)
    · rw [if_neg hc]
      exact Or.inl ⟨rfl, rfl⟩
  unfold platform_iter
  rw [← ha.1, ← ha.2]
  generalize platform_advance i s = t
  unfold platform_touch
  dsimp only
  split_ifs
  · rw [(h5 _).1, (h5 _).2, (h4 _ _ _).1, (h4 _ _ _).2]
    have := h3 (flip_neg (t.person_x - (t.moving_base i).x))
      (flip_neg (t.person_z - (t.moving_base i).z))
      (t.person_y - (t.moving_base i).y - 40) (platform_block
        (t.person_y - (t.moving_base i).y - 40) t)
    rw [(h2 _ _).1, (h2 _ _).2] at this
    exact this
  · exact Or.inl ⟨rfl, rfl⟩

/-- The tests of platform `i` leave the flags of the other platforms alone. -/
theorem platform_iter_coin_other (i j : Nat) (hji : j ≠ i) (s : State) :
    ((platform_iter i s).moving_base j).coin = (s.moving_base j).coin := by
  rw [platform_iter_other i j hji]

/-- No flag goes from 0 to 1 in the platform pass. -/
theorem platform_pass_coin (s : State) (j : Nat) :
    ((platform_pass s).moving_base j).coin = (s.moving_base j).coin ∨
      ((platform_pass s).moving_base j).coin = 0 := by
  unfold platform_pass
  split_ifs
  · refine foldl_preserves (fun t : State => (t.moving_base j).coin = (s.moving_base j).coin ∨
      (t.moving_base j).coin = 0) _ _ _ (Or.inl rfl) ?_
    intro t i _ ht
    by_cases hji : j = i
    · subst hji
      rcases platform_iter_coin j t with h | h | h
      · rw [h.2]; exact ht
      · exact Or.inr h.2.2
      · exact Or.inr h.2.2
    · rw [platform_iter_coin_other i j hji]
      exact ht
  · exact Or.inl rfl

/-- With flags that are 0 or 1, the tests of one of the five platforms keep
`score + 20 * coins_left`, keep the flags 0 or 1, and add nothing else. -/
theorem platform_iter_balance (i : Nat) (hi : i < 5) (s : State) (hc : CoinsOK s) :
    (platform_iter i s).score + 20 * coins_left (platform_iter i s) =
      s.score + 20 * coins_left s ∧ CoinsOK (platform_iter i s) := by
  have ho := fun j (hji : j ≠ i) => platform_iter_coin_other i j hji s
  have hself := platform_iter_coin i s
  have hci := hc i hi
  have hlin : (platform_iter i s).score + 20 * ((platform_iter i s).moving_base i).coin =
      s.score + 20 * (s.moving_base i).coin ∧
      (((platform_iter i s).moving_base i).coin = 0 ∨
        ((platform_iter i s).moving_base i).coin = 1) := by
    rcases hself with h | h | h
    · rw [h.1, h.2]; exact ⟨rfl, hci⟩
    · rw [h.1, h.2.1, h.2.2]; exact ⟨by ring, Or.inl rfl⟩
    · rcases hci with h0 | h1
      · rw [h.1, h.2.2, h0]; exact ⟨rfl, Or.inl rfl⟩
      · exact absurd h1 h.2.1
  constructor
  · unfold coins_left
    have h := hlin.1
    interval_cases i
    · rw [ho 1 (by decide), ho 2 (by decide), ho 3 (by decide), ho 4 (by decide)]
      linarith
    · rw [ho 0 (by decide), ho 2 (by decide), ho 3 (by decide), ho 4 (by decide)]
      linarith
    · rw [ho 0 (by decide), ho 1 (by decide), ho 3 (by decide), ho 4 (by decide)]
      linarith
    · rw [ho 0 (by decide), ho 1 (by decide), ho 2 (by decide), ho 4 (by decide)]
      linarith
    · rw [ho 0 (by decide), ho 1 (by decide), ho 2 (by decide), ho 3 (by decide)]
      linarith
  · intro j hj
    by_cases hji : j = i
    · rw [hji]; exact hlin.2
    · rw [ho j hji]; exact hc j hj

/-- The platform pass over five platforms with flags 0 or 1 adds to the score
20 times the number of flags it clears. -/
theorem platform_pass_balance (s : State) (hn : s.no_of_moving_base = 5) (hc : CoinsOK s) :
    (platform_pass s).score + 20 * coins_left (platform_pass s) =
      s.score + 20 * coins_left s ∧ CoinsOK (platform_pass s) := by
  unfold platform_pass
  split_ifs
  · rw [hn]
    refine foldl_preserves (fun t : State => t.score + 20 * coins_left t =
      s.score + 20 * coins_left s ∧ CoinsOK t) _ _ _ ⟨rfl, hc⟩ ?_
    intro t i hi ht
    have h := platform_iter_balance i (List.mem_range.mp hi) t ht.2
    exact ⟨h.1.trans ht.1, h.2⟩
  · exact ⟨rfl, hc⟩

/-- Before the platform pass of a tick nothing writes the platform rows, and
after the pickup step nothing but the platform pass writes the score. -/
theorem at_platforms_eq (s : State) :
    (at_platforms s).moving_base = s.moving_base ∧
      (at_platforms s).no_of_moving_base = s.no_of_moving_base ∧
      (at_platforms s).score = (pickups (at_pickups s)).score ∧
      draw s = save_prev (platform_pass (at_platforms s)) := by
  refine ⟨?_, ?_, ?_, rfl⟩
  · unfold at_platforms at_pickups at_unlock
    rw [spike_pass_frame State.moving_base (fun _ _ _ => rfl),
      wall_pass_frame State.moving_base (fun _ _ _ _ _ _ _ => rfl),
      fall_frame State.moving_base (fun _ _ _ _ _ => rfl),
      pickups_frame State.moving_base (fun _ _ _ _ => rfl),
      obstacle_pass_frame State.moving_base (fun _ _ _ _ => rfl),
      pit_pass_frame State.moving_base (fun _ _ => rfl),
      terrain_frame State.moving_base (fun _ _ _ _ _ _ _ _ => rfl),
      unlock_frame State.moving_base (fun _ _ => rfl),
      jump_frame State.moving_base (fun _ _ _ _ => rfl),
      respawn_frame State.moving_base (fun _ _ _ _ _ _ _ _ _ => rfl),
      before_respawn_frame State.moving_base (fun _ _ _ _ _ _ _ _ => rfl)]
  · unfold at_platforms at_pickups at_unlock
    rw [spike_pass_frame State.no_of_moving_base (fun _ _ _ => rfl),
      wall_pass_frame State.no_of_moving_base (fun _ _ _ _ _ _ _ => rfl),
      fall_frame State.no_of_moving_base (fun _ _ _ _ _ => rfl),
      pickups_frame State.no_of_moving_base (fun _ _ _ _ => rfl),
      obstacle_pass_frame State.no_of_moving_base (fun _ _ _ _ => rfl),
      pit_pass_frame State.no_of_moving_base (fun _ _ => rfl),
      terrain_frame State.no_of_moving_base (fun _ _ _ _ _ _ _ _ => rfl),
      unlock_frame State.no_of_moving_base (fun _ _ => rfl),
      jump_frame State.no_of_moving_base (fun _ _ _ _ => rfl),
      respawn_frame State.no_of_moving_base (fun _ _ _ _ _ _ _ _ _ => rfl),
      before_respawn_frame State.no_of_moving_base (fun _ _ _ _ _ _ _ _ => rfl)]
  · unfold at_platforms
    rw [spike_pass_frame State.score (fun _ _ _ => rfl),
      wall_pass_frame State.score (fun _ _ _ _ _ _ _ => rfl),
      fall_frame State.score (fun _ _ _ _ _ => rfl)]

/-- One tick from a state with five platforms and flags 0 or 1. -/
theorem draw_balance (s : State) (hn : s.no_of_moving_base = 5) (hc : CoinsOK s) :
    coin_gain s = 20 * (coins_left s - coins_left (draw s)) ∧
      (draw s).score = (pickups (at_pickups s)).score + coin_gain s ∧ CoinsOK (draw s) := by
  obtain ⟨e1, e2, e3, e4⟩ := at_platforms_eq s
  have hc' : CoinsOK (at_platforms s) := by
    unfold CoinsOK; rw [e1]; exact hc
  have hb := platform_pass_balance (at_platforms s) (e2.trans hn) hc'
  have hl : coins_left (at_platforms s) = coins_left s := by
    unfold coins_left; rw [e1]
  have hd : coins_left (draw s) = coins_left (platform_pass (at_platforms s)) :=
    save_prev_frame coins_left (fun _ _ _ _ => rfl) (platform_pass (at_platforms s))
  have hsc : (draw s).score = (platform_pass (at_platforms s)).score :=
    save_prev_frame State.score (fun _ _ _ _ => rfl) (platform_pass (at_platforms s))
  have hmb : (draw s).moving_base = (platform_pass (at_platforms s)).moving_base :=
    save_prev_frame State.moving_base (fun _ _ _ _ => rfl) (platform_pass (at_platforms s))
  have hb1 := hb.1
  rw [hl] at hb1
  refine ⟨?_, ?_, ?_⟩
  · unfold coin_gain
    rw [hd]
    linarith
  · unfold coin_gain
    rw [hsc, e3]
    ring
  · unfold CoinsOK
    rw [hmb]
    exact hb.2

theorem reachable_coins_ok {s : State} (hs : Reachable s) : CoinsOK s := by
  induction hs with
  | init => intro i hi; right; revert i; decide!
  | draw s hs' _ ih => exact (draw_balance s (reachable_no_of_moving_base hs') ih).2.2
  | keyboard s k a _ ih =>
    unfold CoinsOK
    rw [keyboard_frame State.moving_base (fun _ _ _ _ _ _ _ _ _ _ => rfl)]
    exact ih

theorem reachableCoins_reachable {s : State} {c : ℚ} (h : ReachableCoins s c) :
    Reachable s := by
  induction h with
  | init => exact Reachable.init
  | draw s c _ hg ih => exact Reachable.draw s ih hg
  | keyboard s c k a _ ih => exact Reachable.keyboard s k a ih

theorem coins_left_bounds (s : State) (hc : CoinsOK s) :
    0 ≤ coins_left s ∧ coins_left s ≤ 5 := by
  have h : ∀ i, i < 5 → 0 ≤ (s.moving_base i).coin ∧ (s.moving_base i).coin ≤ 1 := by
    intro i hi
    rcases hc i hi with h | h <;> rw [h] <;> norm_num
  unfold coins_left
  have h0 := h 0 (by decide)
  have h1 := h 1 (by decide)
  have h2 := h 2 (by decide)
  have h3 := h 3 (by decide)
  have h4 := h 4 (by decide)
  constructor <;> linarith

/-- C23: a coin scores once. In one tick (the respawn step, which writes neither
the platform rows nor the score, included) the flag `moving_base[i][4]` of a
platform keeps its value or becomes 0, so it never goes from 0 back to 1. In a
state of a run the flags are 0 or 1, and a tick adds to the score the bonus of
the pickup step plus 20 for each flag that goes from 1 to 0 in it. Over a whole
run the score gained from coins is 20 times the number of flags cleared so far,
which is at most 100. -/
theorem C23_coin_scores_once :
    (∀ (s : State) (i : Nat), ((draw s).moving_base i).coin = (s.moving_base i).coin ∨
      ((draw s).moving_base i).coin = 0) ∧
    (∀ s : State, (respawn s).moving_base = s.moving_base ∧ (respawn s).score = s.score) ∧
    (∀ s : State, Reachable s → CoinsOK s ∧
      (draw s).score = (pickups (at_pickups s)).score + coin_gain s ∧
      coin_gain s = 20 * (coins_left s - coins_left (draw s))) ∧
    (∀ s : State, Reachable s → ∃ c, ReachableCoins s c) ∧
    (∀ (s : State) (c : ℚ), ReachableCoins s c →
      c = 20 * (5 - coins_left s) ∧ 0 ≤ c ∧ c ≤ 100) := by
  refine ⟨?_, ?_, ?_, ?_, ?_⟩
  · intro s i
    obtain ⟨e1, _, _, _⟩ := at_platforms_eq s
    have h := platform_pass_coin (at_platforms s) i
    rw [e1] at h
    have hmb : (draw s).moving_base = (platform_pass (at_platforms s)).moving_base :=
      save_prev_frame State.moving_base (fun _ _ _ _ => rfl) (platform_pass (at_platforms s))
    rw [hmb]
    exact h
  · intro s
    exact ⟨respawn_frame State.moving_base (fun _ _ _ _ _ _ _ _ _ => rfl) s,
      respawn_frame State.score (fun _ _ _ _ _ _ _ _ _ => rfl) s⟩
  · intro s hs
    have h := draw_balance s (reachable_no_of_moving_base hs) (reachable_coins_ok hs)
    exact ⟨reachable_coins_ok hs, h.2.1, h.1⟩
  · intro s hs
    induction hs with
    | init => exact ⟨0, ReachableCoins.init⟩
    | draw s _ hg ih =>
      obtain ⟨c, hc⟩ := ih
      exact ⟨_, ReachableCoins.draw s c hc hg⟩
    | keyboard s k a _ ih =>
      obtain ⟨c, hc⟩ := ih
      exact ⟨c, ReachableCoins.keyboard s c k a hc⟩
  · intro s c h
    have hr := reachableCoins_reachable h
    have hb := coins_left_bounds s (reachable_coins_ok hr)
    have key : c = 20 * (5 - coins_left s) := by
      clear hb hr
      induction h with
      | init =>
        have : coins_left init = 5 := by decide!
        rw [this]; norm_num
      | draw s c h' _ ih =>
        have hr' := reachableCoins_reachable h'
        have h := (draw_balance s (reachable_no_of_moving_base hr') (reachable_coins_ok hr')).1
        rw [h, ih]
        ring
      | keyboard s c k a _ ih =>
        have e : coins_left (keyboard k a s) = coins_left s := by
          unfold coins_left
          rw [keyboard_frame State.moving_base (fun _ _ _ _ _ _ _ _ _ _ => rfl)]
        rw [e]
        exact ih
    refine ⟨key, ?_, ?_⟩ <;> rw [key] <;> linarith [hb.1, hb.2]


/-! ## The hand swing -/

/-- After the movement step of a tick nothing writes the hand angle, and only
the test of lines 1490-1493 writes the swing speed. -/
theorem draw_hand (s : State) :
    (draw s).person_hand_angle =
        (hand_reset (move (bounds (normalize_direction s)))).person_hand_angle ∧
      (draw s).hand_angle_speed =
        (hand_speed (hand_reset (move (bounds (normalize_direction s))))).hand_angle_speed := by
  have h : ∀ (g : State → ℚ),
      (∀ (t : State) (h : Nat → Nat → ℚ) (w : Nat → Wall) (sp : Nat → Spike)
        (mb : Nat → MovingBase) (go : ℚ) (ge : Int) (k x y z f : ℚ)
        (pj js jd ps hl sc px py pz : ℚ),
        g { t with heights := h, wall := w, spike_y := sp, moving_base := mb, gameover := go,
                   gameend := ge, key := k, person_x := x, person_y := y, person_z := z,
                   fall_state := f, person_jump := pj,
                   jump_speed := js, jump_direction := jd,
                   person_state := ps, person_health := hl, score := sc,
                   prev_x := px, prev_y := py, prev_z := pz } = g t) →
      g (draw s) = g (hand_speed (health_decay (hand_reset (move (bounds
        (normalize_direction s)))))) := by
    intro g hg
    unfold draw after_respawn
    rw [save_prev_frame g (fun s x y z => hg s _ _ _ _ _ _ _ _ _ _ _ _ _ _ _ _ _ x y z),
      platform_pass_frame g
        (fun s x y z sc ps mb => hg s _ _ _ mb _ _ _ x y z _ _ _ _ ps _ sc _ _ _),
      spike_pass_frame g (fun s go sp => hg s _ _ sp _ go _ _ _ _ _ _ _ _ _ _ _ _ _ _ _),
      wall_pass_frame g
        (fun s x y z hl go w => hg s _ w _ _ go _ _ x y z _ _ _ _ _ hl _ _ _ _),
      fall_frame g (fun s x y z go => hg s _ _ _ _ go _ _ x y z _ _ _ _ _ _ _ _ _ _),
      pickups_frame g (fun s sc k ge => hg s _ _ _ _ _ ge k _ _ _ _ _ _ _ _ _ sc _ _ _),
      obstacle_pass_frame g (fun s x y z => hg s _ _ _ _ _ _ _ x y z _ _ _ _ _ _ _ _ _ _),
      pit_pass_frame g (fun s f => hg s _ _ _ _ _ _ _ _ _ _ f _ _ _ _ _ _ _ _ _),
      terrain_frame g
        (fun s x y z hl pj jd js => hg s _ _ _ _ _ _ _ x y z _ pj js jd _ hl _ _ _ _),
      unlock_frame g (fun s h => hg s h _ _ _ _ _ _ _ _ _ _ _ _ _ _ _ _ _ _ _),
      jump_frame g (fun s js jd pj => hg s _ _ _ _ _ _ _ _ _ _ _ pj js jd _ _ _ _ _ _),
      respawn_frame g
        (fun s x y z k f hl go h => hg s h _ _ _ go _ k x y z f _ _ _ _ hl _ _ _ _)]
    rfl
  constructor
  · rw [h State.person_hand_angle (fun _ _ _ _ _ _ _ _ _ _ _ _ _ _ _ _ _ _ _ _ _ => rfl),
      hand_speed_frame State.person_hand_angle (fun _ _ => rfl),
      health_decay_frame State.person_hand_angle (fun _ _ => rfl)]
  · rw [h State.hand_angle_speed (fun _ _ _ _ _ _ _ _ _ _ _ _ _ _ _ _ _ _ _ _ _ => rfl)]
    have e : ∀ t : State, (hand_speed (health_decay t)).hand_angle_speed =
        (hand_speed t).hand_angle_speed := by
      intro t
      unfold hand_speed
      rw [health_decay_frame State.person_hand_angle (fun _ _ => rfl)]
      split_ifs <;> first | rfl | exact health_decay_frame State.hand_angle_speed (fun _ _ => rfl) t
    exact e _

/-- The movement step with at most one direction flag set swings the hand at
most once, and leaves the swing speed and the flags alone. -/
theorem move_swing (s : State) (h : OneKey s ∨ NoKey s) :
    ((move s).person_hand_angle = s.person_hand_angle ∨
      (move s).person_hand_angle = s.person_hand_angle + s.hand_angle_speed) ∧
    (move s).hand_angle_speed = s.hand_angle_speed := by
  have hid : ∀ d dx dz (t : State), ¬ (t.person_direction_in_reset_view = d ∧ t.up_pressed = 1) →
      walk_facing d dx dz t = t := fun d dx dz t c => if_neg c
  unfold move
  split_ifs with hr
  · by_cases c1 : s.person_direction_in_reset_view = 1 ∧ s.up_pressed = 1
    · have e1 : walk_facing 1 (-1) 0 s = step_by (-1) 0 s := if_pos c1
      rw [e1, hid 2, hid 3, hid 0]
      · exact ⟨Or.inr rfl, rfl⟩
      · intro c; have : (1 : Int) = 0 := c1.1.symm.trans c.1; exact absurd this (by decide)
      · intro c; have : (1 : Int) = 3 := c1.1.symm.trans c.1; exact absurd this (by decide)
      · intro c; have : (1 : Int) = 2 := c1.1.symm.trans c.1; exact absurd this (by decide)
    · rw [hid 1 _ _ _ c1]
      by_cases c2 : s.person_direction_in_reset_view = 2 ∧ s.up_pressed = 1
      · have e2 : walk_facing 2 0 (-1) s = step_by 0 (-1) s := if_pos c2
        rw [e2, hid 3, hid 0]
        · exact ⟨Or.inr rfl, rfl⟩
        · intro c; have : (2 : Int) = 0 := c2.1.symm.trans c.1; exact absurd this (by decide)
        · intro c; have : (2 : Int) = 3 := c2.1.symm.trans c.1; exact absurd this (by decide)
      · rw [hid 2 _ _ _ c2]
        by_cases c3 : s.person_direction_in_reset_view = 3 ∧ s.up_pressed = 1
        · have e3 : walk_facing 3 1 0 s = step_by 1 0 s := if_pos c3
          rw [e3, hid 0]
          · exact ⟨Or.inr rfl, rfl⟩
          · intro c; have : (3 : Int) = 0 := c3.1.symm.trans c.1; exact absurd this (by decide)
        · rw [hid 3 _ _ _ c3]
          by_cases c0 : s.person_direction_in_reset_view = 0 ∧ s.up_pressed = 1
          · have e0 : walk_facing 0 0 1 s = step_by 0 1 s := if_pos c0
            rw [e0]
            exact ⟨Or.inr rfl, rfl⟩
          · rw [hid 0 _ _ _ c0]
            exact ⟨Or.inl rfl, rfl⟩
  · have kr : ∀ t : State, t.right_pressed = 0 → walk_right t = t :=
      fun t c => if_neg (by rw [c]; decide)
    have kl : ∀ t : State, t.left_pressed = 0 → walk_left t = t :=
      fun t c => if_neg (by rw [c]; decide)
    have kd : ∀ t : State, t.down_pressed = 0 → walk_down t = t :=
      fun t c => if_neg (by rw [c]; decide)
    have ku : ∀ t : State, t.up_pressed = 0 → walk_up t = t :=
      fun t c => if_neg (by rw [c]; decide)
    rcases h with (⟨hu, hd, hl, hrt⟩ | ⟨hu, hd, hl, hrt⟩ | ⟨hu, hd, hl, hrt⟩ | ⟨hu, hd, hl, hrt⟩) |
      ⟨hl, hrt, hu, hd⟩
    · rw [kr s hrt, kl s hl, kd s hd]
      have e : walk_up s = step_by (-1) 0 s := if_pos hu
      rw [e]
      exact ⟨Or.inr rfl, rfl⟩
    · rw [kr s hrt, kl s hl]
      have e : walk_down s = step_by 1 0 s := if_pos hd
      rw [e, ku (step_by 1 0 s) hu]
      exact ⟨Or.inr rfl, rfl⟩
    · rw [kr s hrt]
      have e : walk_left s = step_by 0 1 s := if_pos hl
      rw [e, kd (step_by 0 1 s) hd, ku (step_by 0 1 s) hu]
      exact ⟨Or.inr rfl, rfl⟩
    · have e : walk_right s = step_by 0 (-1) s := if_pos hrt
      rw [e, kl (step_by 0 (-1) s) hl, kd (step_by 0 (-1) s) hd, ku (step_by 0 (-1) s) hu]
      exact ⟨Or.inr rfl, rfl⟩
    · rw [kr s hrt, kl s hl, kd s hd, ku s hu]
      exact ⟨Or.inl rfl, rfl⟩

/-- The steps of a tick before the movement leave the hand swing and the
direction flags alone. -/
theorem before_move (s : State) :
    (bounds (normalize_direction s)).person_hand_angle = s.person_hand_angle ∧
    (bounds (normalize_direction s)).hand_angle_speed = s.hand_angle_speed ∧
    (OneKey s → OneKey (bounds (normalize_direction s))) ∧
    (NoKey s → NoKey (bounds (normalize_direction s))) ∧
    (NoKey s → NoKey (move (bounds (normalize_direction s)))) := by
  have e : ∀ g : State → Int, (∀ (t : State) (d : Int) (f : ℚ),
      g { t with person_direction_in_reset_view := d, fall_state := f } = g t) →
      g (bounds (normalize_direction s)) = g s := fun g hg => by
    rw [bounds_frame g (fun t f => hg t t.person_direction_in_reset_view f),
      normalize_direction_frame g (fun t d => hg t d t.fall_state)]
  have eu := e State.up_pressed (fun _ _ _ => rfl)
  have ed := e State.down_pressed (fun _ _ _ => rfl)
  have el := e State.left_pressed (fun _ _ _ => rfl)
  have er := e State.right_pressed (fun _ _ _ => rfl)
  refine ⟨?_, ?_, ?_, ?_, ?_⟩
  · rw [bounds_frame State.person_hand_angle (fun _ _ => rfl),
      normalize_direction_frame State.person_hand_angle (fun _ _ => rfl)]
  · rw [bounds_frame State.hand_angle_speed (fun _ _ => rfl),
      normalize_direction_frame State.hand_angle_speed (fun _ _ => rfl)]
  · unfold OneKey; rw [eu, ed, el, er]; exact id
  · unfold NoKey; rw [eu, ed, el, er]; exact id
  · unfold NoKey
    rw [move_frame State.up_pressed (fun _ _ _ _ => rfl),
      move_frame State.down_pressed (fun _ _ _ _ => rfl),
      move_frame State.left_pressed (fun _ _ _ _ => rfl),
      move_frame State.right_pressed (fun _ _ _ _ => rfl), eu, ed, el, er]
    exact id

/-- A tick without a direction flag ends with the hand angle 0. -/
theorem draw_hand_rest (s : State) (h : NoKey s) : (draw s).person_hand_angle = 0 := by
  rw [(draw_hand s).1]
  have hk := (before_move s).2.2.2.2 h
  unfold NoKey at hk
  unfold hand_reset
  rw [if_pos hk]

/-- A tick with at most one direction flag keeps the swing in its real range,
which reaches 35 degrees on either side. -/
theorem draw_swing (s : State) (hk : OneKey s ∨ NoKey s) (h : SwingOK s) :
    SwingOK (draw s) := by
  obtain ⟨b1, b2, b3, b4, _⟩ := before_move s
  have hk' : OneKey (bounds (normalize_direction s)) ∨ NoKey (bounds (normalize_direction s)) :=
    hk.imp b3 b4
  obtain ⟨m1, m2⟩ := move_swing _ hk'
  rw [b1, b2] at m1
  rw [b2] at m2
  obtain ⟨d1, d2⟩ := draw_hand s
  unfold SwingOK
  rw [d1, d2]
  have r1 : (hand_reset (move (bounds (normalize_direction s)))).hand_angle_speed =
      s.hand_angle_speed := by
    rw [hand_reset_frame State.hand_angle_speed (fun _ _ => rfl)]; exact m2
  have r2 : (hand_reset (move (bounds (normalize_direction s)))).person_hand_angle = 0 ∨
      (hand_reset (move (bounds (normalize_direction s)))).person_hand_angle =
        s.person_hand_angle ∨
      (hand_reset (move (bounds (normalize_direction s)))).person_hand_angle =
        s.person_hand_angle + s.hand_angle_speed := by
    unfold hand_reset
    split_ifs
    · exact Or.inl rfl
    · exact Or.inr m1
  generalize hand_reset (move (bounds (normalize_direction s))) = t at r1 r2
  unfold hand_speed
  unfold SwingOK at h
  split_ifs with c1 c2
  · right
    refine ⟨rfl, ?_, ?_⟩
    · show -30 ≤ t.person_hand_angle
      linarith
    · show t.person_hand_angle ≤ 35
      rcases r2 with r | r | r <;> rcases h with ⟨hv, ha, hb⟩ | ⟨hv, ha, hb⟩ <;>
        rw [r] <;> linarith
  · left
    refine ⟨rfl, ?_, ?_⟩
    · show -35 ≤ t.person_hand_angle
      rcases r2 with r | r | r <;> rcases h with ⟨hv, ha, hb⟩ | ⟨hv, ha, hb⟩ <;>
        rw [r] <;> linarith
    · show t.person_hand_angle ≤ 30
      linarith
  · rw [r1]
    rcases h with ⟨hv, ha, hb⟩ | ⟨hv, ha, hb⟩
    · left
      refine ⟨hv, ?_, by linarith⟩
      rcases r2 with r | r | r <;> rw [r] <;> linarith
    · right
      refine ⟨hv, by linarith, ?_⟩
      rcases r2 with r | r | r <;> rw [r] <;> linarith

set_option maxRecDepth 1000000 in
set_option maxHeartbeats 0 in
/-- The run `swing_run` passes the check of every tick and ends with `UP` still
the only flag set and the hand angle at 35. -/
theorem swing_run_end :
    (run swing_run (fromState init)).map (fun q => decide
      (q.person_hand_angle = 35 ∧ q.hand_angle_speed = -5 ∧ q.up_pressed = 1 ∧
        q.down_pressed = 0 ∧ q.left_pressed = 0 ∧ q.right_pressed = 0)) = some true := by
  decide!

/-- C24, evaluated: the turn test of the swing is `person_hand_angle>30`, so the
swing turns only after the angle has passed 30. From the initial state (angle 0,
swing speed 5), holding `UP` alone for 7 ticks ends the 7th tick with the hand
angle at 35, outside `[-30, 30]`. What holds instead: a tick with at most one
direction flag set keeps the angle within `[-35, 35]` (`SwingOK`), starting from
the initial state. The second half of the claim holds: a tick in which none of
the four flags is set ends with the hand angle 0. -/
theorem C24_hand_swing_overshoot :
    (∃ q : Snap, run swing_run (fromState init) = some q ∧ Reachable (toState q) ∧
      OneKey (toState q) ∧ (toState q).person_hand_angle = 35 ∧
      ¬ ((toState q).person_hand_angle ≤ 30)) ∧
    SwingOK init ∧
    (∀ s : State, (OneKey s ∨ NoKey s) → SwingOK s →
      SwingOK (draw s) ∧ -35 ≤ (draw s).person_hand_angle ∧ (draw s).person_hand_angle ≤ 35) ∧
    (∀ s : State, NoKey s → (draw s).person_hand_angle = 0) := by
  refine ⟨?_, Or.inl ⟨by decide!, by decide!, by decide!⟩, ?_, draw_hand_rest⟩
  · have h := swing_run_end
    cases hq : run swing_run (fromState init) with
    | none => rw [hq] at h; exact absurd h (by simp)
    | some q =>
      rw [hq, Option.map_some', Option.some.injEq] at h
      obtain ⟨ha, _, hu, hd, hl, hr⟩ := of_decide_eq_true h
      have hreach : Reachable (toState q) :=
        run_sound swing_run (fromState init) q hq (by rw [toState_init]; exact Reachable.init)
      refine ⟨q, rfl, hreach, Or.inl ⟨hu, hd, hl, hr⟩, ha, ?_⟩
      show ¬ (q.person_hand_angle ≤ 30)
      rw [ha]
      norm_num
  · intro s hk h
    have hd := draw_swing s hk h
    refine ⟨hd, ?_, ?_⟩
    · rcases hd with ⟨_, a, _⟩ | ⟨_, a, _⟩ <;> linarith
    · rcases hd with ⟨_, _, b⟩ | ⟨_, _, b⟩ <;> linarith


/-! ## Falling -/

/-- Nothing before the fall step of a tick writes the last-safe position. -/
theorem at_fall_prev (s : State) :
    (pickups (at_pickups s)).prev_x = s.prev_x ∧ (pickups (at_pickups s)).prev_y = s.prev_y ∧
      (pickups (at_pickups s)).prev_z = s.prev_z := by
  have h : ∀ g : State → ℚ,
      (∀ (t : State) (h : Nat → Nat → ℚ) (ge : Int) (k x y z f : ℚ) (d : Int)
        (pj js jd a v hl sc go : ℚ),
        g { t with heights := h, gameend := ge, key := k, person_x := x, person_y := y,
                   person_z := z, fall_state := f, person_direction_in_reset_view := d,
                   person_jump := pj, jump_speed := js, jump_direction := jd,
                   person_hand_angle := a, hand_angle_speed := v, person_health := hl,
                   score := sc, gameover := go } = g t) →
      g (pickups (at_pickups s)) = g s := by
    intro g hg
    unfold at_pickups at_unlock
    rw [pickups_frame g (fun s sc k ge => hg s _ ge k _ _ _ _ _ _ _ _ _ _ _ sc _),
      obstacle_pass_frame g (fun s x y z => hg s _ _ _ x y z _ _ _ _ _ _ _ _ _ _),
      pit_pass_frame g (fun s f => hg s _ _ _ _ _ _ f _ _ _ _ _ _ _ _ _),
      terrain_frame g (fun s x y z hl pj jd js => hg s _ _ _ x y z _ _ pj js jd _ _ hl _ _),
      unlock_frame g (fun s h => hg s h _ _ _ _ _ _ _ _ _ _ _ _ _ _ _),
      jump_frame g (fun s js jd pj => hg s _ _ _ _ _ _ _ _ pj js jd _ _ _ _ _),
      respawn_frame g (fun s x y z k f hl go h => hg s h _ k x y z f _ _ _ _ _ _ hl _ go),
      before_respawn_frame g (fun s d f a x z hl v => hg s _ _ _ x _ z f d _ _ _ a v hl _ _)]
  exact ⟨h State.prev_x (fun _ _ _ _ _ _ _ _ _ _ _ _ _ _ _ _ _ => rfl),
    h State.prev_y (fun _ _ _ _ _ _ _ _ _ _ _ _ _ _ _ _ _ => rfl),
    h State.prev_z (fun _ _ _ _ _ _ _ _ _ _ _ _ _ _ _ _ _ => rfl)⟩

/-- The fall step with `fall_state == 1`. -/
theorem fall_eq (s : State) (h : s.fall_state = 1) :
    (fall s).person_x = s.prev_x ∧ (fall s).person_z = s.prev_z ∧
      (fall s).person_y = s.prev_y - 1 ∧
      (s.prev_y - 1 < 0 → (fall s).gameover = 1) ∧
      (¬ s.prev_y - 1 < 0 → (fall s).gameover = s.gameover) := by
  unfold fall
  rw [if_pos h]
  dsimp only
  by_cases c : s.prev_y - 1 < 0
  · rw [if_pos c]
    exact ⟨rfl, rfl, rfl, fun _ => rfl, fun n => absurd c n⟩
  · rw [if_neg c]
    exact ⟨rfl, rfl, rfl, fun n => absurd n c, fun _ => rfl⟩

/-- The bounds test at the start of a tick. -/
theorem bounds_fall (s : State)
    (h : |s.person_x| ≥ 387.5 ∨ |s.person_z| ≥ 387.5) :
    (bounds (normalize_direction s)).fall_state = 1 := by
  have e : level_edge = 387.5 := by
    unfold level_edge length_of_cube_base width_of_base; norm_num
  have hx : ∀ t : State, |t.person_x| ≥ 387.5 → (bounds_x t).fall_state = 1 := by
    intro t c
    unfold bounds_x
    rw [e]
    have : t.person_x ≥ 387.5 ∨ t.person_x ≤ -1 * 387.5 := by
      rcases le_abs'.mp c with c | c
      · right; linarith
      · left; exact c
    rw [if_pos this]
  have hz : ∀ t : State, |t.person_z| ≥ 387.5 → (bounds_z t).fall_state = 1 := by
    intro t c
    unfold bounds_z
    rw [e]
    have : t.person_z ≥ 387.5 ∨ t.person_z ≤ -1 * 387.5 := by
      rcases le_abs'.mp c with c | c
      · right; linarith
      · left; exact c
    rw [if_pos this]
  have hz' : ∀ t : State, t.fall_state = 1 → (bounds_z t).fall_state = 1 := by
    intro t c
    unfold bounds_z
    split_ifs
    · rfl
    · exact c
  unfold bounds
  rcases h with h | h
  · exact hz' _ (hx _ h)
  · apply hz
    have : (bounds_x (normalize_direction s)).person_z = s.person_z := by
      unfold bounds_x; split_ifs <;> rfl
    rw [this]
    exact h

/-- C25: falling. At the fall step with `fall_state == 1` the player's `x` and
`z` become the last-safe values and `y` the last-safe `y` minus 1; `gameover`
becomes 1 if that `y` is below 0 and keeps its value otherwise. In a tick the
last-safe position that the fall step reads is the one the tick started with,
whatever the movement step did. The bounds test at the start of a tick sets
`fall_state = 1` whenever `|person_x| >= 387.5` or `|person_z| >= 387.5`
(387.5 is `level_edge`), as for the state `off_edge`. -/
theorem C25_falling :
    (∀ s : State, s.fall_state = 1 →
      (fall s).person_x = s.prev_x ∧ (fall s).person_z = s.prev_z ∧
      (fall s).person_y = s.prev_y - 1 ∧
      (s.prev_y - 1 < 0 → (fall s).gameover = 1) ∧
      (¬ s.prev_y - 1 < 0 → (fall s).gameover = s.gameover)) ∧
    (∀ s : State, (pickups (at_pickups s)).fall_state = 1 →
      (fall (pickups (at_pickups s))).person_x = s.prev_x ∧
      (fall (pickups (at_pickups s))).person_z = s.prev_z ∧
      (fall (pickups (at_pickups s))).person_y = s.prev_y - 1 ∧
      ((fall (pickups (at_pickups s))).gameover = 1 ↔
        (s.prev_y - 1 < 0 ∨ (pickups (at_pickups s)).gameover = 1))) ∧
    (∀ s : State, s.fall_state ≠ 1 → fall s = s) ∧
    (level_edge = 387.5 ∧ ∀ s : State, |s.person_x| ≥ 387.5 ∨ |s.person_z| ≥ 387.5 →
      (bounds (normalize_direction s)).fall_state = 1) ∧
    ((bounds (normalize_direction off_edge)).fall_state = 1 ∧
      (fall (bounds (normalize_direction off_edge))).person_x = 0 ∧
      (fall (bounds (normalize_direction off_edge))).person_y = 111.5 ∧
      (fall (bounds (normalize_direction off_edge))).gameover = 0) := by
  refine ⟨fall_eq, ?_, fall_fixed, ⟨?_, bounds_fall⟩, ⟨by decide!, by decide!, by decide!,
    by decide!⟩⟩
  · intro s h
    obtain ⟨px, py, pz⟩ := at_fall_prev s
    obtain ⟨f1, f2, f3, f4, f5⟩ := fall_eq _ h
    rw [px] at f1
    rw [pz] at f2
    rw [py] at f3 f4 f5
    refine ⟨f1, f2, f3, ?_⟩
    constructor
    · intro hg
      by_cases c : s.prev_y - 1 < 0
      · exact Or.inl c
      · rw [f5 c] at hg; exact Or.inr hg
    · rintro (c | hg)
      · exact f4 c
      · by_cases c : s.prev_y - 1 < 0
        · exact f4 c
        · rw [f5 c]; exact hg
  · unfold level_edge length_of_cube_base width_of_base; norm_num


/-! ## The start position -/

/-- C27: the start position is safe. From the initial state (in which no input
flag is set), after any number of ticks of `draw` the player is still at
`(337.5, 112.5, 337.5)`, `person_health` is 100, `key` and `score` are 0, and
`fall_state` and `gameover` are 0; these states are states of a run. -/
theorem C27_start_position_safe (n : Nat) :
    (Nat.iterate draw n init).person_x = 337.5 ∧ (Nat.iterate draw n init).person_y = 112.5 ∧
    (Nat.iterate draw n init).person_z = 337.5 ∧
    (Nat.iterate draw n init).person_health = 100 ∧ (Nat.iterate draw n init).key = 0 ∧
    (Nat.iterate draw n init).score = 0 ∧ (Nat.iterate draw n init).fall_state = 0 ∧
    (Nat.iterate draw n init).gameover = 0 ∧ Reachable (Nat.iterate draw n init) ∧
    (init.up_pressed = 0 ∧ init.down_pressed = 0 ∧ init.left_pressed = 0 ∧
      init.right_pressed = 0 ∧ init.l_pressed = 0 ∧ init.person_jump = 0) := by
  obtain ⟨⟨hx, hz, hy⟩, ⟨hk, hs, hg, _⟩, ⟨hf, hh, _⟩, _⟩ := iterate_draw_idle n
  have ey : start_y = 112.5 := by
    unfold start_y length_of_cube_base height_of_base; norm_num
  have ex : start_xz = 337.5 := by
    unfold start_xz length_of_cube_base length_of_base; norm_num
  refine ⟨hx.trans ex, hy.trans ey, hz.trans ex, hh, hk, hs, hf, hg,
    iterate_draw_reachable n, rfl, rfl, rfl, rfl, rfl, rfl⟩


/-! ## The obstacle loop and the unlocked cells -/

/-- The obstacle loop from index `n` on: the indices below `m` are tested, the
others are skipped, when `m` is the loop bound `no_of_obstacles - 2*key`. -/
theorem obstacle_loop (l : List (ℚ × ℚ)) (m n : Nat) (s : State)
    (hm : ∀ idx : Nat, (idx : ℚ) < (s.obstacles.length : ℚ) - 2 * s.key ↔ idx < m) :
    (l.enumFrom n).foldl (fun s p =>
      if (p.1 : ℚ) < (s.obstacles.length : ℚ) - 2 * s.key then obstacle_test p.2 s else s) s =
    (l.take (m - n)).foldl (fun s p => obstacle_test p s) s := by
  induction l generalizing n s with
  | nil => rw [List.take_nil]; rfl
  | cons x xs ih =>
    rw [List.enumFrom_cons, List.foldl_cons]
    dsimp only
    by_cases c : n < m
    · rw [if_pos ((hm n).mpr c)]
      have e : m - n = (m - (n + 1)) + 1 := by omega
      rw [e, List.take_succ_cons, List.foldl_cons]
      apply ih
      rw [obstacle_test_frame State.obstacles (fun _ _ _ _ => rfl),
        obstacle_test_frame State.key (fun _ _ _ _ => rfl)]
      exact hm
    · rw [if_neg (fun h => c ((hm n).mp h))]
      have e0 : m - n = 0 := by omega
      have e1 : m - (n + 1) = 0 := by omega
      rw [e0, List.take_zero, List.foldl_nil]
      have := ih (n + 1) s hm
      rw [e1, List.take_zero, List.foldl_nil] at this
      exact this

/-- The obstacle pass with `key = k` tests the first `no_of_obstacles - 2*k`
points of the array, in order. -/
theorem obstacle_pass_take (s : State) (k : Nat) (hk : s.key = k) :
    obstacle_pass s =
      (s.obstacles.take (s.obstacles.length - 2 * k)).foldl (fun s p => obstacle_test p s) s := by
  unfold obstacle_pass
  have h := obstacle_loop s.obstacles (s.obstacles.length - 2 * k) 0 s (by
    intro idx
    rw [hk]
    constructor
    · intro h
      have h' : ((idx + 2 * k : Nat) : ℚ) < (s.obstacles.length : ℚ) := by
        push_cast; linarith
      have := Nat.cast_lt.mp h'
      omega
    · intro h
      have h' : idx + 2 * k < s.obstacles.length := by omega
      have h2 : ((idx + 2 * k : Nat) : ℚ) < (s.obstacles.length : ℚ) := Nat.cast_lt.mpr h'
      push_cast at h2
      linarith)
  rw [Nat.sub_zero] at h
  exact h

/-- C28: the obstacle pass with `key = k` tests the first
`no_of_obstacles - 2*k` points of `obstacles`. In a state of a run `key` is 0,
1, 2 or 3 and the array holds the centres of the 178 cells of `obstacle_cells`,
so the pass tests the centres of the first `178 - 2*k` of them. The two cells
dropped when `key` goes from 0 to 1 are (14,15) and (14,16), from 1 to 2
(13,14) and (12,14), from 2 to 3 (14,13) and (14,14); the first 172 cells are
never dropped. These pairs are the cells that the unlock step sets to
`height_of_base` for `key >= 1`, `key >= 2` and `key >= 3`. -/
theorem C28_obstacle_truncation :
    (∀ (s : State) (k : Nat), s.key = k → obstacle_pass s =
      (s.obstacles.take (s.obstacles.length - 2 * k)).foldl (fun s p => obstacle_test p s) s) ∧
    (∀ s : State, Reachable s → ∃ k : Nat, k ≤ 3 ∧ s.key = k ∧ obstacle_pass s =
      ((obstacle_cells.take (178 - 2 * k)).map cell_point).foldl
        (fun s p => obstacle_test p s) s) ∧
    (obstacle_cells.length = 178 ∧
      obstacle_cells.take 178 = obstacle_cells.take 176 ++ [(14, 15), (14, 16)] ∧
      obstacle_cells.take 176 = obstacle_cells.take 174 ++ [(13, 14), (12, 14)] ∧
      obstacle_cells.take 174 = obstacle_cells.take 172 ++ [(14, 13), (14, 14)]) ∧
    (∀ s : State,
      (s.key ≥ 1 → (unlock1 s).heights =
        setH (setH s.heights 14 15 height_of_base) 14 16 height_of_base) ∧
      (¬ s.key ≥ 1 → unlock1 s = s) ∧
      (s.key ≥ 2 → (unlock2 s).heights =
        setH (setH s.heights 13 14 height_of_base) 12 14 height_of_base) ∧
      (¬ s.key ≥ 2 → unlock2 s = s) ∧
      (s.key ≥ 3 → (unlock3 s).heights =
        setH (setH s.heights 14 13 height_of_base) 14 14 height_of_base) ∧
      (¬ s.key ≥ 3 → unlock3 s = s)) := by
  refine ⟨obstacle_pass_take, ?_, ⟨by decide!, by decide!, by decide!, by decide!⟩, ?_⟩
  · intro s hs
    have ho : s.obstacles = obstacle_cells.map cell_point :=
      (reachable_obstacles hs).trans init_obstacles_eq
    have hl : s.obstacles.length = 178 := by
      rw [ho, List.length_map]; decide!
    have hk : ∃ k : Nat, k ≤ 3 ∧ s.key = k := by
      rcases reachable_key_ok hs with h | h | h | h
      · exact ⟨0, by decide, by rw [h]; norm_num⟩
      · exact ⟨1, by decide, by rw [h]; norm_num⟩
      · exact ⟨2, by decide, by rw [h]; norm_num⟩
      · exact ⟨3, by decide, by rw [h]; norm_num⟩
    obtain ⟨k, hk3, hk⟩ := hk
    refine ⟨k, hk3, hk, ?_⟩
    rw [obstacle_pass_take s k hk, hl, ho, List.map_take]
  · intro s
    refine ⟨fun h => ?_, fun h => ?_, fun h => ?_, fun h => ?_, fun h => ?_, fun h => ?_⟩
    · unfold unlock1; rw [if_pos h]
    · unfold unlock1; rw [if_neg h]
    · unfold unlock2; rw [if_pos h]
    · unfold unlock2; rw [if_neg h]
    · unfold unlock3; rw [if_pos h]
    · unfold unlock3; rw [if_neg h]


/-! ## One pickup per tick -/

/-- No point lies in two pickup boxes. -/
theorem zones_disjoint (i j : Nat) (hij : i ≠ j) (x z : ℚ) :
    ¬ (in_zone i x z ∧ in_zone j x z) := by
  rintro ⟨hi, hj⟩
  unfold in_zone at hi hj
  split at hi <;> split at hj <;>
    first
    | exact absurd rfl hij
    | exact hi
    | exact hj
    | (obtain ⟨a1, a2, a3, a4⟩ := hi
       obtain ⟨b1, b2, b3, b4⟩ := hj
       linarith)

/-- The pickup step: at most one of the four tests fires. Either nothing
changes, or exactly one zone `k` with `key == k` holds the player, `key` goes up
by 1 (`k < 3`) or stays (`k = 3`, which sets `gameend`), and the score grows by
the bonus of that zone alone. -/
theorem pickups_once (s : State) :
    pickups s = s ∨
    (in_zone 0 s.person_x s.person_z ∧ s.key = 0 ∧ (pickups s).key = 1 ∧
      (pickups s).score = s.score + 20) ∨
    (in_zone 1 s.person_x s.person_z ∧ s.key = 1 ∧ (pickups s).key = 2 ∧
      (pickups s).score = s.score + 50) ∨
    (in_zone 2 s.person_x s.person_z ∧ s.key = 2 ∧ (pickups s).key = 3 ∧
      (pickups s).score = s.score + 60) ∨
    (in_zone 3 s.person_x s.person_z ∧ s.key = 3 ∧ (pickups s).key = 3 ∧
      (pickups s).score = s.score + 60) := by
  have n1 : ∀ t : State, t.key ≠ 1 ∨ ¬ in_zone 1 t.person_x t.person_z → pickup1 t = t := by
    intro t h
    unfold pickup1
    apply if_neg
    rintro ⟨a1, a2, a3, a4, a5⟩
    rcases h with h | h
    · exact h a5
    · exact h ⟨a1, a2, a3, a4⟩
  have n2 : ∀ t : State, t.key ≠ 2 ∨ ¬ in_zone 2 t.person_x t.person_z → pickup2 t = t := by
    intro t h
    unfold pickup2
    apply if_neg
    rintro ⟨a1, a2, a3, a4, a5⟩
    rcases h with h | h
    · exact h a5
    · exact h ⟨a1, a2, a3, a4⟩
  have n3 : ∀ t : State, t.key ≠ 3 ∨ ¬ in_zone 3 t.person_x t.person_z → pickup3 t = t := by
    intro t h
    unfold pickup3
    apply if_neg
    rintro ⟨a1, a2, a3, a4, a5⟩
    rcases h with h | h
    · exact h a5
    · exact h ⟨a1, a2, a3, a4⟩
  unfold pickups
  by_cases c0 : s.person_x ≤ 290 ∧ s.person_x ≥ 280 ∧ s.person_z ≤ 170 ∧ s.person_z ≥ 160 ∧
      s.key = 0
  · have e0 : pickup0 s = { s with score := s.score + 20, key := 1 } := if_pos c0
    have z0 : in_zone 0 s.person_x s.person_z := ⟨c0.1, c0.2.1, c0.2.2.1, c0.2.2.2.1⟩
    rw [e0, n1 { s with score := s.score + 20, key := 1 }
        (Or.inr (fun h => zones_disjoint 0 1 (by decide) _ _ ⟨z0, h⟩)),
      n2 { s with score := s.score + 20, key := 1 } (Or.inl (by show (1 : ℚ) ≠ 2; norm_num)),
      n3 { s with score := s.score + 20, key := 1 } (Or.inl (by show (1 : ℚ) ≠ 3; norm_num))]
    exact Or.inr (Or.inl ⟨z0, c0.2.2.2.2, rfl, rfl⟩)
  · have e0 : pickup0 s = s := if_neg c0
    rw [e0]
    by_cases c1 : s.person_x ≥ -345 ∧ s.person_x ≤ -335 ∧ s.person_z ≤ 340 ∧ s.person_z ≥ 330 ∧
        s.key = 1
    · have e1 : pickup1 s = { s with score := s.score + 50, key := 2 } := if_pos c1
      have z1 : in_zone 1 s.person_x s.person_z := ⟨c1.1, c1.2.1, c1.2.2.1, c1.2.2.2.1⟩
      rw [e1, n2 { s with score := s.score + 50, key := 2 }
          (Or.inr (fun h => zones_disjoint 1 2 (by decide) _ _ ⟨z1, h⟩)),
        n3 { s with score := s.score + 50, key := 2 } (Or.inl (by show (2 : ℚ) ≠ 3; norm_num))]
      exact Or.inr (Or.inr (Or.inl ⟨z1, c1.2.2.2.2, rfl, rfl⟩))
    · have e1 : pickup1 s = s := if_neg c1
      rw [e1]
      by_cases c2 : s.person_x ≥ -340 ∧ s.person_x ≤ -330 ∧ s.person_z ≥ -340 ∧
          s.person_z ≤ -330 ∧ s.key = 2
      · have e2 : pickup2 s = { s with score := s.score + 60, key := 3 } := if_pos c2
        have z2 : in_zone 2 s.person_x s.person_z := ⟨c2.1, c2.2.1, c2.2.2.1, c2.2.2.2.1⟩
        rw [e2, n3 { s with score := s.score + 60, key := 3 }
          (Or.inr (fun h => zones_disjoint 2 3 (by decide) _ _ ⟨z2, h⟩))]
        exact Or.inr (Or.inr (Or.inr (Or.inl ⟨z2, c2.2.2.2.2, rfl, rfl⟩)))
      · have e2 : pickup2 s = s := if_neg c2
        rw [e2]
        by_cases c3 : s.person_x ≤ 340 ∧ s.person_x ≥ 330 ∧ s.person_z ≥ -340 ∧
            s.person_z ≤ -330 ∧ s.key = 3
        · have e3 : pickup3 s = { s with score := s.score + 60, gameend := 1 } := if_pos c3
          have z3 : in_zone 3 s.person_x s.person_z := ⟨c3.1, c3.2.1, c3.2.2.1, c3.2.2.2.1⟩
          rw [e3]
          exact Or.inr (Or.inr (Or.inr (Or.inr ⟨z3, c3.2.2.2.2, c3.2.2.2.2, rfl⟩)))
        · have e3 : pickup3 s = s := if_neg c3
          rw [e3]
          exact Or.inl rfl

/-- C29: at most one pickup per tick. The four pickup boxes are pairwise
disjoint. The pickup step, from any state, leaves `key` or raises it by 1, and
adds to the score nothing or the bonus of one zone (20, 50 or 60). One tick of
`draw` ends with `key` equal to or 1 above its value after the respawn step,
which is the value the tick started with or 0; so from a state with `key >= 0`
a tick ends with `key` at most 1 higher. The score at the end of a tick is the
score it started with plus at most one zone bonus plus what the platform pass
adds for coins (`coin_gain`). -/
theorem C29_one_pickup_per_tick :
    (∀ (i j : Nat), i ≠ j → ∀ x z : ℚ, ¬ (in_zone i x z ∧ in_zone j x z)) ∧
    (∀ s : State, ((pickups s).key = s.key ∨ (pickups s).key = s.key + 1) ∧
      ((pickups s).score = s.score ∨ (pickups s).score = s.score + 20 ∨
        (pickups s).score = s.score + 50 ∨ (pickups s).score = s.score + 60)) ∧
    (∀ s : State, ((draw s).key = (respawn (before_respawn s)).key ∨
        (draw s).key = (respawn (before_respawn s)).key + 1) ∧
      ((respawn (before_respawn s)).key = s.key ∨ (respawn (before_respawn s)).key = 0)) ∧
    (∀ s : State, 0 ≤ s.key → (draw s).key ≤ s.key + 1) ∧
    (∀ s : State, (draw s).score = s.score + coin_gain s ∨
      (draw s).score = s.score + 20 + coin_gain s ∨
      (draw s).score = s.score + 50 + coin_gain s ∨
      (draw s).score = s.score + 60 + coin_gain s) := by
  have hp : ∀ s : State, ((pickups s).key = s.key ∨ (pickups s).key = s.key + 1) ∧
      ((pickups s).score = s.score ∨ (pickups s).score = s.score + 20 ∨
        (pickups s).score = s.score + 50 ∨ (pickups s).score = s.score + 60) := by
    intro s
    rcases pickups_once s with h | ⟨_, hk, h1, h2⟩ | ⟨_, hk, h1, h2⟩ | ⟨_, hk, h1, h2⟩ |
      ⟨_, hk, h1, h2⟩
    · rw [h]; exact ⟨Or.inl rfl, Or.inl rfl⟩
    · exact ⟨Or.inr (by rw [h1, hk]; norm_num), Or.inr (Or.inl h2)⟩
    · exact ⟨Or.inr (by rw [h1, hk]; norm_num), Or.inr (Or.inr (Or.inl h2))⟩
    · exact ⟨Or.inr (by rw [h1, hk]; norm_num), Or.inr (Or.inr (Or.inr h2))⟩
    · exact ⟨Or.inl (by rw [h1, hk]), Or.inr (Or.inr (Or.inr h2))⟩
  refine ⟨zones_disjoint, hp, ?_, ?_, ?_⟩
  · intro s
    constructor
    · rw [draw_key, ← at_pickups_key]
      exact (hp (at_pickups s)).1
    · unfold respawn
      split_ifs
      · exact Or.inr rfl
      · exact Or.inl (before_respawn_key s)
  · intro s hk
    rw [draw_key]
    have h1 : (pickups (at_pickups s)).key ≤ (at_pickups s).key + 1 := by
      rcases (hp (at_pickups s)).1 with h | h
      · rw [h]; linarith
      · rw [h]
    have h2 : (at_pickups s).key ≤ s.key := by
      rw [at_pickups_key]
      unfold respawn
      split_ifs
      · exact hk
      · exact le_of_eq (before_respawn_key s)
    linarith
  · intro s
    have e3 := (at_platforms_eq s).2.2.1
    have hsc : (draw s).score = (platform_pass (at_platforms s)).score :=
      save_prev_frame State.score (fun _ _ _ _ => rfl) (platform_pass (at_platforms s))
    have h0 : (at_pickups s).score = s.score := by
      unfold at_pickups at_unlock
      rw [obstacle_pass_frame State.score (fun _ _ _ _ => rfl),
        pit_pass_frame State.score (fun _ _ => rfl),
        terrain_frame State.score (fun _ _ _ _ _ _ _ _ => rfl),
        unlock_frame State.score (fun _ _ => rfl),
        jump_frame State.score (fun _ _ _ _ => rfl),
        respawn_frame State.score (fun _ _ _ _ _ _ _ _ _ => rfl),
        before_respawn_frame State.score (fun _ _ _ _ _ _ _ _ => rfl)]
    have hg : (draw s).score = (pickups (at_pickups s)).score + coin_gain s := by
      unfold coin_gain
      rw [hsc, e3]
      ring
    rw [hg]
    rcases (hp (at_pickups s)).2 with h | h | h | h <;> rw [h, h0]
    · exact Or.inl rfl
    · exact Or.inr (Or.inl rfl)
    · exact Or.inr (Or.inr (Or.inl rfl))
    · exact Or.inr (Or.inr (Or.inr rfl))


/-! ## The frame of the respawn step -/

/-- C30: the respawn step writes only `person_x`, `person_y`, `person_z`, `key`,
`fall_state`, `person_health`, `gameover` and `heights`, and of `heights` only
the six gating cells. The score, the jump state, the riding flag, the last-safe
position, the walls, spikes and platforms (coin flags included) and every other
height cell are left as they are; so are all other variables of the state. -/
theorem C30_respawn_frame (s : State) :
    respawn s = { s with person_x := (respawn s).person_x, person_y := (respawn s).person_y,
                         person_z := (respawn s).person_z, key := (respawn s).key,
                         fall_state := (respawn s).fall_state,
                         person_health := (respawn s).person_health,
                         gameover := (respawn s).gameover, heights := (respawn s).heights } ∧
    (∀ i j : Nat, ¬ Gating i j → (respawn s).heights i j = s.heights i j) ∧
    (respawn s).score = s.score ∧
    ((respawn s).person_jump = s.person_jump ∧ (respawn s).jump_speed = s.jump_speed ∧
      (respawn s).jump_direction = s.jump_direction) ∧
    (respawn s).person_state = s.person_state ∧
    ((respawn s).prev_x = s.prev_x ∧ (respawn s).prev_y = s.prev_y ∧
      (respawn s).prev_z = s.prev_z) ∧
    ((respawn s).wall = s.wall ∧ (respawn s).no_of_walls = s.no_of_walls) ∧
    (respawn s).spike_y = s.spike_y ∧
    ((respawn s).moving_base = s.moving_base ∧
      (respawn s).no_of_moving_base = s.no_of_moving_base) := by
  have h : ∀ {α : Type} (g : State → α),
      (∀ (s : State) (x y z k f hl go : ℚ) (h : Nat → Nat → ℚ),
        g { s with person_x := x, person_y := y, person_z := z, key := k, fall_state := f,
                   person_health := hl, gameover := go, heights := h } = g s) →
      g (respawn s) = g s := fun g hg => respawn_frame g hg s
  refine ⟨?_, fun i j hg => respawn_heights_off_gate s i j hg,
    h State.score (fun _ _ _ _ _ _ _ _ _ => rfl),
    ⟨h State.person_jump (fun _ _ _ _ _ _ _ _ _ => rfl),
      h State.jump_speed (fun _ _ _ _ _ _ _ _ _ => rfl),
      h State.jump_direction (fun _ _ _ _ _ _ _ _ _ => rfl)⟩,
    h State.person_state (fun _ _ _ _ _ _ _ _ _ => rfl),
    ⟨h State.prev_x (fun _ _ _ _ _ _ _ _ _ => rfl), h State.prev_y (fun _ _ _ _ _ _ _ _ _ => rfl),
      h State.prev_z (fun _ _ _ _ _ _ _ _ _ => rfl)⟩,
    ⟨h State.wall (fun _ _ _ _ _ _ _ _ _ => rfl),
      h State.no_of_walls (fun _ _ _ _ _ _ _ _ _ => rfl)⟩,
    h State.spike_y (fun _ _ _ _ _ _ _ _ _ => rfl),
    ⟨h State.moving_base (fun _ _ _ _ _ _ _ _ _ => rfl),
      h State.no_of_moving_base (fun _ _ _ _ _ _ _ _ _ => rfl)⟩⟩
  unfold respawn
  split_ifs
  · rfl
  · rfl


/-! ## Health below zero -/

/-- Putting the player back to the last-safe position changes nothing when the
player is there already. -/
theorem revert_same (u : State) (hx : u.prev_x = u.person_x) (hy : u.prev_y = u.person_y)
    (hz : u.prev_z = u.person_z) :
    { u with person_x := u.prev_x, person_y := u.prev_y, person_z := u.prev_z } = u ∧
      save_prev u = u := by
  cases u
  dsimp only at hx hy hz
  subst hx hy hz
  exact ⟨rfl, rfl⟩

theorem platform_step_z (m : MovingBase) : (platform_step m).z = m.z := by
  unfold platform_step
  dsimp only
  split_ifs <;> rfl

/-- The tests of a platform against a stuck player change nothing: platform 0
holds the player in its footprint but not within 19 of its centre, the others
are far away. -/
theorem platform_touch_stuck (i : Nat) (u : State)
    (hp : u.person_x = 207.5 ∧ u.person_y = 112 ∧ u.person_z = 217.5)
    (hv : u.prev_x = 207.5 ∧ u.prev_y = 112 ∧ u.prev_z = 217.5)
    (hs : u.person_state = 0)
    (hm : ((u.moving_base i).x = 185 ∧ (u.moving_base i).z = 200) ∨ (u.moving_base i).x ≤ 125) :
    platform_touch i u = u := by
  obtain ⟨px, py, pz⟩ := hp
  obtain ⟨vx, vy, vz⟩ := hv
  unfold platform_touch
  dsimp only
  rcases hm with ⟨mx, mz⟩ | mx
  · have e1 : flip_neg (u.person_x - (u.moving_base i).x) = 22.5 := by
      rw [px, mx]; decide!
    have e2 : flip_neg (u.person_z - (u.moving_base i).z) = 17.5 := by
      rw [pz, mz]; decide!
    rw [e1, e2, if_pos (by norm_num)]
    have b : platform_block (u.person_y - (u.moving_base i).y - 40) u = u := by
      unfold platform_block
      split_ifs
      · exact (revert_same u (vx.trans px.symm) (vy.trans py.symm) (vz.trans pz.symm)).1
      · rfl
    have l : platform_land i 22.5 17.5 (u.person_y - (u.moving_base i).y - 40) u = u := by
      unfold platform_land
      rw [if_neg]
      rintro ⟨_, _, h, _⟩
      norm_num at h
    have v : platform_leave 22.5 17.5 u = u := by
      unfold platform_leave
      rw [if_pos (Or.inl (by norm_num))]
      show { u with person_state := 0 } = u
      rw [← hs]
    have c : platform_carry i u = u := by
      unfold platform_carry
      rw [if_neg]
      rw [hs]; norm_num
    rw [b, l, v, c]
  · rw [if_neg]
    rintro ⟨⟨_, h⟩, _⟩
    rw [flip_neg_eq_abs, px] at h
    have := (abs_le.mp h).2
    linarith

/-- The platform loop over `0..k-1` against a stuck player only animates the
platforms. -/
theorem platform_loop_stuck (s : State) (k : Nat) (hk : k ≤ 5)
    (hp : s.person_x = 207.5 ∧ s.person_y = 112 ∧ s.person_z = 217.5)
    (hv : s.prev_x = 207.5 ∧ s.prev_y = 112 ∧ s.prev_z = 217.5)
    (hs : s.person_state = 0)
    (hm : (s.moving_base 0).x = 185 ∧ (s.moving_base 0).z = 200 ∧
      ∀ i, 1 ≤ i → i < 5 → (s.moving_base i).x ≤ 125) :
    (List.range k).foldl (fun s i => platform_iter i s) s =
      { s with moving_base := fun i => if i < k then platform_step (s.moving_base i)
          else s.moving_base i } := by
  induction k with
  | zero =>
    have e : (fun i => if i < 0 then platform_step (s.moving_base i) else s.moving_base i) =
        s.moving_base := funext (fun i => if_neg (Nat.not_lt_zero i))
    rw [e]
    rfl
  | succ k ih =>
    rw [List.range_succ, List.foldl_append, ih (Nat.le_of_succ_le hk)]
    simp only [List.foldl_cons, List.foldl_nil]
    unfold platform_iter
    have ea : ∀ t : State, t.moving_base k = s.moving_base k →
        (platform_advance k t).moving_base k = platform_step (s.moving_base k) := by
      intro t ht
      unfold platform_advance setA
      dsimp only
      rw [if_pos rfl, ht]
    have hrow : (if k < k then platform_step (s.moving_base k) else s.moving_base k) =
        s.moving_base k := if_neg (lt_irrefl k)
    have ht : ∀ t : State, t.moving_base k = s.moving_base k →
        (t.person_x = 207.5 ∧ t.person_y = 112 ∧ t.person_z = 217.5) →
        (t.prev_x = 207.5 ∧ t.prev_y = 112 ∧ t.prev_z = 217.5) → t.person_state = 0 →
        platform_touch k (platform_advance k t) = platform_advance k t := by
      intro t e tp tv ts
      refine platform_touch_stuck k (platform_advance k t) tp tv ts ?_
      rw [ea t e, platform_step_x, platform_step_z]
      by_cases c : k = 0
      · rw [c]; exact Or.inl ⟨hm.1, hm.2.1⟩
      · exact Or.inr (hm.2.2 k (by omega) (by omega))
    rw [ht { s with moving_base := fun i => if i < k then platform_step (s.moving_base i) else s.moving_base i } hrow hp hv hs]
    unfold platform_advance
    dsimp only
    rw [hrow]
    congr 1
    funext j
    unfold setA
    by_cases c1 : j = k
    · rw [if_pos c1, if_pos (by omega), c1]
    · rw [if_neg c1]
      dsimp only
      by_cases c2 : j < k
      · rw [if_pos c2, if_pos (by omega)]
      · rw [if_neg c2, if_neg (by omega)]

/-- One tick of a stuck player with health above 0.1: the health decay takes
0.1, the platforms are animated, and nothing else changes. -/
theorem stuck_tick (s : State) (hs : Stuck s) (hh : 0.1 < s.person_health) :
    draw s = drain_to (s.person_health - 0.1)
      (fun i => if i < 5 then platform_step (s.moving_base i) else s.moving_base i) s := by
  obtain ⟨hst, ⟨px, py, pz⟩, ⟨vx, vy, vz⟩, ⟨hk, hgo, _, hf⟩, ⟨hps, hpj, hjs⟩,
    ⟨⟨kl, kr, ku, kd⟩, hlp⟩, ⟨ha, hd⟩, hm⟩ := hs
  obtain ⟨sh, so, se, _, _, _, sn, _⟩ := hst
  have e1 : normalize_direction s = s := by
    have h : ∀ u : State, u.person_direction_in_reset_view = 0 → normalize_direction u = u := by
      intro u h
      cases u
      dsimp only at h
      subst h
      rfl
    exact h s hd
  have e2 : bounds s = s := by
    apply bounds_fixed <;> rw [show level_edge = 387.5 by
      unfold level_edge length_of_cube_base width_of_base; norm_num] <;>
      first | (rw [px]; norm_num) | (rw [pz]; norm_num)
  have e3 : move s = s := move_fixed s ku kd kl kr
  have e4 : hand_reset s = s := by
    have h : ∀ u : State, u.person_hand_angle = 0 → { u with person_hand_angle := 0 } = u := by
      intro u h
      cases u
      dsimp only at h
      subst h
      rfl
    unfold hand_reset
    rw [if_pos ⟨kl, kr, ku, kd⟩]
    exact h s ha
  have e5 : health_decay s = drain_to (s.person_health - 0.1) s.moving_base s := by
    unfold health_decay
    rw [if_pos (by rw [py, hjs]; norm_num)]
    rfl
  have e6 : ∀ h : ℚ, hand_speed (drain_to h s.moving_base s) = drain_to h s.moving_base s := by
    intro h
    unfold hand_speed
    have a0 : (drain_to h s.moving_base s).person_hand_angle = 0 := ha
    rw [a0, if_neg (by norm_num), if_neg (by norm_num)]
  have eb : before_respawn s = drain_to (s.person_health - 0.1) s.moving_base s := by
    unfold before_respawn
    rw [e1, e2, e3, e4, e5, e6]
  generalize ht : drain_to (s.person_health - 0.1) s.moving_base s = t at eb
  have tx : t.person_x = 207.5 := by rw [← ht]; exact px
  have ty : t.person_y = 112 := by rw [← ht]; exact py
  have tz : t.person_z = 217.5 := by rw [← ht]; exact pz
  have tvx : t.prev_x = 207.5 := by rw [← ht]; exact vx
  have tvy : t.prev_y = 112 := by rw [← ht]; exact vy
  have tvz : t.prev_z = 217.5 := by rw [← ht]; exact vz
  have tk : t.key = 0 := by rw [← ht]; exact hk
  have tgo : t.gameover = 0 := by rw [← ht]; exact hgo
  have tf : t.fall_state = 0 := by rw [← ht]; exact hf
  have tps : t.person_state = 0 := by rw [← ht]; exact hps
  have tpj : t.person_jump = 0 := by rw [← ht]; exact hpj
  have tlp : t.l_pressed = 0 := by rw [← ht]; exact hlp
  have th : t.person_health = s.person_health - 0.1 := by rw [← ht]; rfl
  have tsh : t.heights = init_grid := by rw [← ht]; exact sh
  have tso : t.obstacles = obstacle_cells.map cell_point := by rw [← ht]; exact so
  have tse : t.empty_cube = pit_cells.map cell_point := by rw [← ht]; exact se
  have tsn : t.no_of_moving_base = 5 := by rw [← ht]; exact sn
  have tm : t.moving_base = s.moving_base := by rw [← ht]; rfl
  have r1 : respawn t = t := by
    apply respawn_fixed
    unfold respawn_fires
    rw [tlp, th, tgo]
    rintro (h | h | h)
    · exact absurd h (by decide)
    · linarith
    · exact absurd h (by norm_num)
  have r2 : jump t = t := jump_fixed t (by rw [tpj]; norm_num)
  have r3 : unlock t = t := unlock_fixed t (by rw [tk]; norm_num)
  have hin : in_cell 23 23 t := by
    unfold in_cell
    rw [tx, tz]
    decide!
  have rv := revert_same t (tvx.trans tx.symm) (tvy.trans ty.symm) (tvz.trans tz.symm)
  have r4 : cell_test 23 23 t = t := by
    have hh23 : t.heights 23 23 = 5 := by rw [tsh]; decide!
    unfold cell_test
    dsimp only
    rw [hh23, ty]
    rw [if_neg (by rintro ⟨_, _, h⟩; unfold length_of_cube_base at h; norm_num at h)]
    rw [if_pos ⟨hin.1, hin.2, by unfold length_of_cube_base; norm_num⟩, if_pos tpj]
    exact rv.1
  have r5 : terrain t = t := by
    have e0 : terrain0 t = t := by
      unfold terrain0
      rw [if_pos (show t.key ≥ 0 by rw [tk]),
        cell_pass_single 14 30 14 30 23 23 t (by decide) (by decide) hin
          (by rw [r4]; exact fun i2 i hne => in_cell_unique hin hne), r4]
    have e1 : terrain1 t = t := by
      unfold terrain1
      rw [if_neg (show ¬ t.key ≥ 1 by rw [tk]; norm_num)]
    unfold terrain
    rw [e0, e1]
  have r6 : pit_pass t = t := pit_pass_east t tse (by rw [tz]; norm_num)
  have r7 : obstacle_pass t = t := by
    apply obstacle_pass_clear t tso
    refine ⟨(200, 240, 200, 340), by decide!, ?_⟩
    unfold InBox
    rw [tx, tz]
    norm_num
  have r8 : pickups t = t := by
    apply pickups_fixed
    · rw [tz]; rintro ⟨_, _, h, _⟩; norm_num at h
    · rw [tx]; rintro ⟨_, _, h⟩; norm_num at h
    · rw [tz]; rintro ⟨_, h⟩; norm_num at h
  have r9 : spike_pass (wall_pass (fall t)) = t :=
    hazards_fixed t (by rw [tf]; norm_num) (by rw [tk]; norm_num)
  have r10 : platform_pass t =
      { t with moving_base := fun i => if i < 5 then platform_step (t.moving_base i)
          else t.moving_base i } := by
    unfold platform_pass
    rw [if_pos (show t.key ≥ 0 by rw [tk]),
      show List.range t.no_of_moving_base = List.range 5 by rw [tsn]]
    exact platform_loop_stuck t 5 (le_refl 5) ⟨tx, ty, tz⟩ ⟨tvx, tvy, tvz⟩ tps (by rw [tm]; exact hm)
  unfold draw after_respawn
  rw [eb, r1, r2, r3, r5, r6, r7, r8, r9, r10]
  have r11 : ∀ m : Nat → MovingBase,
      save_prev { t with moving_base := m } = { t with moving_base := m } := fun m =>
    (revert_same { t with moving_base := m } (tvx.trans tx.symm) (tvy.trans ty.symm)
      (tvz.trans tz.symm)).2
  rw [r11, tm, ← ht]
  rfl

theorem platform_iterate_xz (m : MovingBase) (n : Nat) :
    (Nat.iterate platform_step n m).x = m.x ∧ (Nat.iterate platform_step n m).z = m.z := by
  induction n with
  | zero => exact ⟨rfl, rfl⟩
  | succ n ih =>
    rw [Function.iterate_succ_apply', platform_step_x, platform_step_z]
    exact ih

/-- Another health and other heights of the platforms leave a stuck player
stuck. -/
theorem stuck_drain (s : State) (hs : Stuck s) (h : ℚ) (m : Nat → MovingBase)
    (hm : ∀ i, (m i).x = (s.moving_base i).x ∧ (m i).z = (s.moving_base i).z)
    (h5 : ∀ i, 5 ≤ i → m i = s.moving_base i) : Stuck (drain_to h m s) := by
  obtain ⟨⟨s1, s2, s3, s4, s5, s6, s7, s8⟩, a, b, c, d, e, f, g1, g2, g3⟩ := hs
  refine ⟨⟨s1, s2, s3, s4, s5, s6, s7, fun i hi => (h5 i hi).trans (s8 i hi)⟩, a, b, c, d, e, f,
    ?_, ?_, ?_⟩
  · exact (hm 0).1.trans g1
  · exact (hm 0).2.trans g2
  · intro i h1 h2
    show (m i).x ≤ 125
    rw [(hm i).1]
    exact g3 i h1 h2

/-- A stuck player stays stuck as long as the health lasts: `n` ticks take
`0.1 * n` health and animate the platforms `n` times. -/
theorem stuck_iterate (s : State) (hs : Stuck s) (n : Nat)
    (hh : 0.1 * (n : ℚ) < s.person_health) :
    Nat.iterate draw n s = drain_to (s.person_health - 0.1 * (n : ℚ))
      (fun i => if i < 5 then Nat.iterate platform_step n (s.moving_base i)
        else s.moving_base i) s := by
  induction n with
  | zero =>
    have e1 : s.person_health - 0.1 * ((0 : Nat) : ℚ) = s.person_health := by norm_num
    have e2 : (fun i => if i < 5 then Nat.iterate platform_step 0 (s.moving_base i)
        else s.moving_base i) = s.moving_base := by
      funext i
      split_ifs <;> rfl
    rw [e1, e2]
    rfl
  | succ n ih =>
    have hn : 0.1 * (n : ℚ) < s.person_health := by
      push_cast at hh
      linarith
    rw [Function.iterate_succ_apply', ih hn]
    have hst := stuck_drain s hs (s.person_health - 0.1 * (n : ℚ))
      (fun i => if i < 5 then Nat.iterate platform_step n (s.moving_base i)
        else s.moving_base i)
      (fun i => by
        dsimp only
        split_ifs
        · exact platform_iterate_xz _ n
        · exact ⟨rfl, rfl⟩)
      (fun i hi => if_neg (by omega))
    rw [stuck_tick _ hst (by
      show 0.1 < s.person_health - 0.1 * (n : ℚ)
      push_cast at hh
      linarith)]
    have e1 : s.person_health - 0.1 * (n : ℚ) - 0.1 = s.person_health - 0.1 * ((n + 1 : Nat) : ℚ) := by
      push_cast
      ring
    have e2 : (fun i => if i < 5 then platform_step
          (if i < 5 then Nat.iterate platform_step n (s.moving_base i) else s.moving_base i)
        else if i < 5 then Nat.iterate platform_step n (s.moving_base i) else s.moving_base i) =
        (fun i => if i < 5 then Nat.iterate platform_step (n + 1) (s.moving_base i)
          else s.moving_base i) := by
      funext i
      by_cases c : i < 5
      · rw [if_pos c, if_pos c, if_pos c, Function.iterate_succ_apply']
      · rw [if_neg c, if_neg c, if_neg c]
    rw [← e1, ← e2]
    rfl

/-- The ticks of a stuck player are ticks of a run. -/
theorem stuck_reachable (s : State) (hs : Stuck s) (hr : Reachable s) (n : Nat)
    (hh : 0.1 * (n : ℚ) < s.person_health) : Reachable (Nat.iterate draw n s) := by
  induction n with
  | zero => exact hr
  | succ n ih =>
    have hn : 0.1 * (n : ℚ) < s.person_health := by
      push_cast at hh
      linarith
    rw [Function.iterate_succ_apply']
    apply Reachable.draw _ (ih hn)
    rw [stuck_iterate s hs n hn]
    show s.gameend ≠ 1
    rw [hs.2.2.2.1.2.2.1]
    decide

set_option maxRecDepth 1000000 in
set_option maxHeartbeats 0 in
/-- One tick after `trip_end` with `DOWN` released ends in `stuck_start`. -/
theorem run_stuck_start : run [[(Key.DOWN, Action.RELEASE)]] trip_end = some stuck_start := by
  apply run_eq_of_check
  decide!

theorem stuck_start_stuck : Stuck (toState stuck_start) := by
  refine ⟨static_toState _, ⟨by decide!, by decide!, by decide!⟩,
    ⟨by decide!, by decide!, by decide!⟩, ⟨by decide!, by decide!, by decide!, by decide!⟩,
    ⟨by decide!, by decide!, by decide!⟩, ⟨⟨by decide!, by decide!, by decide!, by decide!⟩,
      by decide!⟩, ⟨by decide!, by decide!⟩, by decide!, by decide!, ?_⟩
  intro i h1 h5
  interval_cases i <;> decide!

set_option maxRecDepth 1000000 in
/-- The animation of a platform has period 242: after 242 steps each row of
`stuck_start` is what it was. -/
theorem platform_period :
    Nat.iterate platform_step 242 stuck_start.mb0 = stuck_start.mb0 ∧
    Nat.iterate platform_step 242 stuck_start.mb1 = stuck_start.mb1 ∧
    Nat.iterate platform_step 242 stuck_start.mb2 = stuck_start.mb2 ∧
    Nat.iterate platform_step 242 stuck_start.mb3 = stuck_start.mb3 ∧
    Nat.iterate platform_step 242 stuck_start.mb4 = stuck_start.mb4 := by
  refine ⟨?_, ?_, ?_, ?_, ?_⟩ <;> decide!

/-- From `stuck_start`, 968 ticks without a key event end in `stuck_late`. -/
theorem stuck_late_eq : Nat.iterate draw 968 (toState stuck_start) = toState stuck_late := by
  have hh : (0.1 : ℚ) * ((968 : Nat) : ℚ) < (toState stuck_start).person_health := by
    show (0.1 : ℚ) * ((968 : Nat) : ℚ) < 99.75
    norm_num
  rw [stuck_iterate _ stuck_start_stuck 968 hh]
  have e1 : (toState stuck_start).person_health - 0.1 * ((968 : Nat) : ℚ) = 2.95 := by
    show (99.75 : ℚ) - 0.1 * ((968 : Nat) : ℚ) = 2.95
    norm_num
  have per : ∀ m : MovingBase, Nat.iterate platform_step 242 m = m →
      Nat.iterate platform_step 968 m = m := by
    intro m h
    have e : (968 : Nat) = 242 * 4 := by norm_num
    rw [e, Function.iterate_mul]
    exact Function.iterate_fixed h 4
  obtain ⟨p0, p1, p2, p3, p4⟩ := platform_period
  have e2 : (fun i => if i < 5 then Nat.iterate platform_step 968
        ((toState stuck_start).moving_base i) else (toState stuck_start).moving_base i) =
      (toState stuck_start).moving_base := by
    funext i
    by_cases c : i < 5
    · rw [if_pos c]
      interval_cases i
      · exact per _ p0
      · exact per _ p1
      · exact per _ p2
      · exact per _ p3
      · exact per _ p4
    · rw [if_neg c]
  rw [e1, e2]
  rfl

set_option maxRecDepth 1000000 in
set_option maxHeartbeats 0 in
/-- From `stuck_late`, the 29 ticks of `last_ticks` pass the check of every
tick and end in `spent`. -/
theorem run_last : run last_ticks stuck_late = some spent := by
  apply run_eq_of_check
  decide!

set_option maxRecDepth 1000000 in
set_option maxHeartbeats 0 in
/-- The tick after `spent` passes the check, and ends with the health at
-0.1. -/
theorem spent_tick : tick_ok (toState spent) = true ∧ (toState spent).gameend ≠ 1 ∧
    (fast_draw (toState spent)).person_health = -0.1 := by
  decide!

/-- The steps before the respawn check do not raise the health. -/
theorem before_respawn_health_le (s : State) :
    (before_respawn s).person_health ≤ s.person_health := by
  unfold before_respawn
  rw [hand_speed_frame State.person_health (fun _ _ => rfl)]
  have e : ∀ t : State, (health_decay t).person_health ≤ t.person_health := by
    intro t
    unfold health_decay
    split_ifs
    · show t.person_health - 0.1 ≤ t.person_health
      linarith
    · exact le_refl _
  refine le_trans (e _) ?_
  rw [hand_reset_frame State.person_health (fun _ _ => rfl),
    move_frame State.person_health (fun _ _ _ _ => rfl),
    bounds_frame State.person_health (fun _ _ => rfl),
    normalize_direction_frame State.person_health (fun _ _ => rfl)]

/-- A tick of a run in which the respawn step fires ends with the health at
100: the player is put on the start cell, at its standing height, with no key,
where neither a cell test nor a wall takes health. -/
theorem draw_health_after_respawn {s : State} (hs : Reachable s)
    (hf : respawn_fires (before_respawn s)) : (draw s).person_health = 100 := by
  obtain ⟨px, pz, pk⟩ := at_pickups_after_respawn hs hf
  have ex : start_xz = 337.5 := by
    unfold start_xz length_of_cube_base length_of_base; norm_num
  have hp : pickups (at_pickups s) = at_pickups s := by
    apply pickups_fixed
    · rw [px, ex]; rintro ⟨h, _⟩; norm_num at h
    · rw [px, ex]; rintro ⟨_, _, h⟩; norm_num at h
    · rw [pz, ex]; rintro ⟨_, h⟩; norm_num at h
  have hw : wall_pass (fall (at_pickups s)) = fall (at_pickups s) := by
    apply wall_pass_fixed
    rw [fall_frame State.key (fun _ _ _ _ _ => rfl), pk]
    norm_num
  have hR : respawn (before_respawn s) = respawn_body (before_respawn s) := if_pos hf
  have hU : at_unlock s = jump (respawn_body (before_respawn s)) := by
    unfold at_unlock
    rw [hR]
    apply unlock_fixed
    rw [jump_frame State.key (fun _ _ _ _ => rfl)]
    show (0 : ℚ) < 1
    norm_num
  have hx : (at_unlock s).person_x = cell_center 28 := by
    rw [hU, jump_frame State.person_x (fun _ _ _ _ => rfl), ← start_xz_eq]; rfl
  have hz : (at_unlock s).person_z = cell_center 28 := by
    rw [hU, jump_frame State.person_z (fun _ _ _ _ => rfl), ← start_xz_eq]; rfl
  have hh : (at_unlock s).heights 28 28 = 5 := by
    rw [at_unlock_heights_off_gate s 28 28 (by unfold Gating; decide),
      reachable_heights_off_gate hs 28 28 (by unfold Gating; decide)]
    decide!
  have hy : (at_unlock s).person_y =
      length_of_cube_base / 2 + ((at_unlock s).heights 28 28 - 1) * length_of_cube_base := by
    rw [hh, hU, jump_frame State.person_y (fun _ _ _ _ => rfl)]
    show start_y = _
    unfold start_y length_of_cube_base height_of_base
    norm_num
  have hT : terrain (at_unlock s) = at_unlock s := terrain_fixed _ 28 28 hx hz hy
  have h0 : (at_unlock s).person_health = 100 := by
    rw [hU, jump_frame State.person_health (fun _ _ _ _ => rfl)]
    rfl
  rw [draw_eq, save_prev_frame State.person_health (fun _ _ _ _ => rfl),
    platform_pass_frame State.person_health (fun _ _ _ _ _ _ _ => rfl),
    spike_pass_frame State.person_health (fun _ _ _ => rfl), hp, hw,
    fall_frame State.person_health (fun _ _ _ _ _ => rfl)]
  unfold at_pickups
  rw [obstacle_pass_frame State.person_health (fun _ _ _ _ => rfl),
    pit_pass_frame State.person_health (fun _ _ => rfl), hT]
  exact h0

/-- No step of a tick raises the health above 100. -/
theorem draw_health_le (s : State) (h : s.person_health ≤ 100) :
    (draw s).person_health ≤ 100 := by
  have h1 : (before_respawn s).person_health ≤ 100 := by
    unfold before_respawn
    rw [hand_speed_frame State.person_health (fun _ _ => rfl)]
    have e : ∀ t : State, (health_decay t).person_health ≤ t.person_health := by
      intro t
      unfold health_decay
      split_ifs
      · show t.person_health - 0.1 ≤ t.person_health
        linarith
      · exact le_refl _
    refine le_trans (e _) ?_
    rw [hand_reset_frame State.person_health (fun _ _ => rfl),
      move_frame State.person_health (fun _ _ _ _ => rfl),
      bounds_frame State.person_health (fun _ _ => rfl),
      normalize_direction_frame State.person_health (fun _ _ => rfl)]
    exact h
  have h2 : (respawn (before_respawn s)).person_health ≤ 100 := by
    unfold respawn
    split_ifs
    · exact le_refl _
    · exact h1
  have h3 : (unlock (jump (respawn (before_respawn s)))).person_health ≤ 100 := by
    rw [unlock_frame State.person_health (fun _ _ => rfl),
      jump_frame State.person_health (fun _ _ _ _ => rfl)]
    exact h2
  have hc : ∀ (a b : Nat) (t : State), (cell_test a b t).person_health ≤ t.person_health := by
    intro a b t
    unfold cell_test
    dsimp only
    split_ifs
    · show t.person_health - 0.15 ≤ t.person_health
      linarith
    · exact le_refl _
    · exact le_refl _
    · exact le_refl _
  have hp : ∀ (r1 r2 c1 c2 : Nat) (t : State), t.person_health ≤ 100 →
      (cell_pass r1 r2 c1 c2 t).person_health ≤ 100 := by
    intro r1 r2 c1 c2 t ht
    unfold cell_pass
    refine foldl_preserves (fun u : State => u.person_health ≤ 100) _ _ _ ht ?_
    intro u i2 _ hu
    refine foldl_preserves (fun u : State => u.person_health ≤ 100) _ _ _ hu ?_
    intro v i _ hv
    exact le_trans (hc i2 i v) hv
  have h4 : (terrain (unlock (jump (respawn (before_respawn s))))).person_health ≤ 100 := by
    have e0 : ∀ t : State, t.person_health ≤ 100 → (terrain0 t).person_health ≤ 100 := by
      intro t ht
      unfold terrain0
      split_ifs
      · exact hp _ _ _ _ t ht
      · exact ht
    have e1 : ∀ t : State, t.person_health ≤ 100 → (terrain1 t).person_health ≤ 100 := by
      intro t ht
      unfold terrain1
      split_ifs
      · exact hp _ _ _ _ t ht
      · exact ht
    unfold terrain
    exact e1 _ (e0 _ h3)
  have h5 : (fall (pickups (at_pickups s))).person_health ≤ 100 := by
    unfold at_pickups at_unlock
    rw [fall_frame State.person_health (fun _ _ _ _ _ => rfl),
      pickups_frame State.person_health (fun _ _ _ _ => rfl),
      obstacle_pass_frame State.person_health (fun _ _ _ _ => rfl),
      pit_pass_frame State.person_health (fun _ _ => rfl)]
    exact h4
  have hw : ∀ (i : Nat) (t : State), (wall_iter i t).person_health ≤ t.person_health := by
    intro i t
    have w1 : ∀ u : State, (wall_hit i u).person_health ≤ u.person_health := by
      intro u
      unfold wall_hit
      dsimp only
      split_ifs <;>
        first
        | exact le_refl u.person_health
        | (show u.person_health - 0.1 ≤ u.person_health
           linarith)
    have w2 : ∀ u : State, (wall_advance i u).person_health = u.person_health := by
      intro u
      unfold wall_advance
      split_ifs <;> rfl
    have w3 : ∀ u : State, (wall_turn i u).person_health = u.person_health := by
      intro u
      unfold wall_turn
      split_ifs <;> rfl
    unfold wall_iter
    rw [w3, w2]
    exact w1 t
  have h6 : (wall_pass (fall (pickups (at_pickups s)))).person_health ≤ 100 := by
    unfold wall_pass
    split_ifs
    · refine foldl_preserves (fun u : State => u.person_health ≤ 100) _ _ _ h5 ?_
      intro u i _ hu
      exact le_trans (hw i u) hu
    · exact h5
  rw [draw_eq, save_prev_frame State.person_health (fun _ _ _ _ => rfl),
    platform_pass_frame State.person_health (fun _ _ _ _ _ _ _ => rfl),
    spike_pass_frame State.person_health (fun _ _ _ => rfl)]
  exact h6

theorem reachable_health_le {s : State} (hs : Reachable s) : s.person_health ≤ 100 := by
  induction hs with
  | init =>
    have e : init.person_health = 100 := by decide!
    rw [e]
  | draw s _ _ ih => exact draw_health_le s ih
  | keyboard s k a _ ih =>
    rw [keyboard_frame State.person_health (fun _ _ _ _ _ _ _ _ _ _ => rfl)]
    exact ih

/-- The state before the last tick of the run is a state of a run: the 162
ticks of `platform_trip`, one tick with `DOWN` released, 968 ticks without a
key, and the 29 ticks of `last_ticks`. -/
theorem spent_reachable : Reachable (toState spent) := by
  have r0 : Reachable (toState trip_end) :=
    run_sound platform_trip (fromState init) trip_end run_trip
      (by rw [toState_init]; exact Reachable.init)
  have r1 : Reachable (toState stuck_start) :=
    run_sound _ trip_end stuck_start run_stuck_start r0
  have r2 : Reachable (toState stuck_late) := by
    rw [← stuck_late_eq]
    apply stuck_reachable _ stuck_start_stuck r1
    show (0.1 : ℚ) * ((968 : Nat) : ℚ) < 99.75
    norm_num
  exact run_sound last_ticks stuck_late spent run_last r2

/-- The tick after `spent` is a tick of a run, and it ends with the health at
-0.1. -/
theorem dipped_eq : Reachable dipped ∧ dipped.person_health = -0.1 := by
  obtain ⟨hok, hge, hd⟩ := spent_tick
  have e : draw (toState spent) = fast_draw (toState spent) :=
    draw_fast _ (static_toState spent) hok
  refine ⟨Reachable.draw _ spent_reachable hge, ?_⟩
  show (draw (toState spent)).person_health = -0.1
  rw [e]
  exact hd

/-- C26, counterexample to the lower bound: a state of a run whose tick ends
with `person_health = -0.1`, outside `[0, 100]`. The 162 ticks of
`platform_trip` leave the player stuck at `y = 112` inside the column of cell
(23, 23), where the health decay of line 1473 takes 0.1 in every tick; after one
tick with `DOWN` released, 968 ticks without a key and the 29 ticks of
`last_ticks` (the last one with `SPACE`, which lands the player on top of the
column at `y = 125.5`) the health is 0.05 (`spent`). The next tick passes the
respawn check of line 1508, and the push-down of its cell test (line 1605)
takes 0.15. -/
theorem C26_counterexample :
    Reachable (toState spent) ∧ (toState spent).gameend ≠ 1 ∧
      (toState spent).person_health = 0.05 ∧ Reachable (draw (toState spent)) ∧
      (draw (toState spent)).person_health = -0.1 ∧
      ¬ (0 ≤ (draw (toState spent)).person_health ∧
        (draw (toState spent)).person_health ≤ 100) := by
  obtain ⟨hr, hd⟩ := dipped_eq
  have hd' : (draw (toState spent)).person_health = -0.1 := hd
  refine ⟨spent_reachable, spent_tick.2.1, by decide!, hr, hd', ?_⟩
  rw [hd']
  norm_num

/-- C26, amended: in every state of a run `person_health` is at most 100. It
can be 0 or less at the end of a tick, and then the next tick resets it: the
steps before the respawn check do not raise the health, the check
`person_health<=0` of line 1508 fires, and the tick ends with
`person_health = 100`. A tick in which the respawn step does not fire passes
the check with the health above 0. -/
theorem C26_health_range (s : State) (hs : Reachable s) :
    s.person_health ≤ 100 ∧
    (s.person_health ≤ 0 →
      respawn_fires (before_respawn s) ∧ (draw s).person_health = 100) ∧
    (¬ respawn_fires (before_respawn s) → 0 < (before_respawn s).person_health) := by
  refine ⟨reachable_health_le hs, ?_, ?_⟩
  · intro h
    have hf : respawn_fires (before_respawn s) :=
      Or.inr (Or.inl (le_trans (before_respawn_health_le s) h))
    exact ⟨hf, draw_health_after_respawn hs hf⟩
  · intro hn
    exact not_le.mp (fun h => hn (Or.inr (Or.inl h)))

/-- C26 at the state `dipped`, which ends a tick of a run with the health at
-0.1: the next tick ends with the health at 100. -/
theorem C26_health_range_witness :
    Reachable dipped ∧ dipped.person_health ≤ 0 ∧ dipped.person_health ≤ 100 ∧
      (draw dipped).person_health = 100 :=
  ⟨dipped_eq.1, by rw [dipped_eq.2]; norm_num, (C26_health_range dipped dipped_eq.1).1,
    ((C26_health_range dipped dipped_eq.1).2.1 (by rw [dipped_eq.2]; norm_num)).2⟩

end Veeru
